import Mathlib

/- Verification of the TinyChain IR crate (tc-ir): the v1-compatible JSON wire
   codec for Scalar / TCRef / OpRef / OpDef, the Dir router, the library
   schema, and the transaction header / claim codecs.

   The Rust source is shallowly embedded. JSON documents are a tree type, the
   destream visitors become structural recursion over that tree, and external
   crates (pathlink, hr-id, tc-value, number-general, umask) are modelled from
   the specification where their behaviour matters; every such definition is
   marked in its doc comment. Wire strings are plain character lists so that
   all parsing functions are structurally recursive and computable. -/

/-- Characters of a wire string; the embedding works over plain character
lists so that all string functions are structurally recursive. -/
abbrev Str := List Char

/-- Modelled from the spec: the hr-id identifier grammar. An `Id` is a
non-empty string; the characters `/` and `$` are reserved by the path and
scope-reference syntax and may not appear in an identifier. -/
def validIdChar (c : Char) : Bool :=
  c ≠ '/' && c ≠ '$'

/-- Modelled from the spec: validity of an `Id` (and of a `PathSegment`). -/
def validId (s : Str) : Bool :=
  !s.isEmpty && s.all validIdChar

/-- Split a string on every occurrence of the character `c` (the pieces do not
contain `c`; n delimiters yield n+1 pieces). -/
def splitChar (c : Char) : Str → List Str
  | [] => [[]]
  | x :: xs =>
    if x = c then [] :: splitChar c xs
    else
      match splitChar c xs with
      | [] => [[x]]
      | p :: ps => (x :: p) :: ps

/-- Split at the first occurrence of `c`, dropping the delimiter (the model of
Rust `split_once`). -/
def splitAtFirstDrop (c : Char) : Str → Option (Str × Str)
  | [] => none
  | x :: xs =>
    if x = c then some ([], xs)
    else (splitAtFirstDrop c xs).map (fun p => (x :: p.1, p.2))

theorem splitChar_no_delim (c : Char) (s : Str) (h : s.all (· ≠ c)) :
    splitChar c s = [s] := by
  induction s with
  | nil => rfl
  | cons x xs ih =>
    simp only [List.all_cons, Bool.and_eq_true, decide_eq_true_eq] at h
    simp only [splitChar, if_neg h.1, ih h.2]

theorem splitChar_append (c : Char) (x y : Str) (hx : x.all (· ≠ c)) :
    splitChar c (x ++ c :: y) = x :: splitChar c y := by
  induction x with
  | nil => simp [splitChar]
  | cons a as ih =>
    simp only [List.all_cons, Bool.and_eq_true, decide_eq_true_eq] at hx
    simp only [List.cons_append, splitChar, List.append_eq, if_neg hx.1, ih hx.2]

theorem splitAtFirstDrop_no (c : Char) (s : Str) (h : s.all (· ≠ c)) :
    splitAtFirstDrop c s = none := by
  induction s with
  | nil => rfl
  | cons x xs ih =>
    simp only [List.all_cons, Bool.and_eq_true, decide_eq_true_eq] at h
    simp only [splitAtFirstDrop, if_neg h.1, ih h.2, Option.map_none']

theorem splitAtFirstDrop_append (c : Char) (x y : Str) (hx : x.all (· ≠ c)) :
    splitAtFirstDrop c (x ++ c :: y) = some (x, y) := by
  induction x with
  | nil => simp [splitAtFirstDrop]
  | cons a as ih =>
    simp only [List.all_cons, Bool.and_eq_true, decide_eq_true_eq] at hx
    simp only [List.cons_append, splitAtFirstDrop, List.append_eq, if_neg hx.1,
      ih hx.2, Option.map_some']

/-- Render a non-empty segment list as `/a/b`-style text (empty list renders
as the empty string; used below a leading component). -/
def segsRenderNE : List Str → Str
  | [] => []
  | s :: rest => '/' :: (s ++ segsRenderNE rest)

/-- Modelled from the spec: the pathlink textual form of a path. The empty
path renders as the single character `/`. -/
def segsRender (segs : List Str) : Str :=
  match segs with
  | [] => ['/']
  | _ => segsRenderNE segs

/-- Modelled from the spec: pathlink `PathBuf::from_str`. A path is a leading
slash followed by slash-separated valid segments; `/` alone is the empty
path. -/
def pathParse (s : Str) : Option (List Str) :=
  match s with
  | '/' :: rest =>
    if rest.isEmpty then some []
    else
      let parts := splitChar '/' rest
      if parts.all validId then some parts else none
  | _ => none

theorem validId_all_ne_slash (s : Str) (h : validId s = true) :
    s.all (· ≠ '/') = true := by
  simp only [validId, Bool.and_eq_true, List.all_eq_true] at h
  simp only [List.all_eq_true, decide_eq_true_eq]
  intro x hx
  have := h.2 x hx
  simp only [validIdChar, Bool.and_eq_true, decide_eq_true_eq] at this
  exact this.1

theorem splitChar_segsRenderNE (s : Str) (rest : List Str)
    (hs : validId s = true) (hrest : rest.all validId = true) :
    splitChar '/' (s ++ segsRenderNE rest) = s :: rest := by
  induction rest generalizing s with
  | nil =>
    simp only [segsRenderNE, List.append_nil]
    exact splitChar_no_delim '/' s (validId_all_ne_slash s hs)
  | cons t more ih =>
    simp only [List.all_cons, Bool.and_eq_true] at hrest
    have : s ++ segsRenderNE (t :: more) = s ++ '/' :: (t ++ segsRenderNE more) := by
      simp [segsRenderNE]
    rw [this, splitChar_append '/' s _ (validId_all_ne_slash s hs),
      ih t hrest.1 hrest.2]

theorem pathParse_segsRender (segs : List Str) (h : segs.all validId = true) :
    pathParse (segsRender segs) = some segs := by
  cases segs with
  | nil => rfl
  | cons s rest =>
    simp only [List.all_cons, Bool.and_eq_true] at h
    have hs1 : s ≠ [] := by
      have h1 := h.1
      intro hnil
      subst hnil
      simp [validId] at h1
    have hne : (s ++ segsRenderNE rest).isEmpty = false := by
      cases s with
      | nil => exact absurd rfl hs1
      | cons a as => rfl
    have hsplit := splitChar_segsRenderNE s rest h.1 h.2
    simp only [segsRender, segsRenderNE, pathParse, hne, Bool.false_eq_true,
      if_false, hsplit, List.all_cons, Bool.and_eq_true, h.1, h.2, and_self,
      if_true]

/-- Strict lexicographic order on strings by character code (the model of the
ordering a BTreeMap keyed by hr-id `Id` uses). -/
def strLt : Str → Str → Bool
  | [], [] => false
  | [], _ :: _ => true
  | _ :: _, [] => false
  | a :: as, b :: bs => if a < b then true else if b < a then false else strLt as bs

/-- Decimal digit characters. -/
def digitChar : Nat → Char
  | 0 => '0'
  | 1 => '1'
  | 2 => '2'
  | 3 => '3'
  | 4 => '4'
  | 5 => '5'
  | 6 => '6'
  | 7 => '7'
  | 8 => '8'
  | 9 => '9'
  | _ => '*'

/-- Decimal digit values. -/
def digitVal (c : Char) : Option Nat :=
  if c = '0' then some 0
  else if c = '1' then some 1
  else if c = '2' then some 2
  else if c = '3' then some 3
  else if c = '4' then some 4
  else if c = '5' then some 5
  else if c = '6' then some 6
  else if c = '7' then some 7
  else if c = '8' then some 8
  else if c = '9' then some 9
  else none

theorem digitVal_digitChar (d : Nat) (h : d < 10) :
    digitVal (digitChar d) = some d := by
  interval_cases d <;> rfl

/-- Fuel-driven decimal rendering of a natural number (structural in the fuel
so that it evaluates by rfl). -/
def natRenderAux : Nat → Nat → Str
  | 0, _ => []
  | fuel + 1, n =>
    if n < 10 then [digitChar n]
    else natRenderAux fuel (n / 10) ++ [digitChar (n % 10)]

/-- Decimal rendering of a natural number (the model of Rust Display for
unsigned integers). -/
def natRender (n : Nat) : Str :=
  natRenderAux (n + 1) n

/-- Fold decimal digits onto an accumulator; fails at the first non-digit. -/
def natParseAux : Str → Nat → Option Nat
  | [], acc => some acc
  | c :: cs, acc =>
    match digitVal c with
    | some d => natParseAux cs (acc * 10 + d)
    | none => none

/-- Modelled from the spec: Rust `str::parse` for unsigned integers (digits
only, non-empty); range checks are applied by callers. -/
def natParse (s : Str) : Option Nat :=
  if s.isEmpty then none else natParseAux s 0

theorem natParseAux_append (x y : Str) (acc : Nat) :
    natParseAux (x ++ y) acc =
      match natParseAux x acc with
      | some m => natParseAux y m
      | none => none := by
  induction x generalizing acc with
  | nil => rfl
  | cons c cs ih =>
    simp only [List.cons_append, natParseAux]
    cases digitVal c with
    | none => rfl
    | some d => exact ih (acc * 10 + d)

theorem natParseAux_renderAux (fuel n acc : Nat) (h : n < fuel) :
    natParseAux (natRenderAux fuel n) acc =
      some (acc * 10 ^ (natRenderAux fuel n).length + n) := by
  induction fuel generalizing n acc with
  | zero => omega
  | succ fuel ih =>
    by_cases hn : n < 10
    · simp only [natRenderAux, if_pos hn, natParseAux,
        digitVal_digitChar n hn, List.length_cons, List.length_nil]
      norm_num
    · simp only [natRenderAux, if_neg hn]
      have hdiv : n / 10 < fuel := by
        have h1 : n / 10 < n := Nat.div_lt_self (by omega) (by omega)
        omega
      rw [natParseAux_append]
      rw [ih (n / 10) acc hdiv]
      simp only [natParseAux, digitVal_digitChar (n % 10) (Nat.mod_lt n (by omega))]
      rw [List.length_append]
      simp only [List.length_cons, List.length_nil]
      have : (acc * 10 ^ (natRenderAux fuel (n / 10)).length + n / 10) * 10 + n % 10 =
          acc * 10 ^ ((natRenderAux fuel (n / 10)).length + (0 + 1)) + n := by
        rw [pow_succ]
        have := Nat.div_add_mod n 10
        ring_nf
        omega
      rw [this]

theorem natRender_ne_nil (n : Nat) : natRender n ≠ [] := by
  unfold natRender natRenderAux
  by_cases h : n < 10
  · simp [h]
  · simp [h]

theorem natParse_natRender (n : Nat) : natParse (natRender n) = some n := by
  have hne := natRender_ne_nil n
  have : (natRender n).isEmpty = false := by
    cases h : natRender n with
    | nil => exact absurd h hne
    | cons a as => rfl
  rw [natParse, this]
  simp only [Bool.false_eq_true, if_false]
  rw [natRender, natParseAux_renderAux (n + 1) n 0 (Nat.lt_succ_self n)]
  simp

theorem natRender_all_digits (n : Nat) :
    (natRender n).all (fun c => (digitVal c).isSome) = true := by
  rw [natRender]
  generalize hf : n + 1 = fuel
  have h : n < fuel := by omega
  clear hf
  induction fuel generalizing n with
  | zero => omega
  | succ fuel ih =>
    by_cases hn : n < 10
    · simp [natRenderAux, hn, digitVal_digitChar n hn]
    · have hdiv : n / 10 < fuel := by
        have h1 : n / 10 < n := Nat.div_lt_self (by omega) (by omega)
        omega
      simp only [natRenderAux, if_neg hn, List.all_append, Bool.and_eq_true]
      refine ⟨ih (n / 10) hdiv, ?_⟩
      simp [digitVal_digitChar (n % 10) (Nat.mod_lt n (by omega))]

/-- Check whether `a` is an initial run of `b`. -/
def isInitOf : Str → Str → Bool
  | [], _ => true
  | _ :: _, [] => false
  | a :: as, b :: bs => a = b && isInitOf as bs

/-- Substring containment (used to state what an error message names). -/
def containsStr (hay needle : Str) : Bool :=
  match hay with
  | [] => needle.isEmpty
  | _ :: tl => isInitOf needle hay || containsStr tl needle

/-- Shorthand for building wire strings from literals. -/
def seg (s : String) : Str := s.data


/-- Modelled from the spec: pathlink `Link` - an absolute path. The optional
host qualifier never appears in the wire fragments exercised here and is not
modelled. -/
structure Link where
  segs : List Str
  deriving DecidableEq

/-- Textual form of a link (pathlink Display). -/
def Link.render (l : Link) : Str := segsRender l.segs

/-- Modelled from the spec: pathlink `Link::from_str` for path-only links. -/
def Link.parse (s : Str) : Option Link := (pathParse s).map Link.mk

theorem Link.parse_render (l : Link) (h : l.segs.all validId = true) :
    Link.parse (Link.render l) = some l := by
  simp [Link.parse, Link.render, pathParse_segsRender l.segs h]

/-- IdRef::from_str from src/scalar.rs: a leading dollar sign, at least one
further character, and the remainder must parse as an Id (the hr-id grammar
is modelled by validId). Returns the inner id. -/
def idRefFromStr (s : Str) : Except String Str :=
  match s with
  | '$' :: rest =>
    if rest.isEmpty then .error "invalid IdRef"
    else if validId rest then .ok rest else .error "invalid Id"
  | _ => .error "invalid IdRef"

theorem idRefFromStr_render (id : Str) (h : validId id = true) :
    idRefFromStr ('$' :: id) = .ok id := by
  have hne : id.isEmpty = false := by
    simp only [validId, Bool.and_eq_true, Bool.not_eq_eq_eq_not, Bool.not_true] at h
    exact h.1
  simp [idRefFromStr, hne, h]

/-- The subject of an op, from src/scalar.rs: a concrete link or a scoped
reference plus a suffix path. -/
inductive Subject where
  | link (l : Link)
  | ref (id : Str) (suffix : List Str)
  deriving DecidableEq

/-- Display for Subject from src/scalar.rs: a link renders as its path text; a
scoped ref renders as the dollar-tagged id alone when the suffix is empty and
followed by the suffix path otherwise. -/
def Subject.render : Subject → Str
  | .link l => l.render
  | .ref id suffix =>
    if suffix.isEmpty then '$' :: id
    else '$' :: id ++ segsRenderNE suffix

/-- subject_from_str from src/scalar.rs: a dollar-leading string splits at the
first slash into an IdRef and a suffix path; anything else must parse as a
Link. -/
def subjectFromStr (s : Str) : Except String Subject :=
  match s with
  | '$' :: _ =>
    match splitAtFirstDrop '/' s with
    | some (left, right) =>
      match pathParse ('/' :: right) with
      | some path =>
        match idRefFromStr left with
        | .ok id => .ok (.ref id path)
        | .error e => .error e
      | none => .error "invalid suffix path"
    | none =>
      match idRefFromStr s with
      | .ok id => .ok (.ref id [])
      | .error e => .error e
  | _ =>
    match Link.parse s with
    | some l => .ok (.link l)
    | none => .error "invalid link"

/-- Wellformedness of a subject: identifiers and path segments are valid. -/
def wfSubjectBasic : Subject → Bool
  | .link l => l.segs.all validId
  | .ref id suffix => validId id && suffix.all validId

theorem dollar_id_all_ne_slash (id : Str) (h : validId id = true) :
    ('$' :: id).all (· ≠ '/') = true := by
  simp only [List.all_cons, Bool.and_eq_true, decide_eq_true_eq]
  exact ⟨by decide, validId_all_ne_slash id h⟩

theorem subjectFromStr_render (s : Subject) (h : wfSubjectBasic s = true) :
    subjectFromStr (Subject.render s) = .ok s := by
  cases s with
  | link l =>
    obtain ⟨lsegs⟩ := l
    simp only [wfSubjectBasic] at h
    have hp := pathParse_segsRender lsegs h
    cases hsegs : lsegs with
    | nil =>
      simp only [Subject.render, Link.render, hsegs, segsRender]
      simp [subjectFromStr, Link.parse, pathParse, hsegs]
    | cons a as =>
      have ha : validId a = true := by
        rw [hsegs] at h
        simp only [List.all_cons, Bool.and_eq_true] at h
        exact h.1
      have ha1 : a ≠ [] := by
        intro hnil
        subst hnil
        simp [validId] at ha
      have hd : ∃ c cs, a = c :: cs ∧ c ≠ '$' ∧ c ≠ '/' := by
        cases a with
        | nil => exact absurd rfl ha1
        | cons c cs =>
          refine ⟨c, cs, rfl, ?_, ?_⟩
          · have := ha
            simp only [validId, List.all_cons, Bool.and_eq_true,
              validIdChar, decide_eq_true_eq] at this
            exact this.2.1.2
          · have := ha
            simp only [validId, List.all_cons, Bool.and_eq_true,
              validIdChar, decide_eq_true_eq] at this
            exact this.2.1.1
      obtain ⟨c, cs, hac, hc1, hc2⟩ := hd
      simp only [Subject.render, Link.render, hsegs, segsRender, segsRenderNE, hac]
      rw [hsegs] at hp
      simp only [segsRender, segsRenderNE, hac] at hp
      simp only [subjectFromStr, List.cons_append]
      rw [show Link.parse ('/' :: (c :: (cs ++ segsRenderNE as))) =
        (pathParse ('/' :: (c :: (cs ++ segsRenderNE as)))).map Link.mk from rfl]
      rw [show ('/' :: (c :: (cs ++ segsRenderNE as))) =
        '/' :: ((c :: cs) ++ segsRenderNE as) from rfl] at *
      rw [hp]
      simp [hsegs, hac]
  | ref id suffix =>
    simp only [wfSubjectBasic, Bool.and_eq_true] at h
    cases hsuf : suffix with
    | nil =>
      simp only [Subject.render, hsuf, List.isEmpty_nil, if_true]
      have hid := idRefFromStr_render id h.1
      have hno := splitAtFirstDrop_no '/' ('$' :: id) (dollar_id_all_ne_slash id h.1)
      simp [subjectFromStr, hno, hid]
    | cons t more =>
      have hallsuf : (t :: more).all validId = true := by
        rw [hsuf] at h
        exact h.2
      simp only [Subject.render, hsuf, List.isEmpty_cons, if_false,
        Bool.false_eq_true, segsRenderNE]
      have hsp : splitAtFirstDrop '/' (('$' :: id) ++ '/' :: (t ++ segsRenderNE more)) =
          some ('$' :: id, t ++ segsRenderNE more) :=
        splitAtFirstDrop_append '/' ('$' :: id) _ (dollar_id_all_ne_slash id h.1)
      have hp : pathParse ('/' :: (t ++ segsRenderNE more)) = some (t :: more) := by
        have := pathParse_segsRender (t :: more) hallsuf
        simpa [segsRender, segsRenderNE] using this
      have hid := idRefFromStr_render id h.1
      simp only [List.cons_append, List.append_eq] at hsp ⊢
      simp [subjectFromStr, hsp, hp, hid, hsuf]

/-- Path label /state/scalar/value/none (modelled from the spec: value-type
labels live under /state/scalar/value). -/
def valueNoneLabel : List Str := [seg "state", seg "scalar", seg "value", seg "none"]

/-- Path label /state/scalar/value/number. -/
def valueNumberLabel : List Str := [seg "state", seg "scalar", seg "value", seg "number"]

/-- Path label /state/scalar/value/string. -/
def valueStringLabel : List Str := [seg "state", seg "scalar", seg "value", seg "string"]

/-- Path label /state/scalar/value/link. -/
def valueLinkLabel : List Str := [seg "state", seg "scalar", seg "value", seg "link"]

/-- Path label /state/scalar/ref/if (TCREF_IF in src/scalar.rs). -/
def tcrefIfLabel : List Str := [seg "state", seg "scalar", seg "ref", seg "if"]

/-- Path label /state/scalar/ref/cond (TCREF_COND). -/
def tcrefCondLabel : List Str := [seg "state", seg "scalar", seg "ref", seg "cond"]

/-- Path label /state/scalar/ref/while (TCREF_WHILE). -/
def tcrefWhileLabel : List Str := [seg "state", seg "scalar", seg "ref", seg "while"]

/-- Path label /state/scalar/ref/for_each (TCREF_FOR_EACH). -/
def tcrefForEachLabel : List Str := [seg "state", seg "scalar", seg "ref", seg "for_each"]

/-- Path label /state/scalar/ref/op/get (OPREF_GET). -/
def oprefGetLabel : List Str := [seg "state", seg "scalar", seg "ref", seg "op", seg "get"]

/-- Path label /state/scalar/ref/op/put (OPREF_PUT). -/
def oprefPutLabel : List Str := [seg "state", seg "scalar", seg "ref", seg "op", seg "put"]

/-- Path label /state/scalar/ref/op/post (OPREF_POST). -/
def oprefPostLabel : List Str := [seg "state", seg "scalar", seg "ref", seg "op", seg "post"]

/-- Path label /state/scalar/ref/op/delete (OPREF_DELETE). -/
def oprefDeleteLabel : List Str := [seg "state", seg "scalar", seg "ref", seg "op", seg "delete"]

/-- Path label /state/scalar/op/get (OPDEF_GET). -/
def opdefGetLabel : List Str := [seg "state", seg "scalar", seg "op", seg "get"]

/-- Path label /state/scalar/op/put (OPDEF_PUT). -/
def opdefPutLabel : List Str := [seg "state", seg "scalar", seg "op", seg "put"]

/-- Path label /state/scalar/op/post (OPDEF_POST). -/
def opdefPostLabel : List Str := [seg "state", seg "scalar", seg "op", seg "post"]

/-- Path label /state/scalar/op/delete (OPDEF_DELETE). -/
def opdefDeleteLabel : List Str := [seg "state", seg "scalar", seg "op", seg "delete"]

/-- Modelled from the spec: the tc-value ValueType enumeration the decoder
matches on (exactly the four variants named in src/scalar.rs). -/
inductive ValueType where
  | vnone
  | number
  | string
  | link
  deriving DecidableEq

/-- Modelled from the spec: tc-value `ValueType::from_path` recognizing the
value-type labels /state/scalar/value/(none|number|string|link). -/
def valueTypeFromPath (p : List Str) : Option ValueType :=
  if p = valueNoneLabel then some .vnone
  else if p = valueNumberLabel then some .number
  else if p = valueStringLabel then some .string
  else if p = valueLinkLabel then some .link
  else none

/-- OpDefType from src/op.rs. -/
inductive OpDefType where
  | get
  | put
  | post
  | delete
  deriving DecidableEq

/-- OpDefType::from_path from src/op.rs: the path must have exactly four
segments, the first three equal to OPDEF_PREFIX (state/scalar/op), and the
fourth names the verb. -/
def opDefTypeFromPath (p : List Str) : Option OpDefType :=
  match p with
  | [a, b, c, d] =>
    if a = seg "state" && b = seg "scalar" && c = seg "op" then
      if d = seg "get" then some .get
      else if d = seg "put" then some .put
      else if d = seg "post" then some .post
      else if d = seg "delete" then some .delete
      else none
    else none
  | _ => none

/-- Modelled from the spec: the number-general Number type restricted to the
variants the decoder visitors construct (booleans and integers; floating
point is outside this embedding). -/
inductive Number where
  | bool (b : Bool)
  | int (n : Int)
  deriving DecidableEq

/-- Modelled from the spec: the tc-value Value type - a leaf: none, number,
string, or link. -/
inductive Value where
  | none
  | number (n : Number)
  | string (s : Str)
  | link (l : Link)
  deriving DecidableEq

mutual

/-- A JSON document (the destream-json token stream reassembled as a tree;
object entries keep their document order). -/
inductive Json where
  | null
  | bool (b : Bool)
  | num (n : Int)
  | str (s : Str)
  | arr (items : JsonList)
  | obj (entries : JsonObj)
  deriving DecidableEq

/-- Spine of a JSON array. -/
inductive JsonList where
  | nil
  | cons (hd : Json) (tl : JsonList)
  deriving DecidableEq

/-- Spine of a JSON object: ordered key/value entries. -/
inductive JsonObj where
  | nil
  | cons (k : Str) (v : Json) (tl : JsonObj)
  deriving DecidableEq

end

mutual

/-- Scalar from src/scalar.rs: value, reference, op definition, map, or
tuple. -/
inductive Scalar where
  | value (v : Value)
  | ref (r : TCRef)
  | op (d : OpDef)
  | map (m : Bindings)
  | tuple (t : ScalarList)

/-- Spine of a scalar tuple (Vec of Scalar). -/
inductive ScalarList where
  | nil
  | cons (hd : Scalar) (tl : ScalarList)

/-- Ordered id/scalar entries: the payload of a Map of Scalar (kept sorted by
the BTreeMap) and of an OpDef form (kept in insertion order by the Vec). -/
inductive Bindings where
  | nil
  | cons (k : Str) (v : Scalar) (tl : Bindings)

/-- TCRef from src/tcref.rs: op ref, scope id, or control flow. -/
inductive TCRef where
  | op (o : OpRef)
  | id (i : Str)
  | ifRef (cond : TCRef) (then_ : Scalar) (orElse : Scalar)
  | cond (c : TCRef) (then_ : OpDef) (orElse : OpDef)
  | whileRef (cond : Scalar) (closure : Scalar) (state : Scalar)
  | forEach (items : Scalar) (opv : Scalar) (itemName : Str)

/-- OpRef from src/op.rs: the four verb references. -/
inductive OpRef where
  | get (s : Subject) (key : Scalar)
  | put (s : Subject) (key : Scalar) (value : Scalar)
  | post (s : Subject) (params : Bindings)
  | delete (s : Subject) (key : Scalar)

/-- OpDef from src/op.rs: the four inline op definitions. -/
inductive OpDef where
  | get (name : Str) (form : Bindings)
  | put (k : Str) (v : Str) (form : Bindings)
  | post (form : Bindings)
  | delete (name : Str) (form : Bindings)

end

/-- BTreeMap::insert on ordered bindings: insert before the first larger key,
replace an equal key. -/
def bindingsInsert (k : Str) (v : Scalar) : Bindings → Bindings
  | .nil => .cons k v .nil
  | .cons k' v' tl =>
    if strLt k k' then .cons k v (.cons k' v' tl)
    else if k = k' then .cons k v tl
    else .cons k' v' (bindingsInsert k v tl)

/-- Check the first character of a string. -/
def headIs (c : Char) : Str → Bool
  | [] => false
  | x :: _ => x = c

/-- Modelled from the spec: the tc-value v1 encoding of a leaf value. None
encodes as null, numbers as JSON booleans or numbers, strings as JSON
strings, and a link as the single-entry map from its path text to the empty
list (the shape the decoder re-accepts via the empty-sequence disambiguation
rule). -/
def encodeValue : Value → Json
  | .none => .null
  | .number (.bool b) => .bool b
  | .number (.int n) => .num n
  | .string s => .str s
  | .link l => .obj (.cons l.render (.arr .nil) .nil)

mutual

/-- IntoStream for Scalar from src/scalar.rs. -/
def encodeScalar (s : Scalar) : Json :=
  match s with
  | .value v => encodeValue v
  | .ref r => encodeTCRef r
  | .op d => encodeOpDef d
  | .map m => .obj (encodeBindingsObj m)
  | .tuple t => .arr (encodeScalarItems t)
termination_by structural s

/-- IntoStream for Vec of Scalar (a JSON array of encoded elements). -/
def encodeScalarItems (t : ScalarList) : JsonList :=
  match t with
  | .nil => .nil
  | .cons hd tl => .cons (encodeScalar hd) (encodeScalarItems tl)
termination_by structural t

/-- IntoStream for Map of Scalar from src/map.rs: a JSON object with id keys
in map order. -/
def encodeBindingsObj (m : Bindings) : JsonObj :=
  match m with
  | .nil => .nil
  | .cons k v tl => .cons k (encodeScalar v) (encodeBindingsObj tl)
termination_by structural m

/-- IntoStream for Vec of (Id, Scalar) pairs: an array of 2-element arrays. -/
def encodeFormItems (m : Bindings) : JsonList :=
  match m with
  | .nil => .nil
  | .cons k v tl =>
    .cons (.arr (.cons (.str k) (.cons (encodeScalar v) .nil))) (encodeFormItems tl)
termination_by structural m

/-- IntoStream for OpDef from src/op.rs: a single-entry map from the class
label to the tuple form of the definition. -/
def encodeOpDef (d : OpDef) : Json :=
  match d with
  | .get name form =>
    .obj (.cons (segsRender opdefGetLabel)
      (.arr (.cons (.str name) (.cons (.arr (encodeFormItems form)) .nil))) .nil)
  | .put k v form =>
    .obj (.cons (segsRender opdefPutLabel)
      (.arr (.cons (.str k) (.cons (.str v) (.cons (.arr (encodeFormItems form)) .nil)))) .nil)
  | .post form =>
    .obj (.cons (segsRender opdefPostLabel) (.arr (encodeFormItems form)) .nil)
  | .delete name form =>
    .obj (.cons (segsRender opdefDeleteLabel)
      (.arr (.cons (.str name) (.cons (.arr (encodeFormItems form)) .nil))) .nil)
termination_by structural d

/-- IntoStream for OpRef from src/op.rs: GET and PUT key the argument list by
the subject text, POST keys the params map, DELETE uses the OPREF_DELETE
label over a subject/key pair. -/
def encodeOpRef (o : OpRef) : Json :=
  match o with
  | .get s key =>
    .obj (.cons s.render (.arr (.cons (encodeScalar key) .nil)) .nil)
  | .put s key value =>
    .obj (.cons s.render
      (.arr (.cons (encodeScalar key) (.cons (encodeScalar value) .nil))) .nil)
  | .post s params =>
    .obj (.cons s.render (.obj (encodeBindingsObj params)) .nil)
  | .delete s key =>
    .obj (.cons (segsRender oprefDeleteLabel)
      (.arr (.cons (.str s.render) (.cons (encodeScalar key) .nil))) .nil)
termination_by structural o

/-- IntoStream for TCRef from src/tcref.rs: op refs encode as the underlying
OpRef map, scope ids as a dollar-keyed empty list, and control flow as
label-keyed 3-element lists (the If and Cond conditions are wrapped back into
a Scalar ref, and the ForEach item name into a string). -/
def encodeTCRef (r : TCRef) : Json :=
  match r with
  | .op o => encodeOpRef o
  | .id i => .obj (.cons ('$' :: i) (.arr .nil) .nil)
  | .ifRef c t e =>
    .obj (.cons (segsRender tcrefIfLabel)
      (.arr (.cons (encodeTCRef c) (.cons (encodeScalar t) (.cons (encodeScalar e) .nil)))) .nil)
  | .cond c t e =>
    .obj (.cons (segsRender tcrefCondLabel)
      (.arr (.cons (encodeTCRef c) (.cons (encodeOpDef t) (.cons (encodeOpDef e) .nil)))) .nil)
  | .whileRef c cl st =>
    .obj (.cons (segsRender tcrefWhileLabel)
      (.arr (.cons (encodeScalar c) (.cons (encodeScalar cl) (.cons (encodeScalar st) .nil)))) .nil)
  | .forEach items opv name =>
    .obj (.cons (segsRender tcrefForEachLabel)
      (.arr (.cons (encodeScalar items) (.cons (encodeScalar opv) (.cons (.str name) .nil)))) .nil)
termination_by structural r

end

/-- OpArgs from src/op.rs: the internal argument shape, a params map or an
argument sequence. -/
inductive OpArgs where
  | map (params : Bindings)
  | seq (items : ScalarList)

/-- opref_from_subject_args from src/op.rs: a map becomes POST, a 1-element
sequence GET, a 2-element sequence PUT; anything else is an error. -/
def opRefFromSubjectArgs (subject : Subject) : OpArgs → Except String OpRef
  | .map params => .ok (.post subject params)
  | .seq (.cons key .nil) => .ok (.get subject key)
  | .seq (.cons key (.cons value .nil)) => .ok (.put subject key value)
  | .seq _ => .error "invalid OpRef params (expected 1 or 2 elements)"

/-- The tail of ScalarVisitor::visit_map for a slash key (src/scalar.rs lines
307-325): an empty sequence whose key parses as a Link is a plain link value;
otherwise the key must parse as a Subject and the args route to an OpRef. -/
def scalarFromSubjectArgs (key : Str) (args : OpArgs) : Except String Scalar :=
  match args, Link.parse key with
  | .seq .nil, some l => .ok (.value (.link l))
  | _, _ =>
    match subjectFromStr key with
    | .error e => .error e
    | .ok subject =>
      match opRefFromSubjectArgs subject args with
      | .error e => .error e
      | .ok o => .ok (.ref (.op o))

/-- Decoding of the payload of a value-type envelope (ScalarVisitor, value
branch): None ignores its payload, Number and String require the matching
leaf, Link requires a string that parses. -/
def decodeTypedValue : ValueType → Json → Except String Value
  | .vnone, _ => .ok .none
  | .number, .bool b => .ok (.number (.bool b))
  | .number, .num n => .ok (.number (.int n))
  | .number, _ => .error "expected a Number"
  | .string, .str s => .ok (.string s)
  | .string, _ => .error "expected a string"
  | .link, .str raw =>
    match Link.parse raw with
    | some l => .ok (.link l)
    | none => .error "invalid link"
  | .link, _ => .error "expected a string"

/-- Decoding of an hr-id Id from a JSON leaf (FromStream for Id). -/
def decodeIdJson : Json → Except String Str
  | .str s => if validId s then .ok s else .error "invalid Id"
  | _ => .error "expected an Id string"

/-- FromStream for Subject from src/scalar.rs: a string parsed by
subject_from_str. -/
def decodeSubjectJson : Json → Except String Subject
  | .str s => subjectFromStr s
  | _ => .error "expected a Subject string"


mutual

/-- FromStream for Scalar from src/scalar.rs (ScalarVisitor): leaves decode
to values, arrays to tuples, and a map dispatches on its first key - typed
value envelope, then op definition, then control-flow label (handled by
decode_tcref_map_entry, whose per-label arms are the payload functions
below), then subject/link with argument-shape routing, then dollar-scoped
ref, then plain id-keyed map. Trailing entries of classified single-entry
envelopes are drained and ignored. -/
def decodeScalar (j : Json) : Except String Scalar :=
  match j with
  | .null => .ok (.value .none)
  | .bool b => .ok (.value (.number (.bool b)))
  | .num n => .ok (.value (.number (.int n)))
  | .str s => .ok (.value (.string s))
  | .arr items =>
    match decodeScalarItems items with
    | .error e => .error e
    | .ok l => .ok (.tuple l)
  | .obj .nil => .ok (.map .nil)
  | .obj (.cons key v rest) =>
    if headIs '/' key then
      match pathParse key with
      | some path =>
        match valueTypeFromPath path with
        | some vt =>
          match decodeTypedValue vt v with
          | .error e => .error e
          | .ok value => .ok (.value value)
        | none =>
          match opDefTypeFromPath path with
          | some t =>
            match decodeOpDefBody t v with
            | .error e => .error e
            | .ok d => .ok (.op d)
          | none =>
            if path = tcrefIfLabel then
              match decodeIfPayload v with
              | .error e => .error e
              | .ok r => .ok (.ref r)
            else if path = tcrefCondLabel then
              match decodeCondPayload v with
              | .error e => .error e
              | .ok r => .ok (.ref r)
            else if path = tcrefWhileLabel then
              match decodeWhilePayload v with
              | .error e => .error e
              | .ok r => .ok (.ref r)
            else if path = tcrefForEachLabel then
              match decodeForEachPayload v with
              | .error e => .error e
              | .ok r => .ok (.ref r)
            else if path = oprefDeleteLabel then
              match decodeOpRefEntry key v with
              | .error e => .error e
              | .ok o => .ok (.ref (.op o))
            else
              match v with
              | .obj entries =>
                match decodeParams entries .nil with
                | .error e => .error e
                | .ok params => scalarFromSubjectArgs key (.map params)
              | .arr items =>
                match decodeScalarItems items with
                | .error e => .error e
                | .ok l => scalarFromSubjectArgs key (.seq l)
              | _ => .error "expected OpRef args (a sequence or map)"
      | none =>
        match v with
        | .obj entries =>
          match decodeParams entries .nil with
          | .error e => .error e
          | .ok params => scalarFromSubjectArgs key (.map params)
        | .arr items =>
          match decodeScalarItems items with
          | .error e => .error e
          | .ok l => scalarFromSubjectArgs key (.seq l)
        | _ => .error "expected OpRef args (a sequence or map)"
    else if headIs '$' key then
      match decodeDollarPayload key v with
      | .error e => .error e
      | .ok r => .ok (.ref r)
    else
      match decodeScalar v with
      | .error e => .error e
      | .ok sv =>
        if validId key then
          match decodeMapRest rest (bindingsInsert key sv .nil) with
          | .error e => .error e
          | .ok m => .ok (.map m)
        else .error "invalid map key id"
termination_by structural j

/-- FromStream for a sequence of Scalars (ScalarVisitor::visit_seq and
FromStream for Vec of Scalar). -/
def decodeScalarItems (items : JsonList) : Except String ScalarList :=
  match items with
  | .nil => .ok .nil
  | .cons hd tl =>
    match decodeScalar hd with
    | .error e => .error e
    | .ok s =>
      match decodeScalarItems tl with
      | .error e => .error e
      | .ok l => .ok (.cons s l)
termination_by structural items

/-- Drain of the remaining entries of a plain Scalar map (ScalarVisitor
visit_map tail loop): each value decodes as a Scalar, each key must be an Id,
entries are inserted into the BTreeMap. -/
def decodeMapRest (entries : JsonObj) (acc : Bindings) : Except String Bindings :=
  match entries, acc with
  | .nil, acc => .ok acc
  | .cons k v tl, acc =>
    match decodeScalar v with
    | .error e => .error e
    | .ok sv =>
      if validId k then decodeMapRest tl (bindingsInsert k sv acc)
      else .error "invalid map key id"
termination_by structural entries

/-- Decoding of an OpArgs params map (ArgsVisitor::visit_map and FromStream
for BTreeMap of Id to Scalar): keys decode as Ids, values as Scalars. -/
def decodeParams (entries : JsonObj) (acc : Bindings) : Except String Bindings :=
  match entries, acc with
  | .nil, acc => .ok acc
  | .cons k v tl, acc =>
    if validId k then
      match decodeScalar v with
      | .error e => .error e
      | .ok sv => decodeParams tl (bindingsInsert k sv acc)
    else .error "invalid Id key"
termination_by structural entries

/-- The TCREF_IF arm of decode_tcref_map_entry (src/tcref.rs): the payload
decodes as a Vec of Scalars, must have exactly three elements, and the first
must be a ref. -/
def decodeIfPayload (v : Json) : Except String TCRef :=
  match v with
  | .arr items =>
    match decodeScalarItems items with
    | .error e => .error e
    | .ok (.cons c (.cons t (.cons e .nil))) =>
      match c with
      | .ref r => .ok (.ifRef r t e)
      | _ => .error "invalid If ref condition (expected ref)"
    | .ok _ => .error "invalid If ref params (expected 3 elements)"
  | _ => .error "expected a sequence"
termination_by structural v

/-- The TCREF_COND arm of decode_tcref_map_entry (CondOpArgs visitor of
src/tcref.rs): a sequence of a Scalar condition and two OpDefs, exactly
three elements, condition must be a ref. -/
def decodeCondPayload (v : Json) : Except String TCRef :=
  match v with
  | .arr .nil => .error "invalid CondOp params (missing condition)"
  | .arr (.cons j0 rest0) =>
    match decodeScalar j0 with
    | .error e => .error e
    | .ok c =>
      match rest0 with
      | .nil => .error "invalid CondOp params (missing then op)"
      | .cons j1 rest1 =>
        match decodeOpDefTop j1 with
        | .error e => .error e
        | .ok t =>
          match rest1 with
          | .nil => .error "invalid CondOp params (missing else op)"
          | .cons j2 rest2 =>
            match decodeOpDefTop j2 with
            | .error e => .error e
            | .ok el =>
              match rest2 with
              | .cons _ _ => .error "invalid CondOp params (expected 3 elements)"
              | .nil =>
                match c with
                | .ref r => .ok (.cond r t el)
                | _ => .error "invalid CondOp condition (expected ref)"
  | _ => .error "expected a CondOp args tuple"
termination_by structural v

/-- The TCREF_WHILE arm of decode_tcref_map_entry: exactly three Scalars. -/
def decodeWhilePayload (v : Json) : Except String TCRef :=
  match v with
  | .arr items =>
    match decodeScalarItems items with
    | .error e => .error e
    | .ok (.cons c (.cons cl (.cons st .nil))) => .ok (.whileRef c cl st)
    | .ok _ => .error "invalid While ref params (expected 3 elements)"
  | _ => .error "expected a sequence"
termination_by structural v

/-- The TCREF_FOR_EACH arm of decode_tcref_map_entry: exactly three Scalars,
the third a string that parses as an Id. -/
def decodeForEachPayload (v : Json) : Except String TCRef :=
  match v with
  | .arr items =>
    match decodeScalarItems items with
    | .error e => .error e
    | .ok (.cons its (.cons opv (.cons nm .nil))) =>
      match nm with
      | .value (.string raw) =>
        if validId raw then .ok (.forEach its opv raw)
        else .error "invalid Id"
      | _ => .error "invalid ForEach item_name (expected string)"
    | .ok _ => .error "invalid ForEach ref params (expected 3 elements)"
  | _ => .error "expected a sequence"
termination_by structural v

/-- The dollar-key arm of decode_tcref_map_entry: OpArgs decode first; an
empty sequence is a scope id, any other shape routes through subject and
args to an OpRef. -/
def decodeDollarPayload (key : Str) (v : Json) : Except String TCRef :=
  match v with
  | .arr .nil =>
    match idRefFromStr key with
    | .error e => .error e
    | .ok id => .ok (.id id)
  | .arr (.cons j0 jrest) =>
    match decodeScalarItems (.cons j0 jrest) with
    | .error e => .error e
    | .ok l =>
      match subjectFromStr key with
      | .error e => .error e
      | .ok subject =>
        match opRefFromSubjectArgs subject (.seq l) with
        | .error e => .error e
        | .ok o => .ok (.op o)
  | .obj entries =>
    match decodeParams entries .nil with
    | .error e => .error e
    | .ok params =>
      match subjectFromStr key with
      | .error e => .error e
      | .ok subject =>
        match opRefFromSubjectArgs subject (.map params) with
        | .error e => .error e
        | .ok o => .ok (.op o)
  | _ => .error "expected OpRef args (a sequence or map)"
termination_by structural v

/-- decode_opref_map_entry from src/op.rs: explicit OPREF_GET / OPREF_PUT /
OPREF_POST / OPREF_DELETE labels decode typed tuples; any other key parses as
a Subject with argument-shape routing. -/
def decodeOpRefEntry (key : Str) (v : Json) : Except String OpRef :=
  if headIs '/' key then
    let path := pathParse key
    if path = some oprefGetLabel then
      match v with
      | .arr (.cons j0 (.cons j1 .nil)) =>
        match decodeSubjectJson j0 with
        | .error e => .error e
        | .ok subject =>
          match decodeScalar j1 with
          | .error e => .error e
          | .ok k => .ok (.get subject k)
      | _ => .error "expected a 2-tuple"
    else if path = some oprefPutLabel then
      match v with
      | .arr (.cons j0 (.cons j1 (.cons j2 .nil))) =>
        match decodeSubjectJson j0 with
        | .error e => .error e
        | .ok subject =>
          match decodeScalar j1 with
          | .error e => .error e
          | .ok k =>
            match decodeScalar j2 with
            | .error e => .error e
            | .ok val => .ok (.put subject k val)
      | _ => .error "expected a 3-tuple"
    else if path = some oprefPostLabel then
      match v with
      | .arr (.cons j0 (.cons j1 .nil)) =>
        match decodeSubjectJson j0 with
        | .error e => .error e
        | .ok subject =>
          match j1 with
          | .obj entries =>
            match decodeParams entries .nil with
            | .error e => .error e
            | .ok params => .ok (.post subject params)
          | _ => .error "expected a map"
      | _ => .error "expected a 2-tuple"
    else if path = some oprefDeleteLabel then
      match v with
      | .arr (.cons j0 (.cons j1 .nil)) =>
        match decodeSubjectJson j0 with
        | .error e => .error e
        | .ok subject =>
          match decodeScalar j1 with
          | .error e => .error e
          | .ok k => .ok (.delete subject k)
      | _ => .error "expected a 2-tuple"
    else
      match subjectFromStr key with
      | .error e => .error e
      | .ok subject =>
        match v with
        | .obj entries =>
          match decodeParams entries .nil with
          | .error e => .error e
          | .ok params => opRefFromSubjectArgs subject (.map params)
        | .arr items =>
          match decodeScalarItems items with
          | .error e => .error e
          | .ok l => opRefFromSubjectArgs subject (.seq l)
        | _ => .error "expected OpRef args (a sequence or map)"
  else
    match subjectFromStr key with
    | .error e => .error e
    | .ok subject =>
      match v with
      | .obj entries =>
        match decodeParams entries .nil with
        | .error e => .error e
        | .ok params => opRefFromSubjectArgs subject (.map params)
      | .arr items =>
        match decodeScalarItems items with
        | .error e => .error e
        | .ok l => opRefFromSubjectArgs subject (.seq l)
      | _ => .error "expected OpRef args (a sequence or map)"
termination_by structural v

/-- FromStream for OpDef from src/op.rs (OpDefVisitor): a map whose first key
must be an op-definition label; the payload decodes by verb. -/
def decodeOpDefTop (j : Json) : Except String OpDef :=
  match j with
  | .obj (.cons key v _) =>
    match pathParse key with
    | none => .error "invalid op definition path"
    | some path =>
      match opDefTypeFromPath path with
      | none => .error "expected Op definition type"
      | some t => decodeOpDefBody t v
  | .obj .nil => .error "expected Op definition type"
  | _ => .error "expected an Op definition"
termination_by structural j

/-- decode_opdef_map_entry from src/op.rs: GetOp and DeleteOp are (Id, form)
2-tuples, PutOp an (Id, Id, form) 3-tuple, PostOp a bare form. -/
def decodeOpDefBody (t : OpDefType) (j : Json) : Except String OpDef :=
  match t, j with
  | .get, .arr (.cons j0 (.cons j1 .nil)) =>
    match decodeIdJson j0 with
    | .error e => .error e
    | .ok name =>
      match decodeForm j1 with
      | .error e => .error e
      | .ok form => .ok (.get name form)
  | .get, _ => .error "expected a 2-tuple"
  | .put, .arr (.cons j0 (.cons j1 (.cons j2 .nil))) =>
    match decodeIdJson j0 with
    | .error e => .error e
    | .ok k =>
      match decodeIdJson j1 with
      | .error e => .error e
      | .ok vn =>
        match decodeForm j2 with
        | .error e => .error e
        | .ok form => .ok (.put k vn form)
  | .put, _ => .error "expected a 3-tuple"
  | .post, .arr items =>
    match decodeFormItems items with
    | .error e => .error e
    | .ok form => .ok (.post form)
  | .post, _ => .error "expected a sequence of bindings"
  | .delete, .arr (.cons j0 (.cons j1 .nil)) =>
    match decodeIdJson j0 with
    | .error e => .error e
    | .ok name =>
      match decodeForm j1 with
      | .error e => .error e
      | .ok form => .ok (.delete name form)
  | .delete, _ => .error "expected a 2-tuple"
termination_by structural j

/-- FromStream for Vec of (Id, Scalar): a JSON array of binding pairs. -/
def decodeForm (j : Json) : Except String Bindings :=
  match j with
  | .arr items => decodeFormItems items
  | _ => .error "expected a sequence of bindings"
termination_by structural j

/-- Elements of an op-definition form: each is an (Id, Scalar) 2-tuple;
order is preserved. -/
def decodeFormItems (items : JsonList) : Except String Bindings :=
  match items with
  | .nil => .ok .nil
  | .cons hd tl =>
    match hd with
    | .arr (.cons j0 (.cons j1 .nil)) =>
      match decodeIdJson j0 with
      | .error e => .error e
      | .ok id =>
        match decodeScalar j1 with
        | .error e => .error e
        | .ok sv =>
          match decodeFormItems tl with
          | .error e => .error e
          | .ok rest => .ok (.cons id sv rest)
    | _ => .error "expected a binding 2-tuple"
termination_by structural items

end

/-- The slash-key arm of ScalarVisitor::visit_map (src/scalar.rs): given the
parse of the key as a path, try the value-type labels, then the
op-definition labels, then the control-flow labels, and fall through to
argument-shape routing on the subject key. -/
def decodeSlashKeyed (key : Str) (pathOpt : Option (List Str)) (v : Json) :
    Except String Scalar :=
  match pathOpt with
  | some path =>
    match valueTypeFromPath path with
    | some vt =>
      match decodeTypedValue vt v with
      | .error e => .error e
      | .ok value => .ok (.value value)
    | none =>
      match opDefTypeFromPath path with
      | some t =>
        match decodeOpDefBody t v with
        | .error e => .error e
        | .ok d => .ok (.op d)
      | none =>
        if path = tcrefIfLabel then
          match decodeIfPayload v with
          | .error e => .error e
          | .ok r => .ok (.ref r)
        else if path = tcrefCondLabel then
          match decodeCondPayload v with
          | .error e => .error e
          | .ok r => .ok (.ref r)
        else if path = tcrefWhileLabel then
          match decodeWhilePayload v with
          | .error e => .error e
          | .ok r => .ok (.ref r)
        else if path = tcrefForEachLabel then
          match decodeForEachPayload v with
          | .error e => .error e
          | .ok r => .ok (.ref r)
        else if path = oprefDeleteLabel then
          match decodeOpRefEntry key v with
          | .error e => .error e
          | .ok o => .ok (.ref (.op o))
        else
          match v with
          | .obj entries =>
            match decodeParams entries .nil with
            | .error e => .error e
            | .ok params => scalarFromSubjectArgs key (.map params)
          | .arr items =>
            match decodeScalarItems items with
            | .error e => .error e
            | .ok l => scalarFromSubjectArgs key (.seq l)
          | _ => .error "expected OpRef args (a sequence or map)"
  | none =>
    match v with
    | .obj entries =>
      match decodeParams entries .nil with
      | .error e => .error e
      | .ok params => scalarFromSubjectArgs key (.map params)
    | .arr items =>
      match decodeScalarItems items with
      | .error e => .error e
      | .ok l => scalarFromSubjectArgs key (.seq l)
    | _ => .error "expected OpRef args (a sequence or map)"

/-- decode_tcref_map_entry from src/tcref.rs, assembled from its arms: the
four control-flow labels, then dollar keys, then the generic op-ref entry. -/
def decodeTCRefEntry (key : Str) (v : Json) : Except String TCRef :=
  let keyPath := if headIs '/' key then pathParse key else none
  if keyPath = some tcrefIfLabel then decodeIfPayload v
  else if keyPath = some tcrefCondLabel then decodeCondPayload v
  else if keyPath = some tcrefWhileLabel then decodeWhilePayload v
  else if keyPath = some tcrefForEachLabel then decodeForEachPayload v
  else if headIs '$' key then decodeDollarPayload key v
  else
    match decodeOpRefEntry key v with
    | .error e => .error e
    | .ok o => .ok (.op o)

/-- FromStream for TCRef from src/tcref.rs (RefVisitor): a map whose first
entry decodes via decode_tcref_map_entry. -/
def decodeTCRefTop : Json → Except String TCRef
  | .obj (.cons key v _) => decodeTCRefEntry key v
  | .obj .nil => .error "expected ref map key"
  | _ => .error "expected a Ref"

/-- TxnId from src/txn.rs: timestamp (u64 nanoseconds), nonce (u16), and an
opaque 32-byte trace that is not part of the string form. -/
structure TxnId where
  timestamp : Nat
  nonce : Nat
  trace : List Nat
  deriving DecidableEq

/-- TxnId::from_parts: zero trace. -/
def TxnId.fromParts (timestamp nonce : Nat) : TxnId :=
  ⟨timestamp, nonce, List.replicate 32 0⟩

/-- Display for TxnId: timestamp-nonce (the trace is dropped). -/
def txnIdRender (t : TxnId) : Str :=
  natRender t.timestamp ++ '-' :: natRender t.nonce

/-- FromStr for TxnId from src/txn.rs: split once at a dash, parse a u64
timestamp and a u16 nonce, and rebuild via from_parts (zero trace). -/
def txnIdFromStr (s : Str) : Except String TxnId :=
  match splitAtFirstDrop '-' s with
  | none => .error "transaction IDs must look like timestamp-nonce"
  | some (ts, rest) =>
    match natParse ts with
    | none => .error "invalid TxnId timestamp"
    | some t =>
      if t < 2 ^ 64 then
        match natParse rest with
        | none => .error "invalid TxnId nonce (expected u16)"
        | some nn =>
          if nn < 2 ^ 16 then .ok (TxnId.fromParts t nn)
          else .error "invalid TxnId nonce (expected u16)"
      else .error "invalid TxnId timestamp"

/-- Claim from src/txn.rs: a link and a permission mask (umask::Mode, a u32
bitfield, modelled as Nat with range hypotheses where u32 width matters). -/
structure Claim where
  link : Link
  mask : Nat
  deriving DecidableEq

/-- Claim::allows from src/txn.rs: the links must be equal and the claim mask
must cover every required bit. -/
def Claim.allows (c : Claim) (link : Link) (required : Nat) : Bool :=
  if c.link ≠ link then false
  else (c.mask &&& required) == required

/-- TxnHeader from src/txn.rs. -/
structure TxnHeader where
  id : TxnId
  timestamp : Nat
  claim : Claim
  deriving DecidableEq

/-- Serialize for TxnHeader (the serde text-oriented impl in src/txn.rs): a
3-entry map of the id string form, the timestamp nanos, and the claim as a
2-tuple of link string and full u32 mask. -/
def serializeTxnHeader (h : TxnHeader) : Json :=
  .obj (.cons (seg "id") (.str (txnIdRender h.id))
    (.cons (seg "timestamp") (.num (h.timestamp : Int))
      (.cons (seg "claim")
        (.arr (.cons (.str h.claim.link.render) (.cons (.num (h.claim.mask : Int)) .nil)))
        .nil)))

/-- IntoStream for TxnHeader (the destream binary-oriented impl in
src/txn.rs): the same 3-entry map - id string form, timestamp nanos, claim as
a 2-tuple of link string and full u32 mask. -/
def encodeTxnHeader (h : TxnHeader) : Json :=
  .obj (.cons (seg "id") (.str (txnIdRender h.id))
    (.cons (seg "timestamp") (.num (h.timestamp : Int))
      (.cons (seg "claim")
        (.arr (.cons (.str h.claim.link.render) (.cons (.num (h.claim.mask : Int)) .nil)))
        .nil)))

/-- Decoding of the claim field of a transaction header: a (String, u32)
2-tuple; the link string must parse and the mask converts from u32. -/
def decodeClaimTupleU32 (j : Json) : Except String Claim :=
  match j with
  | .arr (.cons (.str ls) (.cons (.num m) .nil)) =>
    if 0 ≤ m ∧ m < 2 ^ 32 then
      match Link.parse ls with
      | some l => .ok ⟨l, m.toNat⟩
      | none => .error "invalid link"
    else .error "invalid u32"
  | _ => .error "expected a claim 2-tuple"

/-- Entry loop of the serde Deserialize impl for TxnHeader (src/txn.rs): id,
timestamp, and claim keys are recognized in any order (later entries win),
unknown keys are ignored, and all three fields are required. -/
def deserializeTxnHeaderLoop (entries : JsonObj)
    (idAcc : Option TxnId) (tsAcc : Option Nat) (claimAcc : Option Claim) :
    Except String TxnHeader :=
  match entries with
  | .nil =>
    match idAcc with
    | none => .error "missing id"
    | some id =>
      match tsAcc with
      | none => .error "missing timestamp"
      | some ts =>
        match claimAcc with
        | none => .error "missing claim"
        | some c => .ok ⟨id, ts, c⟩
  | .cons k v tl =>
    if k = seg "id" then
      match v with
      | .str s =>
        match txnIdFromStr s with
        | .ok tid => deserializeTxnHeaderLoop tl (some tid) tsAcc claimAcc
        | .error e => .error e
      | _ => .error "expected a string"
    else if k = seg "timestamp" then
      match v with
      | .num n =>
        if 0 ≤ n ∧ n < 2 ^ 64 then deserializeTxnHeaderLoop tl idAcc (some n.toNat) claimAcc
        else .error "invalid u64"
      | _ => .error "expected a u64"
    else if k = seg "claim" then
      match decodeClaimTupleU32 v with
      | .ok c => deserializeTxnHeaderLoop tl idAcc tsAcc (some c)
      | .error e => .error e
    else deserializeTxnHeaderLoop tl idAcc tsAcc claimAcc

/-- Deserialize for TxnHeader (the serde impl in src/txn.rs). -/
def deserializeTxnHeader (j : Json) : Except String TxnHeader :=
  match j with
  | .obj entries => deserializeTxnHeaderLoop entries none none none
  | _ => .error "a transaction header map"

/-- Entry loop of the destream FromStream impl for TxnHeader (src/txn.rs);
deliberately the same logic as the serde loop. -/
def decodeTxnHeaderLoop (entries : JsonObj)
    (idAcc : Option TxnId) (tsAcc : Option Nat) (claimAcc : Option Claim) :
    Except String TxnHeader :=
  match entries with
  | .nil =>
    match idAcc with
    | none => .error "missing id"
    | some id =>
      match tsAcc with
      | none => .error "missing timestamp"
      | some ts =>
        match claimAcc with
        | none => .error "missing claim"
        | some c => .ok ⟨id, ts, c⟩
  | .cons k v tl =>
    if k = seg "id" then
      match v with
      | .str s =>
        match txnIdFromStr s with
        | .ok tid => decodeTxnHeaderLoop tl (some tid) tsAcc claimAcc
        | .error e => .error e
      | _ => .error "expected a string"
    else if k = seg "timestamp" then
      match v with
      | .num n =>
        if 0 ≤ n ∧ n < 2 ^ 64 then decodeTxnHeaderLoop tl idAcc (some n.toNat) claimAcc
        else .error "invalid u64"
      | _ => .error "expected a u64"
    else if k = seg "claim" then
      match decodeClaimTupleU32 v with
      | .ok c => decodeTxnHeaderLoop tl idAcc tsAcc (some c)
      | .error e => .error e
    else decodeTxnHeaderLoop tl idAcc tsAcc claimAcc

/-- FromStream for TxnHeader (the destream impl in src/txn.rs). -/
def decodeTxnHeader (j : Json) : Except String TxnHeader :=
  match j with
  | .obj entries => decodeTxnHeaderLoop entries none none none
  | _ => .error "a transaction header map"

/-- Serialize for Claim (src/txn.rs): the compact 2-tuple of link string and
the mask cast down to u16 (the low 16 bits). -/
def serializeClaim (c : Claim) : Json :=
  .arr (.cons (.str c.link.render) (.cons (.num ((c.mask % 65536 : Nat) : Int)) .nil))

/-- Deserialize for Claim (src/txn.rs): a (String, u16) 2-tuple; the mask
widens back to u32. -/
def deserializeClaim (j : Json) : Except String Claim :=
  match j with
  | .arr (.cons (.str ls) (.cons (.num m) .nil)) =>
    if 0 ≤ m ∧ m < 65536 then
      match Link.parse ls with
      | some l => .ok ⟨l, m.toNat⟩
      | none => .error "invalid link"
    else .error "invalid u16"
  | _ => .error "expected a claim 2-tuple"

/-- LibrarySchema from src/library.rs. -/
structure LibrarySchema where
  id : Link
  version : Str
  dependencies : List Link
  deriving DecidableEq

/-- Encoding of a list of links as a JSON array of link strings (IntoStream
for Vec of Link; pathlink links encode as their textual form). -/
def encodeLinkList : List Link → JsonList
  | [] => .nil
  | l :: rest => .cons (.str l.render) (encodeLinkList rest)

/-- IntoStream for LibrarySchema (src/library.rs): a map with id, version,
and dependencies entries, in that order. -/
def encodeLibrarySchema (s : LibrarySchema) : Json :=
  .obj (.cons (seg "id") (.str s.id.render)
    (.cons (seg "version") (.str s.version)
      (.cons (seg "dependencies") (.arr (encodeLinkList s.dependencies)) .nil)))

/-- Decoding of a JSON array of link strings (FromStream for Vec of Link). -/
def decodeLinkListJ : JsonList → Except String (List Link)
  | .nil => .ok []
  | .cons (.str s) tl =>
    match Link.parse s with
    | some l =>
      match decodeLinkListJ tl with
      | .ok r => .ok (l :: r)
      | .error e => .error e
    | none => .error "invalid link"
  | .cons _ _ => .error "expected a link string"

/-- Entry loop of the FromStream impl for LibrarySchema (SchemaVisitor in
src/library.rs): duplicate id and version fields are rejected, dependencies
may repeat (last wins), unknown keys are ignored; id and version are
required and dependencies default to empty. -/
def decodeLibrarySchemaLoop (entries : JsonObj)
    (idAcc : Option Link) (verAcc : Option Str) (depAcc : Option (List Link)) :
    Except String LibrarySchema :=
  match entries with
  | .nil =>
    match idAcc with
    | none => .error "missing id field"
    | some id =>
      match verAcc with
      | none => .error "missing version field"
      | some ver => .ok ⟨id, ver, depAcc.getD []⟩
  | .cons k v tl =>
    if k = seg "id" then
      match idAcc with
      | some _ => .error "duplicate id field"
      | none =>
        match v with
        | .str s =>
          match Link.parse s with
          | some l => decodeLibrarySchemaLoop tl (some l) verAcc depAcc
          | none => .error "invalid link"
        | _ => .error "expected a link string"
    else if k = seg "version" then
      match verAcc with
      | some _ => .error "duplicate version field"
      | none =>
        match v with
        | .str s => decodeLibrarySchemaLoop tl idAcc (some s) depAcc
        | _ => .error "expected a string"
    else if k = seg "dependencies" then
      match v with
      | .arr items =>
        match decodeLinkListJ items with
        | .ok ls => decodeLibrarySchemaLoop tl idAcc verAcc (some ls)
        | .error e => .error e
      | _ => .error "expected a sequence of links"
    else decodeLibrarySchemaLoop tl idAcc verAcc depAcc

/-- FromStream for LibrarySchema (src/library.rs). -/
def decodeLibrarySchema (j : Json) : Except String LibrarySchema :=
  match j with
  | .obj entries => decodeLibrarySchemaLoop entries none none none
  | _ => .error "a library schema map"

/-- Error kinds of tc-error TCError (modelled from the spec). -/
inductive TCErrKind where
  | badRequest
  | notFound
  | methodNotAllowed
  | unexpected
  deriving DecidableEq

/-- Modelled from the spec: a tc-error TCError - a kind plus a message. -/
structure TCErr where
  kind : TCErrKind
  message : Str
  deriving DecidableEq

/-- TCError::bad_request. -/
def tcBadRequest (message : Str) : TCErr := ⟨.badRequest, message⟩

mutual

/-- DirEntry from src/dir.rs: a nested directory or a handler leaf. -/
inductive DirEntry (H : Type) where
  | dir (entries : DirEntries H)
  | handler (h : H)

/-- The ordered entries of a Dir (the BTreeMap from PathSegment to
DirEntry). -/
inductive DirEntries (H : Type) where
  | nil
  | cons (k : Str) (e : DirEntry H) (tl : DirEntries H)

end

/-- BTreeMap::get on directory entries. -/
def dirLookup {H : Type} (k : Str) : DirEntries H → Option (DirEntry H)
  | .nil => none
  | .cons k' e tl => if k = k' then some e else dirLookup k tl

/-- BTreeMap::insert on directory entries (ordered insert, replacing an equal
key). -/
def dirInsertSorted {H : Type} (k : Str) (e : DirEntry H) : DirEntries H → DirEntries H
  | .nil => .cons k e .nil
  | .cons k' e' tl =>
    if strLt k k' then .cons k e (.cons k' e' tl)
    else if k = k' then .cons k e tl
    else .cons k' e' (dirInsertSorted k e tl)

/-- format_path from src/dir.rs: the textual form of the remaining path. -/
def formatPath (segs : List Str) : Str := segsRender segs

/-- Dir::insert_segments from src/dir.rs, on the split head/tail of a
non-empty path: a one-segment path mounts a handler into a vacant slot and
conflicts with any occupied slot; a longer path creates or reuses a
directory entry and conflicts with a handler entry. The error messages name
the remaining path slice at the conflict point. -/
def insertSegments {H : Type} (entries : DirEntries H) (head : Str)
    (tail : List Str) (handler : H) : Except TCErr (DirEntries H) :=
  match tail with
  | [] =>
    match dirLookup head entries with
    | some _ =>
      .error (tcBadRequest (seg "handler already mounted at path " ++ formatPath (head :: tail)))
    | none => .ok (dirInsertSorted head (.handler handler) entries)
  | t :: ts =>
    match dirLookup head entries with
    | none =>
      match insertSegments DirEntries.nil t ts handler with
      | .error e => .error e
      | .ok sub => .ok (dirInsertSorted head (.dir sub) entries)
    | some (.dir sub) =>
      match insertSegments sub t ts handler with
      | .error e => .error e
      | .ok sub2 => .ok (dirInsertSorted head (.dir sub2) entries)
    | some (.handler _) =>
      .error (tcBadRequest
        (seg "cannot mount handler below a leaf handler at " ++ formatPath (head :: tail)))
termination_by structural tail

/-- The fold inside Dir::from_routes: start from the accumulated directory,
reject empty paths, insert each route in order, and stop at the first
error. -/
def fromRoutesAux {H : Type} (acc : DirEntries H) :
    List (List Str × H) → Except TCErr (DirEntries H)
  | [] => .ok acc
  | (path, handler) :: rest =>
    match path with
    | [] => .error (tcBadRequest (seg "cannot mount handler at root"))
    | head :: tail =>
      match insertSegments acc head tail handler with
      | .error e => .error e
      | .ok acc2 => fromRoutesAux acc2 rest

/-- Dir::from_routes from src/dir.rs. -/
def fromRoutes {H : Type} (routes : List (List Str × H)) : Except TCErr (DirEntries H) :=
  fromRoutesAux DirEntries.nil routes

/-- Dir::route_path from src/dir.rs: walk segment by segment; a handler entry
answers only when the path is fully consumed, a directory entry recurses, and
anything else is none. -/
def routePath {H : Type} (entries : DirEntries H) : List Str → Option H
  | [] => none
  | head :: tail =>
    match dirLookup head entries with
    | some (.handler h) => if tail.isEmpty then some h else none
    | some (.dir sub) => routePath sub tail
    | none => none

/-- C7: Claim::allows returns true exactly when the queried link equals the
claim link and the claim mask covers every required bit; any other link gives
false regardless of the masks involved (masks range over u32). -/
theorem claim_allows_iff (c : Claim) (l : Link) (need : Nat)
    (hm : c.mask < 2 ^ 32) (hn : need < 2 ^ 32) :
    c.allows l need = true ↔ (l = c.link ∧ c.mask &&& need = need) := by
  unfold Claim.allows
  by_cases h : c.link = l
  · subst h
    simp
  · have h2 : l ≠ c.link := fun hh => h hh.symm
    simp [h, h2]

theorem claim_allows_iff_witness :
    (Claim.mk ⟨[seg "lib"]⟩ 7).mask < 2 ^ 32 ∧ (5 : Nat) < 2 ^ 32 ∧
    ((Claim.mk ⟨[seg "lib"]⟩ 7).allows ⟨[seg "lib"]⟩ 5 = true ↔
      ((⟨[seg "lib"]⟩ : Link) = (Claim.mk ⟨[seg "lib"]⟩ 7).link ∧ 7 &&& 5 = 5)) :=
  ⟨by norm_num, by norm_num,
    claim_allows_iff (Claim.mk ⟨[seg "lib"]⟩ 7) ⟨[seg "lib"]⟩ 5 (by norm_num) (by norm_num)⟩

/-- C10: the empty JSON object decodes to the empty Scalar map (it is not an
error and not an envelope), and encoding the empty Scalar map yields the
empty JSON object again. -/
theorem empty_map_roundtrip :
    decodeScalar (Json.obj .nil) = .ok (.map .nil) ∧
    encodeScalar (.map .nil) = Json.obj .nil :=
  ⟨rfl, rfl⟩

/-- A concrete header whose claim mask has bit 16 set (65536 needs 17 bits,
so its low 16 bits are zero). -/
def c8Header : TxnHeader :=
  ⟨TxnId.fromParts 7 1, 7, ⟨⟨[seg "lib", seg "service"]⟩, 65536⟩⟩

/-- C8 counterexample: the claim field inside a serialized TxnHeader carries
the full u32 mask 65536, while the standalone Claim serializer truncates the
same claim to its low 16 bits (0); so the TxnHeader wire encoding of a claim
does not carry only the low 16 bits. -/
theorem c8_counterexample :
    serializeTxnHeader c8Header =
      .obj (.cons (seg "id") (.str (seg "7-1"))
        (.cons (seg "timestamp") (.num 7)
          (.cons (seg "claim")
            (.arr (.cons (.str (seg "/lib/service")) (.cons (.num 65536) .nil)))
            .nil))) ∧
    serializeClaim c8Header.claim =
      .arr (.cons (.str (seg "/lib/service")) (.cons (.num 0) .nil)) ∧
    (65536 : Int) ≠ 0 :=
  ⟨rfl, rfl, by norm_num⟩

/-- First entry with the given key of a JSON object, if any. -/
def objGet (k : Str) : JsonObj → Option Json
  | .nil => none
  | .cons k' v tl => if k = k' then some v else objGet k tl

/-- The claim field of an encoded transaction header. -/
def claimFieldOf (j : Json) : Option Json :=
  match j with
  | .obj entries => objGet (seg "claim") entries
  | _ => none

/-- C8 amended: only the standalone Claim codec truncates to the low 16 bits
of the mask: serializing a Claim yields the 2-tuple of link string and mask
mod 2^16 (and re-decoding recovers exactly those low bits), while the claim
field inside a TxnHeader serialized by either codec carries the full u32
mask. -/
theorem claim_mask_wire_bits (c : Claim) (h : TxnHeader)
    (hl : c.link.segs.all validId = true) :
    serializeClaim c =
      .arr (.cons (.str c.link.render) (.cons (.num ((c.mask % 65536 : Nat) : Int)) .nil)) ∧
    deserializeClaim (serializeClaim c) = .ok ⟨c.link, c.mask % 65536⟩ ∧
    claimFieldOf (serializeTxnHeader h) =
      some (.arr (.cons (.str h.claim.link.render) (.cons (.num (h.claim.mask : Int)) .nil))) ∧
    claimFieldOf (encodeTxnHeader h) =
      some (.arr (.cons (.str h.claim.link.render) (.cons (.num (h.claim.mask : Int)) .nil))) := by
  refine ⟨rfl, ?_, rfl, rfl⟩
  have hrange : (0 : Int) ≤ ((c.mask % 65536 : Nat) : Int) ∧
      ((c.mask % 65536 : Nat) : Int) < 65536 := by
    constructor
    · exact Int.ofNat_nonneg _
    · exact_mod_cast Nat.mod_lt _ (by norm_num)
  simp only [serializeClaim, deserializeClaim, hrange, and_self, if_true,
    Link.parse_render c.link hl, Int.toNat_natCast]

theorem claim_mask_wire_bits_witness :
    (⟨[seg "lib"]⟩ : Link).segs.all validId = true ∧
    (serializeClaim ⟨⟨[seg "lib"]⟩, 65537⟩ =
      .arr (.cons (.str (Link.render ⟨[seg "lib"]⟩))
        (.cons (.num ((65537 % 65536 : Nat) : Int)) .nil)) ∧
    deserializeClaim (serializeClaim ⟨⟨[seg "lib"]⟩, 65537⟩) =
      .ok ⟨⟨[seg "lib"]⟩, 65537 % 65536⟩ ∧
    claimFieldOf (serializeTxnHeader ⟨TxnId.fromParts 1 2, 3, ⟨⟨[seg "lib"]⟩, 65537⟩⟩) =
      some (.arr (.cons (.str (Link.render ⟨[seg "lib"]⟩)) (.cons (.num (65537 : Nat)) .nil))) ∧
    claimFieldOf (encodeTxnHeader ⟨TxnId.fromParts 1 2, 3, ⟨⟨[seg "lib"]⟩, 65537⟩⟩) =
      some (.arr (.cons (.str (Link.render ⟨[seg "lib"]⟩)) (.cons (.num (65537 : Nat)) .nil)))) :=
  ⟨by decide, claim_mask_wire_bits ⟨⟨[seg "lib"]⟩, 65537⟩ _ (by decide)⟩

theorem digit_ne_dash (c : Char) (h : (digitVal c).isSome = true) : c ≠ '-' := by
  intro hc
  subst hc
  simp [digitVal] at h

theorem natRender_all_ne_dash (n : Nat) : (natRender n).all (· ≠ '-') = true := by
  have h := natRender_all_digits n
  simp only [List.all_eq_true] at h ⊢
  intro c hc
  simp only [decide_eq_true_eq]
  exact digit_ne_dash c (h c hc)

theorem txnIdFromStr_render (t : TxnId)
    (hts : t.timestamp < 2 ^ 64) (hn : t.nonce < 2 ^ 16) :
    txnIdFromStr (txnIdRender t) = .ok (TxnId.fromParts t.timestamp t.nonce) := by
  unfold txnIdFromStr txnIdRender
  rw [splitAtFirstDrop_append '-' _ _ (natRender_all_ne_dash t.timestamp)]
  simp only [natParse_natRender, hts, hn, if_true]

/-- A concrete header whose TxnId carries a nonzero trace. -/
def c4Header : TxnHeader :=
  ⟨⟨7, 1, 1 :: List.replicate 31 0⟩, 7, ⟨⟨[seg "lib", seg "service"]⟩, 511⟩⟩

/-- C4 counterexample: for a header whose TxnId trace is nonzero, encoding
via the destream codec and decoding via the serde codec yields a different
TxnHeader (the string form of the TxnId drops the trace), so the cross-codec
round-trip does not return an equal header for every TxnHeader. -/
theorem txn_header_cross_roundtrip_cex :
    deserializeTxnHeader (encodeTxnHeader c4Header) =
      .ok ⟨⟨7, 1, List.replicate 32 0⟩, 7, c4Header.claim⟩ ∧
    (⟨⟨7, 1, List.replicate 32 0⟩, 7, c4Header.claim⟩ : TxnHeader) ≠ c4Header :=
  ⟨rfl, by decide⟩

/-- Single-step equation of the serde header loop at an id entry. -/
theorem loop_id_step (S : Str) (tl : JsonObj) (a : Option TxnId) (b : Option Nat)
    (c : Option Claim) :
    deserializeTxnHeaderLoop (.cons (seg "id") (.str S) tl) a b c =
      (match txnIdFromStr S with
       | .ok tid => deserializeTxnHeaderLoop tl (some tid) b c
       | .error e => .error e) := rfl

/-- Single-step equation of the serde header loop at a timestamp entry. -/
theorem loop_ts_step (n : Int) (tl : JsonObj) (a : Option TxnId) (b : Option Nat)
    (c : Option Claim) :
    deserializeTxnHeaderLoop (.cons (seg "timestamp") (.num n) tl) a b c =
      (if 0 ≤ n ∧ n < 2 ^ 64 then deserializeTxnHeaderLoop tl a (some n.toNat) c
       else .error "invalid u64") := rfl

/-- Single-step equation of the serde header loop at a claim entry. -/
theorem loop_claim_step (v : Json) (tl : JsonObj) (a : Option TxnId) (b : Option Nat)
    (c : Option Claim) :
    deserializeTxnHeaderLoop (.cons (seg "claim") v tl) a b c =
      (match decodeClaimTupleU32 v with
       | .ok cl => deserializeTxnHeaderLoop tl a b (some cl)
       | .error e => .error e) := rfl

/-- Single-step equation of the destream header loop at an id entry. -/
theorem dloop_id_step (S : Str) (tl : JsonObj) (a : Option TxnId) (b : Option Nat)
    (c : Option Claim) :
    decodeTxnHeaderLoop (.cons (seg "id") (.str S) tl) a b c =
      (match txnIdFromStr S with
       | .ok tid => decodeTxnHeaderLoop tl (some tid) b c
       | .error e => .error e) := rfl

/-- Single-step equation of the destream header loop at a timestamp entry. -/
theorem dloop_ts_step (n : Int) (tl : JsonObj) (a : Option TxnId) (b : Option Nat)
    (c : Option Claim) :
    decodeTxnHeaderLoop (.cons (seg "timestamp") (.num n) tl) a b c =
      (if 0 ≤ n ∧ n < 2 ^ 64 then decodeTxnHeaderLoop tl a (some n.toNat) c
       else .error "invalid u64") := rfl

/-- Single-step equation of the destream header loop at a claim entry. -/
theorem dloop_claim_step (v : Json) (tl : JsonObj) (a : Option TxnId) (b : Option Nat)
    (c : Option Claim) :
    decodeTxnHeaderLoop (.cons (seg "claim") v tl) a b c =
      (match decodeClaimTupleU32 v with
       | .ok cl => decodeTxnHeaderLoop tl a b (some cl)
       | .error e => .error e) := rfl

/-- C4 amended: the serde and destream serializers of TxnHeader produce
identical JSON (an object with keys id, timestamp, and claim as a 2-tuple of
link string and u32 mask) for every header, and encoding via either codec
and decoding via the other recovers the header whenever the TxnId trace is
zero (the id string form drops the trace) and the fields are within their
wire ranges. -/
theorem txn_header_codecs_agree (h : TxnHeader)
    (htrace : h.id.trace = List.replicate 32 0)
    (hts : h.id.timestamp < 2 ^ 64) (hnonce : h.id.nonce < 2 ^ 16)
    (htime : h.timestamp < 2 ^ 64) (hmask : h.claim.mask < 2 ^ 32)
    (hlink : h.claim.link.segs.all validId = true) :
    serializeTxnHeader h = encodeTxnHeader h ∧
    serializeTxnHeader h =
      .obj (.cons (seg "id") (.str (txnIdRender h.id))
        (.cons (seg "timestamp") (.num (h.timestamp : Int))
          (.cons (seg "claim")
            (.arr (.cons (.str h.claim.link.render) (.cons (.num (h.claim.mask : Int)) .nil)))
            .nil))) ∧
    deserializeTxnHeader (encodeTxnHeader h) = .ok h ∧
    decodeTxnHeader (serializeTxnHeader h) = .ok h := by
  have hid : txnIdFromStr (txnIdRender h.id) = .ok h.id := by
    rw [txnIdFromStr_render h.id hts hnonce]
    unfold TxnId.fromParts
    rw [← htrace]
  have hclaim : decodeClaimTupleU32
      (.arr (.cons (.str h.claim.link.render) (.cons (.num (h.claim.mask : Int)) .nil))) =
      .ok h.claim := by
    have hrange : (0 : Int) ≤ (h.claim.mask : Int) ∧ (h.claim.mask : Int) < 2 ^ 32 := by
      constructor
      · exact Int.ofNat_nonneg _
      · exact_mod_cast hmask
    simp only [decodeClaimTupleU32, hrange, and_self, if_true,
      Link.parse_render h.claim.link hlink, Int.toNat_natCast]
  have htsr : ((0 : Int) ≤ (h.timestamp : Int) ∧ (h.timestamp : Int) < 2 ^ 64) := by
    constructor
    · exact Int.ofNat_nonneg _
    · exact_mod_cast htime
  refine ⟨rfl, rfl, ?_, ?_⟩
  · show deserializeTxnHeaderLoop
        (.cons (seg "id") (.str (txnIdRender h.id))
          (.cons (seg "timestamp") (.num (h.timestamp : Int))
            (.cons (seg "claim")
              (.arr (.cons (.str h.claim.link.render) (.cons (.num (h.claim.mask : Int)) .nil)))
              .nil))) none none none = .ok h
    rw [loop_id_step, hid]
    show deserializeTxnHeaderLoop
        (.cons (seg "timestamp") (.num (h.timestamp : Int))
          (.cons (seg "claim")
            (.arr (.cons (.str h.claim.link.render) (.cons (.num (h.claim.mask : Int)) .nil)))
            .nil)) (some h.id) none none = .ok h
    rw [loop_ts_step, if_pos htsr]
    rw [loop_claim_step, hclaim]
    show Except.ok ⟨h.id, ((h.timestamp : Int)).toNat, h.claim⟩ = .ok h
    rw [Int.toNat_natCast]
  · show decodeTxnHeaderLoop
        (.cons (seg "id") (.str (txnIdRender h.id))
          (.cons (seg "timestamp") (.num (h.timestamp : Int))
            (.cons (seg "claim")
              (.arr (.cons (.str h.claim.link.render) (.cons (.num (h.claim.mask : Int)) .nil)))
              .nil))) none none none = .ok h
    rw [dloop_id_step, hid]
    show decodeTxnHeaderLoop
        (.cons (seg "timestamp") (.num (h.timestamp : Int))
          (.cons (seg "claim")
            (.arr (.cons (.str h.claim.link.render) (.cons (.num (h.claim.mask : Int)) .nil)))
            .nil)) (some h.id) none none = .ok h
    rw [dloop_ts_step, if_pos htsr]
    rw [dloop_claim_step, hclaim]
    show Except.ok ⟨h.id, ((h.timestamp : Int)).toNat, h.claim⟩ = .ok h
    rw [Int.toNat_natCast]

theorem txn_header_codecs_agree_witness :
    ((TxnId.fromParts 7 1).trace = List.replicate 32 0 ∧
      (TxnId.fromParts 7 1).timestamp < 2 ^ 64 ∧ (TxnId.fromParts 7 1).nonce < 2 ^ 16 ∧
      (7 : Nat) < 2 ^ 64 ∧ (511 : Nat) < 2 ^ 32 ∧
      ([seg "lib", seg "service"].all validId = true)) ∧
    (deserializeTxnHeader (encodeTxnHeader
        ⟨TxnId.fromParts 7 1, 7, ⟨⟨[seg "lib", seg "service"]⟩, 511⟩⟩) =
      .ok ⟨TxnId.fromParts 7 1, 7, ⟨⟨[seg "lib", seg "service"]⟩, 511⟩⟩) :=
  ⟨⟨by decide, by decide, by decide, by norm_num, by norm_num, by decide⟩,
    (txn_header_codecs_agree ⟨TxnId.fromParts 7 1, 7, ⟨⟨[seg "lib", seg "service"]⟩, 511⟩⟩
      (by decide) (by decide) (by decide) (by norm_num) (by norm_num) (by decide)).2.2.1⟩

theorem dirLookup_insert_self {H : Type} (k : Str) (e : DirEntry H) :
    (es : DirEntries H) → dirLookup k (dirInsertSorted k e es) = some e
  | .nil => by simp [dirInsertSorted, dirLookup]
  | .cons k' e' tl => by
    by_cases h1 : strLt k k' = true
    · simp [dirInsertSorted, h1, dirLookup]
    · by_cases h2 : k = k'
      · subst h2
        simp [dirInsertSorted, h1, dirLookup]
      · simp [dirInsertSorted, h1, h2, dirLookup, dirLookup_insert_self k e tl]

theorem dirLookup_insert_ne {H : Type} (k k' : Str) (e : DirEntry H) (h : k' ≠ k) :
    (es : DirEntries H) → dirLookup k' (dirInsertSorted k e es) = dirLookup k' es
  | .nil => by simp [dirInsertSorted, dirLookup, h]
  | .cons k2 e2 tl => by
    by_cases h1 : strLt k k2 = true
    · simp [dirInsertSorted, h1, dirLookup, h]
    · by_cases h2 : k = k2
      · subst h2
        simp [dirInsertSorted, h1, dirLookup, h]
      · simp [dirInsertSorted, h1, h2, dirLookup, dirLookup_insert_ne k k' e h tl]

/-- The directory chain produced by inserting a single path into an empty
directory. -/
def chainDir {H : Type} (head : Str) (tail : List Str) (h : H) : DirEntries H :=
  match tail with
  | [] => .cons head (.handler h) .nil
  | t :: ts => .cons head (.dir (chainDir t ts h)) .nil

theorem insert_nil_eq_chain {H : Type} (head : Str) (tail : List Str) (h : H) :
    insertSegments DirEntries.nil head tail h = .ok (chainDir head tail h) := by
  induction tail generalizing head with
  | nil => rfl
  | cons t ts ih =>
    simp only [insertSegments, dirLookup, ih t, chainDir, dirInsertSorted]

/-- The final segment of a non-empty path given as head and tail. -/
def lastSeg (head : Str) (tail : List Str) : Str :=
  match tail with
  | [] => head
  | t :: ts => lastSeg t ts

theorem insert_dup_chain {H : Type} (head : Str) (tail : List Str) (h1 h2 : H) :
    insertSegments (chainDir head tail h1) head tail h2 =
      .error (tcBadRequest
        (seg "handler already mounted at path " ++ formatPath [lastSeg head tail])) := by
  induction tail generalizing head with
  | nil => simp [chainDir, insertSegments, dirLookup, lastSeg, formatPath]
  | cons t ts ih =>
    simp only [chainDir, insertSegments, dirLookup, if_pos rfl, ite_true,
      eq_self_iff_true, ih t, lastSeg]

theorem insert_below_chain {H : Type} (head : Str) (tail q : List Str) (h1 h2 : H)
    (hq : q ≠ []) :
    insertSegments (chainDir head tail h1) head (tail ++ q) h2 =
      .error (tcBadRequest
        (seg "cannot mount handler below a leaf handler at "
          ++ formatPath (lastSeg head tail :: q))) := by
  induction tail generalizing head with
  | nil =>
    cases q with
    | nil => exact absurd rfl hq
    | cons qh qt =>
      simp [chainDir, insertSegments, dirLookup, lastSeg, formatPath]
  | cons t ts ih =>
    simp only [chainDir, List.cons_append, List.append_eq, insertSegments, dirLookup,
      if_pos rfl, ite_true, eq_self_iff_true, ih t, lastSeg]

theorem route_chain {H : Type} (head : Str) (tail : List Str) (h : H) :
    ∀ q : List Str, routePath (chainDir head tail h) q =
      if q = head :: tail then some h else none := by
  induction tail generalizing head with
  | nil =>
    intro q
    cases q with
    | nil => simp [routePath]
    | cons qh qt =>
      by_cases hx : qh = head
      · subst hx
        cases qt with
        | nil => simp [chainDir, routePath, dirLookup]
        | cons a b => simp [chainDir, routePath, dirLookup]
      · simp [chainDir, routePath, dirLookup, hx]
  | cons t ts ih =>
    intro q
    cases q with
    | nil => simp [routePath]
    | cons qh qt =>
      by_cases hx : qh = head
      · subst hx
        simp [chainDir, routePath, dirLookup, ih t qt]
      · simp [chainDir, routePath, dirLookup, hx]

/-- C6: for a Dir built from the single route (p, h), route answers the
handler exactly at p and at nothing else; in particular every strict prefix
of p and every strict extension of p routes to none. -/
theorem dir_route_exact {H : Type} (p : List Str) (h : H) (hp : p ≠ []) :
    ∃ d, fromRoutes [(p, h)] = .ok d ∧
      ∀ q : List Str, routePath d q = if q = p then some h else none := by
  cases p with
  | nil => exact absurd rfl hp
  | cons head tail =>
    refine ⟨chainDir head tail h, ?_, route_chain head tail h⟩
    simp [fromRoutes, fromRoutesAux, insert_nil_eq_chain]

theorem dir_route_exact_witness :
    ([seg "a", seg "b"] : List Str) ≠ [] ∧
    ∃ d, fromRoutes [([seg "a", seg "b"], 0)] = .ok d ∧
      ∀ q : List Str, routePath d q = if q = [seg "a", seg "b"] then some 0 else none :=
  ⟨by decide, dir_route_exact [seg "a", seg "b"] 0 (by decide)⟩

/-- Whether the first list is an initial run of the second. -/
def isLeadSegs : List Str → List Str → Bool
  | [], _ => true
  | _ :: _, [] => false
  | a :: as, b :: bs => a = b && isLeadSegs as bs

/-- Two paths conflict when either is an initial run of the other. -/
def overlapping (p q : List Str) : Bool :=
  isLeadSegs p q || isLeadSegs q p

/-- A conflict-free multiset of routes: no empty path and no pairwise
overlap. -/
def noConflicts {H : Type} : List (List Str × H) → Bool
  | [] => true
  | (p, _) :: rest =>
    !p.isEmpty && rest.all (fun r => !(overlapping p r.1)) && noConflicts rest

/-- Whether inserting the given path would succeed against the current
entries: the walk may not meet a handler, and the final slot must be
vacant. -/
def freeFor {H : Type} (entries : DirEntries H) : List Str → Bool
  | [] => true
  | head :: tail =>
    match dirLookup head entries with
    | none => true
    | some (.handler _) => false
    | some (.dir sub) => !tail.isEmpty && freeFor sub tail

theorem freeFor_nil {H : Type} (q : List Str) :
    freeFor (DirEntries.nil : DirEntries H) q = true := by
  cases q with
  | nil => rfl
  | cons qh qt => simp [freeFor, dirLookup]

theorem overlapping_cons_ne (a b : Str) (as bs : List Str) (h : ¬ b = a) :
    overlapping (a :: as) (b :: bs) = false := by
  have h2 : ¬ a = b := fun hh => h hh.symm
  simp [overlapping, isLeadSegs, h, h2]

theorem overlapping_cons_same (a : Str) (as bs : List Str) :
    overlapping (a :: as) (a :: bs) = overlapping as bs := by
  simp [overlapping, isLeadSegs]

theorem freeFor_eq_of_lookup {H : Type} (e1 e2 : DirEntries H) (qh : Str) (qt : List Str)
    (h : dirLookup qh e1 = dirLookup qh e2) :
    freeFor e1 (qh :: qt) = freeFor e2 (qh :: qt) := by
  simp only [freeFor, h]

theorem insert_ok_of_freeFor {H : Type} (tail : List Str) :
    ∀ (entries : DirEntries H) (head : Str) (h : H),
      freeFor entries (head :: tail) = true →
      ∃ d, insertSegments entries head tail h = .ok d := by
  induction tail with
  | nil =>
    intro entries head h hfree
    simp only [freeFor] at hfree
    cases hl : dirLookup head entries with
    | none =>
      refine ⟨dirInsertSorted head (.handler h) entries, ?_⟩
      simp [insertSegments, hl]
    | some e =>
      rw [hl] at hfree
      cases e with
      | handler hh => simp at hfree
      | dir sub => simp at hfree
  | cons t ts ih =>
    intro entries head h hfree
    simp only [freeFor] at hfree
    cases hl : dirLookup head entries with
    | none =>
      refine ⟨dirInsertSorted head (.dir (chainDir t ts h)) entries, ?_⟩
      simp [insertSegments, hl, insert_nil_eq_chain]
    | some e =>
      rw [hl] at hfree
      cases e with
      | handler hh => simp at hfree
      | dir sub =>
        simp only [List.isEmpty_cons, Bool.not_false, Bool.true_and] at hfree
        obtain ⟨d2, hd2⟩ := ih sub t h hfree
        refine ⟨dirInsertSorted head (.dir d2) entries, ?_⟩
        simp [insertSegments, hl, hd2]

theorem freeFor_insert {H : Type} (tail : List Str) :
    ∀ (entries d : DirEntries H) (head : Str) (h : H),
      insertSegments entries head tail h = .ok d →
      ∀ (qh : Str) (qt : List Str),
        freeFor d (qh :: qt) =
          (freeFor entries (qh :: qt) && !overlapping (head :: tail) (qh :: qt)) := by
  induction tail with
  | nil =>
    intro entries d head h hins qh qt
    simp only [insertSegments] at hins
    cases hl : dirLookup head entries with
    | some e => rw [hl] at hins; simp at hins
    | none =>
      rw [hl] at hins
      simp only [Except.ok.injEq] at hins
      subst hins
      by_cases hq : qh = head
      · subst hq
        have hlook := dirLookup_insert_self qh (DirEntry.handler h) entries
        simp only [freeFor, hlook, hl, overlapping, isLeadSegs]
        simp
      · have hlook := dirLookup_insert_ne head qh (DirEntry.handler h) hq entries
        rw [freeFor_eq_of_lookup _ entries qh qt hlook,
          overlapping_cons_ne head qh [] qt hq]
        simp
  | cons t ts ih =>
    intro entries d head h hins qh qt
    simp only [insertSegments] at hins
    cases hl : dirLookup head entries with
    | none =>
      rw [hl, insert_nil_eq_chain t ts h] at hins
      simp only [Except.ok.injEq] at hins
      subst hins
      by_cases hq : qh = head
      · subst hq
        have hlook := dirLookup_insert_self qh (DirEntry.dir (chainDir t ts h)) entries
        cases qt with
        | nil =>
          simp only [freeFor, hlook, hl, List.isEmpty_nil, Bool.not_true,
            Bool.false_and, overlapping, isLeadSegs]
          simp
        | cons qh2 qt2 =>
          have hch := ih DirEntries.nil (chainDir t ts h) t h
            (insert_nil_eq_chain t ts h) qh2 qt2
          rw [freeFor_nil] at hch
          simp only [Bool.true_and] at hch
          rw [show freeFor (dirInsertSorted qh (DirEntry.dir (chainDir t ts h)) entries)
              (qh :: qh2 :: qt2) =
              (!(qh2 :: qt2).isEmpty && freeFor (chainDir t ts h) (qh2 :: qt2)) from by
            simp only [freeFor, hlook]]
          rw [hch, overlapping_cons_same qh (t :: ts) (qh2 :: qt2),
            show freeFor entries (qh :: qh2 :: qt2) = true from by
              simp only [freeFor, hl]]
          simp
      · have hlook := dirLookup_insert_ne head qh (DirEntry.dir (chainDir t ts h)) hq entries
        rw [freeFor_eq_of_lookup _ entries qh qt hlook,
          overlapping_cons_ne head qh (t :: ts) qt hq]
        simp
    | some e =>
      rw [hl] at hins
      cases e with
      | handler hh => simp at hins
      | dir sub =>
        have hins2 : (match insertSegments sub t ts h with
          | .error e => (.error e : Except TCErr (DirEntries H))
          | .ok sub2 => .ok (dirInsertSorted head (.dir sub2) entries)) = .ok d := hins
        cases hs : insertSegments sub t ts h with
        | error e2 => rw [hs] at hins2; simp at hins2
        | ok sub2 =>
          rw [hs] at hins2
          simp only [Except.ok.injEq] at hins2
          subst hins2
          by_cases hq : qh = head
          · subst hq
            have hlook := dirLookup_insert_self qh (DirEntry.dir sub2) entries
            cases qt with
            | nil =>
              simp only [freeFor, hlook, hl, List.isEmpty_nil, Bool.not_true,
                Bool.false_and, overlapping, isLeadSegs]
              try simp
            | cons qh2 qt2 =>
              have hch := ih sub sub2 t h hs qh2 qt2
              rw [show freeFor (dirInsertSorted qh (DirEntry.dir sub2) entries)
                  (qh :: qh2 :: qt2) =
                  (!(qh2 :: qt2).isEmpty && freeFor sub2 (qh2 :: qt2)) from by
                simp only [freeFor, hlook]]
              rw [hch, overlapping_cons_same qh (t :: ts) (qh2 :: qt2),
                show freeFor entries (qh :: qh2 :: qt2) =
                  (!(qh2 :: qt2).isEmpty && freeFor sub (qh2 :: qt2)) from by
                  simp only [freeFor, hl]]
              simp [Bool.and_assoc]
          · have hlook := dirLookup_insert_ne head qh (DirEntry.dir sub2) hq entries
            rw [freeFor_eq_of_lookup _ entries qh qt hlook,
              overlapping_cons_ne head qh (t :: ts) qt hq]
            simp

theorem fromRoutesAux_ok {H : Type} (routes : List (List Str × H)) :
    ∀ acc : DirEntries H, noConflicts routes = true →
      (∀ pr ∈ routes, freeFor acc pr.1 = true) →
      ∃ d, fromRoutesAux acc routes = .ok d := by
  induction routes with
  | nil => exact fun acc _ _ => ⟨_, rfl⟩
  | cons pr rest ih =>
    intro acc hconf hfree
    obtain ⟨p, h⟩ := pr
    simp only [noConflicts, Bool.and_eq_true, List.all_eq_true,
      Bool.not_eq_eq_eq_not, Bool.not_true] at hconf
    obtain ⟨⟨hpne, hover⟩, hrest⟩ := hconf
    cases hp : p with
    | nil => rw [hp] at hpne; simp at hpne
    | cons head tail =>
      have hfp : freeFor acc (head :: tail) = true := by
        have := hfree (p, h) (by simp)
        rw [hp] at this
        exact this
      obtain ⟨d2, hd2⟩ := insert_ok_of_freeFor tail acc head h hfp
      have hstep : ∀ pr2 ∈ rest, freeFor d2 pr2.1 = true := by
        intro pr2 hmem
        have hq : freeFor acc pr2.1 = true := hfree pr2 (by simp [hmem])
        have hov : overlapping p pr2.1 = false := hover pr2 hmem
        cases hq2 : pr2.1 with
        | nil => simp [freeFor]
        | cons qh qt =>
          rw [freeFor_insert tail acc d2 head h hd2 qh qt]
          rw [hq2] at hq hov
          rw [hq, ← hp, hov]
          rfl
      obtain ⟨d3, hd3⟩ := ih d2 hrest hstep
      refine ⟨d3, ?_⟩
      simp only [fromRoutesAux, hd2, hd3]

/-- C5 amended: Dir::from_routes rejects the conflicts exactly as the code
reports them: an empty path is rejected with a bad-request error; a
duplicate route fails with a bad-request whose message contains already
mounted and names the path suffix from the conflict point (the final
segment); a route strictly below an existing handler fails with a
bad-request naming the offending suffix from the mounted handler on; and any
conflict-free family of routes (no empty path, no route a prefix of another)
builds successfully. -/
theorem dir_from_routes_conflicts {H : Type} :
    (∀ (h : H) (rest : List (List Str × H)),
      fromRoutes (([], h) :: rest) =
        .error (tcBadRequest (seg "cannot mount handler at root"))) ∧
    (∀ (head : Str) (tail : List Str) (h1 h2 : H),
      fromRoutes [(head :: tail, h1), (head :: tail, h2)] =
        .error (tcBadRequest
          (seg "handler already mounted at path " ++ formatPath [lastSeg head tail]))) ∧
    (∀ (head : Str) (tail q : List Str) (h1 h2 : H), q ≠ [] →
      fromRoutes [(head :: tail, h1), ((head :: tail) ++ q, h2)] =
        .error (tcBadRequest
          (seg "cannot mount handler below a leaf handler at "
            ++ formatPath (lastSeg head tail :: q)))) ∧
    (∀ routes : List (List Str × H), noConflicts routes = true →
      ∃ d, fromRoutes routes = .ok d) := by
  refine ⟨fun h rest => rfl, ?_, ?_, ?_⟩
  · intro head tail h1 h2
    simp only [fromRoutes, fromRoutesAux, insert_nil_eq_chain,
      insert_dup_chain]
  · intro head tail q h1 h2 hq
    simp only [fromRoutes, fromRoutesAux, List.cons_append, insert_nil_eq_chain,
      insert_below_chain head tail q h1 h2 hq]
  · intro routes hconf
    exact fromRoutesAux_ok routes DirEntries.nil hconf
      (fun pr _ => freeFor_nil pr.1)

theorem dir_from_routes_conflicts_witness :
    ([] : List Str) ≠ [] ∨
    (noConflicts [([seg "a"], 0), ([seg "b", seg "c"], 1)] = true ∧
      ∃ d, fromRoutes [([seg "a"], 0), ([seg "b", seg "c"], 1)] = .ok d) :=
  .inr ⟨by decide, (@dir_from_routes_conflicts Nat).2.2.2 _ (by decide)⟩

/-- C5 counterexample: mounting the same two-segment path twice produces the
bad-request message naming only the trailing segment of the path: the
message contains already mounted but does not contain the full path /a/b, so
the error does not name the (full) offending path. -/
theorem dir_dup_message_cex :
    fromRoutes [([seg "a", seg "b"], 0), ([seg "a", seg "b"], 1)] =
      .error (tcBadRequest (seg "handler already mounted at path /b")) ∧
    containsStr (seg "handler already mounted at path /b") (seg "already mounted") = true ∧
    containsStr (seg "handler already mounted at path /b") (seg "/a/b") = false :=
  ⟨rfl, by decide, by decide⟩

theorem subjectFromStr_of_parse (krest : Str) (p : List Str)
    (hp : pathParse ('/' :: krest) = some p) :
    subjectFromStr ('/' :: krest) = .ok (.link ⟨p⟩) := by
  simp only [subjectFromStr, Link.parse, hp, Option.map_some']
  rfl

/-- C2: for a single-entry JSON object whose key begins with a slash, is not
a value-type, op-definition, or control-flow label, and parses as a path
(hence as a Link): an empty-sequence argument decodes to the plain link
value; a 1-element sequence to a GET op ref on that link; a 2-element
sequence to a PUT op ref; a map argument to a POST op ref; and a sequence of
three or more elements is an error. -/
theorem slash_key_arg_shapes (krest : Str) (p : List Str)
    (hp : pathParse ('/' :: krest) = some p)
    (hvt : valueTypeFromPath p = none)
    (hod : opDefTypeFromPath p = none)
    (hc1 : p ≠ tcrefIfLabel) (hc2 : p ≠ tcrefCondLabel) (hc3 : p ≠ tcrefWhileLabel)
    (hc4 : p ≠ tcrefForEachLabel) (hc5 : p ≠ oprefDeleteLabel) :
    (∀ rest, decodeScalar (.obj (.cons ('/' :: krest) (.arr .nil) rest)) =
      .ok (.value (.link ⟨p⟩))) ∧
    (∀ rest j x, decodeScalar j = .ok x →
      decodeScalar (.obj (.cons ('/' :: krest) (.arr (.cons j .nil)) rest)) =
        .ok (.ref (.op (.get (.link ⟨p⟩) x)))) ∧
    (∀ rest j1 j2 x1 x2, decodeScalar j1 = .ok x1 → decodeScalar j2 = .ok x2 →
      decodeScalar (.obj (.cons ('/' :: krest) (.arr (.cons j1 (.cons j2 .nil))) rest)) =
        .ok (.ref (.op (.put (.link ⟨p⟩) x1 x2)))) ∧
    (∀ rest entries params, decodeParams entries .nil = .ok params →
      decodeScalar (.obj (.cons ('/' :: krest) (.obj entries) rest)) =
        .ok (.ref (.op (.post (.link ⟨p⟩) params)))) ∧
    (∀ rest items l1 l2 l3 ltl,
      decodeScalarItems items = .ok (.cons l1 (.cons l2 (.cons l3 ltl))) →
      decodeScalar (.obj (.cons ('/' :: krest) (.arr items) rest)) =
        .error "invalid OpRef params (expected 1 or 2 elements)") := by
  have h0 : headIs '/' ('/' :: krest) = true := rfl
  have hsub : subjectFromStr ('/' :: krest) = .ok (.link ⟨p⟩) :=
    subjectFromStr_of_parse krest p hp
  refine ⟨?_, ?_, ?_, ?_, ?_⟩
  · intro rest
    rw [decodeScalar.eq_8, if_pos h0, hp]
    dsimp only
    rw [hvt]
    dsimp only
    rw [hod]
    dsimp only
    rw [if_neg hc1, if_neg hc2, if_neg hc3, if_neg hc4, if_neg hc5]
    rw [show decodeScalarItems .nil = Except.ok ScalarList.nil from rfl]
    dsimp only
    simp only [scalarFromSubjectArgs, Link.parse, hp, Option.map_some']
  · intro rest j x hx
    rw [decodeScalar.eq_8, if_pos h0, hp]
    dsimp only
    rw [hvt]
    dsimp only
    rw [hod]
    dsimp only
    rw [if_neg hc1, if_neg hc2, if_neg hc3, if_neg hc4, if_neg hc5]
    simp only [decodeScalarItems, hx]
    simp only [scalarFromSubjectArgs, subjectFromStr, Link.parse, hp, Option.map_some',
      opRefFromSubjectArgs]
    rfl
  · intro rest j1 j2 x1 x2 hx1 hx2
    rw [decodeScalar.eq_8, if_pos h0, hp]
    dsimp only
    rw [hvt]
    dsimp only
    rw [hod]
    dsimp only
    rw [if_neg hc1, if_neg hc2, if_neg hc3, if_neg hc4, if_neg hc5]
    simp only [decodeScalarItems, hx1, hx2]
    simp only [scalarFromSubjectArgs, subjectFromStr, Link.parse, hp, Option.map_some',
      opRefFromSubjectArgs]
    rfl
  · intro rest entries params hparams
    rw [decodeScalar.eq_7, if_pos h0, hp]
    dsimp only
    rw [hvt]
    dsimp only
    rw [hod]
    dsimp only
    rw [if_neg hc1, if_neg hc2, if_neg hc3, if_neg hc4, if_neg hc5]
    rw [hparams]
    dsimp only
    simp only [scalarFromSubjectArgs, subjectFromStr, Link.parse, hp, Option.map_some',
      opRefFromSubjectArgs]
    rfl
  · intro rest items l1 l2 l3 ltl hl
    rw [decodeScalar.eq_8, if_pos h0, hp]
    dsimp only
    rw [hvt]
    dsimp only
    rw [hod]
    dsimp only
    rw [if_neg hc1, if_neg hc2, if_neg hc3, if_neg hc4, if_neg hc5]
    rw [hl]
    dsimp only
    simp only [scalarFromSubjectArgs, subjectFromStr, Link.parse, hp, Option.map_some',
      opRefFromSubjectArgs]
    rfl

theorem slash_key_arg_shapes_witness :
    (pathParse ('/' :: seg "lib/acme") = some [seg "lib", seg "acme"] ∧
      valueTypeFromPath [seg "lib", seg "acme"] = none ∧
      opDefTypeFromPath [seg "lib", seg "acme"] = none) ∧
    (∀ rest, decodeScalar (.obj (.cons ('/' :: seg "lib/acme") (.arr .nil) rest)) =
      .ok (.value (.link ⟨[seg "lib", seg "acme"]⟩))) :=
  ⟨⟨by decide, by decide, by decide⟩,
    (slash_key_arg_shapes (seg "lib/acme") [seg "lib", seg "acme"]
      (by decide) (by decide) (by decide) (by decide) (by decide) (by decide)
      (by decide) (by decide)).1⟩

/-- Reduction of the Scalar decoder on a slash-keyed object whose key parses
as a path: the result is the slash-branch dispatcher at that path. -/
theorem decodeScalar_slash_some (krest : Str) (p : List Str) (v : Json) (rest : JsonObj)
    (hp : pathParse ('/' :: krest) = some p) :
    decodeScalar (.obj (.cons ('/' :: krest) v rest)) =
      decodeSlashKeyed ('/' :: krest) (some p) v := by
  have h0 : headIs '/' ('/' :: krest) = true := rfl
  cases v with
  | obj entries =>
    rw [decodeScalar.eq_7, if_pos h0, hp]
    rfl
  | arr items =>
    rw [decodeScalar.eq_8, if_pos h0, hp]
    rfl
  | null =>
    rw [decodeScalar.eq_9 _ _ _ (by intro _ h; cases h) (by intro _ h; cases h),
      if_pos h0, hp]
    rfl
  | bool b =>
    rw [decodeScalar.eq_9 _ _ _ (by intro _ h; cases h) (by intro _ h; cases h),
      if_pos h0, hp]
    rfl
  | num n =>
    rw [decodeScalar.eq_9 _ _ _ (by intro _ h; cases h) (by intro _ h; cases h),
      if_pos h0, hp]
    rfl
  | str s =>
    rw [decodeScalar.eq_9 _ _ _ (by intro _ h; cases h) (by intro _ h; cases h),
      if_pos h0, hp]
    rfl
/-- C3: for a single-entry JSON map whose first key begins with a slash and
parses as a path, the decoder classifies the key in this fixed order:
value-type labels first (emitting a typed Value), then OpDef labels (emitting
an Op), then the control-flow labels if, cond, while, for_each and the opref
delete label (emitting a Ref), and only past all of those the generic
subject/link shape; a key recognized by an earlier stage is decoded by that
stage regardless of any later reading. -/
theorem slash_label_priority (krest : Str) (p : List Str)
    (hp : pathParse ('/' :: krest) = some p) :
    (∀ vt, valueTypeFromPath p = some vt → ∀ v rest,
      decodeScalar (.obj (.cons ('/' :: krest) v rest)) =
        match decodeTypedValue vt v with
        | .error e => .error e
        | .ok value => .ok (.value value)) ∧
    (valueTypeFromPath p = none → ∀ t, opDefTypeFromPath p = some t → ∀ v rest,
      decodeScalar (.obj (.cons ('/' :: krest) v rest)) =
        match decodeOpDefBody t v with
        | .error e => .error e
        | .ok d => .ok (.op d)) ∧
    (p = tcrefIfLabel → ∀ v rest,
      decodeScalar (.obj (.cons ('/' :: krest) v rest)) =
        match decodeIfPayload v with
        | .error e => .error e
        | .ok r => .ok (.ref r)) ∧
    (p = tcrefCondLabel → ∀ v rest,
      decodeScalar (.obj (.cons ('/' :: krest) v rest)) =
        match decodeCondPayload v with
        | .error e => .error e
        | .ok r => .ok (.ref r)) ∧
    (p = tcrefWhileLabel → ∀ v rest,
      decodeScalar (.obj (.cons ('/' :: krest) v rest)) =
        match decodeWhilePayload v with
        | .error e => .error e
        | .ok r => .ok (.ref r)) ∧
    (p = tcrefForEachLabel → ∀ v rest,
      decodeScalar (.obj (.cons ('/' :: krest) v rest)) =
        match decodeForEachPayload v with
        | .error e => .error e
        | .ok r => .ok (.ref r)) ∧
    (p = oprefDeleteLabel → ∀ v rest,
      decodeScalar (.obj (.cons ('/' :: krest) v rest)) =
        match decodeOpRefEntry ('/' :: krest) v with
        | .error e => .error e
        | .ok o => .ok (.ref (.op o))) := by
  refine ⟨?_, ?_, ?_, ?_, ?_, ?_, ?_⟩
  · intro vt hvt v rest
    rw [decodeScalar_slash_some krest p v rest hp]
    simp only [decodeSlashKeyed]
    rw [hvt]
  · intro hvt t hod v rest
    rw [decodeScalar_slash_some krest p v rest hp]
    simp only [decodeSlashKeyed]
    rw [hvt]
    dsimp only
    rw [hod]
  · intro h v rest
    subst h
    rw [decodeScalar_slash_some krest tcrefIfLabel v rest hp]
    simp only [decodeSlashKeyed]
    rw [show valueTypeFromPath tcrefIfLabel = none from rfl]
    dsimp only
    rw [show opDefTypeFromPath tcrefIfLabel = none from rfl]
    dsimp only
    rw [if_true]
  · intro h v rest
    subst h
    rw [decodeScalar_slash_some krest tcrefCondLabel v rest hp]
    simp only [decodeSlashKeyed]
    rw [show valueTypeFromPath tcrefCondLabel = none from rfl]
    dsimp only
    rw [show opDefTypeFromPath tcrefCondLabel = none from rfl]
    dsimp only
    rw [if_neg (by decide), if_true]
  · intro h v rest
    subst h
    rw [decodeScalar_slash_some krest tcrefWhileLabel v rest hp]
    simp only [decodeSlashKeyed]
    rw [show valueTypeFromPath tcrefWhileLabel = none from rfl]
    dsimp only
    rw [show opDefTypeFromPath tcrefWhileLabel = none from rfl]
    dsimp only
    rw [if_neg (by decide), if_neg (by decide), if_true]
  · intro h v rest
    subst h
    rw [decodeScalar_slash_some krest tcrefForEachLabel v rest hp]
    simp only [decodeSlashKeyed]
    rw [show valueTypeFromPath tcrefForEachLabel = none from rfl]
    dsimp only
    rw [show opDefTypeFromPath tcrefForEachLabel = none from rfl]
    dsimp only
    rw [if_neg (by decide), if_neg (by decide), if_neg (by decide), if_true]
  · intro h v rest
    subst h
    rw [decodeScalar_slash_some krest oprefDeleteLabel v rest hp]
    simp only [decodeSlashKeyed]
    rw [show valueTypeFromPath oprefDeleteLabel = none from rfl]
    dsimp only
    rw [show opDefTypeFromPath oprefDeleteLabel = none from rfl]
    dsimp only
    rw [if_neg (by decide), if_neg (by decide), if_neg (by decide), if_neg (by decide),
      if_true]
set_option maxHeartbeats 1600000 in
/-- C9: the If and Cond control-flow payload decoders require the first
(cond) element to be a Scalar ref: a three-element payload whose decoded
condition is any non-ref Scalar fails with the expected-ref error, and a
ref condition decodes to TCRef.ifRef (resp. TCRef.cond) carrying that inner
ref as the condition. -/
theorem if_cond_require_ref :
    (∀ items c t e, decodeScalarItems items = .ok (.cons c (.cons t (.cons e .nil))) →
      (∀ r, c ≠ .ref r) →
      decodeIfPayload (.arr items) = .error "invalid If ref condition (expected ref)") ∧
    (∀ items r t e, decodeScalarItems items = .ok (.cons (.ref r) (.cons t (.cons e .nil))) →
      decodeIfPayload (.arr items) = .ok (.ifRef r t e)) ∧
    (∀ j0 j1 j2 c t e, decodeScalar j0 = .ok c → decodeOpDefTop j1 = .ok t →
      decodeOpDefTop j2 = .ok e → (∀ r, c ≠ .ref r) →
      decodeCondPayload (.arr (.cons j0 (.cons j1 (.cons j2 .nil)))) =
        .error "invalid CondOp condition (expected ref)") ∧
    (∀ j0 j1 j2 r t e, decodeScalar j0 = .ok (.ref r) → decodeOpDefTop j1 = .ok t →
      decodeOpDefTop j2 = .ok e →
      decodeCondPayload (.arr (.cons j0 (.cons j1 (.cons j2 .nil)))) =
        .ok (.cond r t e)) := by
  refine ⟨?_, ?_, ?_, ?_⟩
  · intro items c t e hitems hc
    simp only [decodeIfPayload, hitems]
  · intro items r t e hitems
    simp only [decodeIfPayload, hitems]
  · intro j0 j1 j2 c t e h0 h1 h2 hc
    show (match decodeScalar j0 with
      | .error e => .error e
      | .ok c =>
        match decodeOpDefTop j1 with
        | .error e => .error e
        | .ok t =>
          match decodeOpDefTop j2 with
          | .error e => .error e
          | .ok el =>
            match c with
            | .ref r => Except.ok (TCRef.cond r t el)
            | _ => Except.error "invalid CondOp condition (expected ref)") =
      Except.error "invalid CondOp condition (expected ref)"
    rw [h0]
    dsimp only
    rw [h1]
    dsimp only
    rw [h2]
    dsimp only
    cases c with
    | ref r => exact absurd rfl (hc r)
    | value v => rfl
    | op d => rfl
    | map m => rfl
    | tuple l => rfl
  · intro j0 j1 j2 r t e h0 h1 h2
    show (match decodeScalar j0 with
      | .error e => .error e
      | .ok c =>
        match decodeOpDefTop j1 with
        | .error e => .error e
        | .ok t =>
          match decodeOpDefTop j2 with
          | .error e => .error e
          | .ok el =>
            match c with
            | .ref r => Except.ok (TCRef.cond r t el)
            | _ => Except.error "invalid CondOp condition (expected ref)") =
      Except.ok (TCRef.cond r t e)
    rw [h0]
    dsimp only
    rw [h1]
    dsimp only
    rw [h2]

theorem if_cond_require_ref_witness :
    decodeIfPayload (.arr (.cons .null (.cons .null (.cons .null .nil)))) =
      .error "invalid If ref condition (expected ref)" :=
  if_cond_require_ref.1 (.cons .null (.cons .null (.cons .null .nil)))
    (.value .none) (.value .none) (.value .none) (by rfl)
    (fun r h => Scalar.noConfusion h)

theorem slash_label_priority_witness :
    decodeScalar (.obj (.cons ('/' :: seg "state/scalar/value/number") (.num 5) .nil)) =
      .ok (.value (.number (.int 5))) := by
  rw [(slash_label_priority (seg "state/scalar/value/number") valueNumberLabel
    (by decide)).1 .number (by decide) (.num 5) .nil]
  rfl

/-- A path free of every label the Scalar decoder reserves: the four
value-type labels, the four op-definition labels, the four control-flow
labels, and the four op-reference labels. A subject link on such a path is
decoded back as a subject rather than captured by an envelope arm. -/
def linkSafe (p : List Str) : Bool :=
  (valueTypeFromPath p).isNone && (opDefTypeFromPath p).isNone &&
    !(decide (p = tcrefIfLabel)) && !(decide (p = tcrefCondLabel)) &&
    !(decide (p = tcrefWhileLabel)) && !(decide (p = tcrefForEachLabel)) &&
    !(decide (p = oprefGetLabel)) && !(decide (p = oprefPutLabel)) &&
    !(decide (p = oprefPostLabel)) && !(decide (p = oprefDeleteLabel))

/-- Wellformedness of a subject for round-tripping: identifiers and path
segments are valid, and a link subject avoids the reserved labels. -/
def wfSubject : Subject → Bool
  | .link l => l.segs.all validId && linkSafe l.segs
  | .ref id suffix => validId id && suffix.all validId

/-- Wellformedness of a leaf value: a link must have valid segments and
avoid the reserved labels. -/
def wfValue : Value → Bool
  | .none => true
  | .number _ => true
  | .string _ => true
  | .link l => l.segs.all validId && linkSafe l.segs

/-- Every key of the bindings is strictly greater than `k` (the BTreeMap
sortedness invariant, stated head-to-all so no transitivity is needed). -/
def bindingsAllGt (k : Str) : Bindings → Bool
  | .nil => true
  | .cons k2 _ tl => strLt k k2 && bindingsAllGt k tl

/-- Every key of the bindings is strictly less than `k`. -/
def bindingsAllLt : Bindings → Str → Bool
  | .nil, _ => true
  | .cons k2 _ tl, k => strLt k2 k && bindingsAllLt tl k

/-- Concatenation of two binding lists. -/
def bindingsApp : Bindings → Bindings → Bindings
  | .nil, m => m
  | .cons k v tl, m => .cons k v (bindingsApp tl m)

/-- Every key of `acc` is strictly below every key of `m`. -/
def bindingsBelow (acc : Bindings) : Bindings → Bool
  | .nil => true
  | .cons k _ tl => bindingsAllLt acc k && bindingsBelow acc tl

mutual

/-- Wellformedness of a Scalar for the round-trip: links avoid reserved
labels, all identifiers are valid, and map bindings are sorted (the BTreeMap
invariant the encoder relies on). -/
def wfScalar : Scalar → Bool
  | .value v => wfValue v
  | .ref r => wfTCRef r
  | .op d => wfOpDef d
  | .map m => wfBindingsMap m
  | .tuple t => wfScalarList t
termination_by structural s => s

/-- Wellformedness of a Scalar tuple. -/
def wfScalarList : ScalarList → Bool
  | .nil => true
  | .cons hd tl => wfScalar hd && wfScalarList tl
termination_by structural t => t

/-- Wellformedness of a sorted Scalar map payload: valid keys in strictly
increasing order, wellformed values. -/
def wfBindingsMap : Bindings → Bool
  | .nil => true
  | .cons k v tl => validId k && bindingsAllGt k tl && wfScalar v && wfBindingsMap tl
termination_by structural m => m

/-- Wellformedness of an op-definition form (insertion-ordered, so only key
validity and value wellformedness). -/
def wfForm : Bindings → Bool
  | .nil => true
  | .cons k v tl => validId k && wfScalar v && wfForm tl
termination_by structural m => m

/-- Wellformedness of a TCRef. -/
def wfTCRef : TCRef → Bool
  | .op o => wfOpRef o
  | .id i => validId i
  | .ifRef c t e => wfTCRef c && wfScalar t && wfScalar e
  | .cond c t e => wfTCRef c && wfOpDef t && wfOpDef e
  | .whileRef c cl st => wfScalar c && wfScalar cl && wfScalar st
  | .forEach its opv nm => wfScalar its && wfScalar opv && validId nm
termination_by structural r => r

/-- Wellformedness of an OpRef. -/
def wfOpRef : OpRef → Bool
  | .get s k => wfSubject s && wfScalar k
  | .put s k v => wfSubject s && wfScalar k && wfScalar v
  | .post s params => wfSubject s && wfBindingsMap params
  | .delete s k => wfSubject s && wfScalar k
termination_by structural o => o

/-- Wellformedness of an OpDef. -/
def wfOpDef : OpDef → Bool
  | .get n form => validId n && wfForm form
  | .put k v form => validId k && validId v && wfForm form
  | .post form => wfForm form
  | .delete n form => validId n && wfForm form
termination_by structural d => d

end

/-- Wellformedness of a library schema: the id link and every dependency
link have valid segments. -/
def wfLibrarySchema (s : LibrarySchema) : Bool :=
  s.id.segs.all validId && s.dependencies.all (fun l => l.segs.all validId)

/-- Wellformedness of a transaction header: wire-range fields, a zero trace
(the string form keeps no trace), and a parsable claim link. -/
def wfTxnHeader (h : TxnHeader) : Bool :=
  decide (h.id.timestamp < 2 ^ 64) && decide (h.id.nonce < 2 ^ 16) &&
    decide (h.id.trace = List.replicate 32 0) && decide (h.timestamp < 2 ^ 64) &&
    decide (h.claim.mask < 2 ^ 32) && h.claim.link.segs.all validId

theorem strLt_irrefl (s : Str) : strLt s s = false := by
  induction s with
  | nil => rfl
  | cons a as ih => simp [strLt, ih]

theorem strLt_ne (a b : Str) (h : strLt a b = true) : a ≠ b := by
  intro he
  subst he
  rw [strLt_irrefl] at h
  exact Bool.false_ne_true h

theorem strLt_asymm (a b : Str) (h : strLt a b = true) : strLt b a = false := by
  induction a generalizing b with
  | nil =>
    cases b with
    | nil => rfl
    | cons x xs => rfl
  | cons x xs ih =>
    cases b with
    | nil => simp [strLt] at h
    | cons y ys =>
      simp only [strLt] at h ⊢
      by_cases hxy : x < y
      · have hyx : ¬ y < x := fun hh => absurd (lt_trans hxy hh) (lt_irrefl x)
        simp [hxy, hyx]
      · by_cases hyx : y < x
        · simp [hxy, hyx] at h
        · simp only [hxy, hyx, if_false] at h ⊢
          exact ih ys h

theorem bindingsApp_assoc (a : Bindings) : ∀ b c : Bindings,
    bindingsApp (bindingsApp a b) c = bindingsApp a (bindingsApp b c) := by
  cases a with
  | nil => intro b c; rfl
  | cons k v tl => intro b c; simp [bindingsApp, bindingsApp_assoc tl b c]

theorem bindingsInsert_append (acc : Bindings) : ∀ (k : Str) (v : Scalar),
    bindingsAllLt acc k = true →
      bindingsInsert k v acc = bindingsApp acc (.cons k v .nil) := by
  cases acc with
  | nil => intro k v _; rfl
  | cons k2 v2 tl =>
    intro k v h
    simp only [bindingsAllLt, Bool.and_eq_true] at h
    have h1 : strLt k k2 = false := strLt_asymm k2 k h.1
    have h2 : k ≠ k2 := fun he => strLt_ne k2 k h.1 he.symm
    simp only [bindingsInsert, h1, Bool.false_eq_true, if_false, h2, if_false,
      bindingsApp, bindingsInsert_append tl k v h.2]

theorem bindingsAllLt_app (a : Bindings) : ∀ (b : Bindings) (k : Str),
    bindingsAllLt (bindingsApp a b) k = (bindingsAllLt a k && bindingsAllLt b k) := by
  cases a with
  | nil => intro b k; simp [bindingsApp, bindingsAllLt]
  | cons k2 v2 tl =>
    intro b k
    simp [bindingsApp, bindingsAllLt, bindingsAllLt_app tl b k, Bool.and_assoc]

theorem bindingsBelow_nil (m : Bindings) : bindingsBelow .nil m = true := by
  cases m with
  | nil => rfl
  | cons k v tl => simp [bindingsBelow, bindingsAllLt, bindingsBelow_nil tl]

theorem bindingsBelow_app_single (tl : Bindings) :
    ∀ (acc : Bindings) (k : Str) (v : Scalar),
      bindingsBelow acc tl = true → bindingsAllGt k tl = true →
      bindingsBelow (bindingsApp acc (.cons k v .nil)) tl = true := by
  cases tl with
  | nil => intro acc k v _ _; rfl
  | cons k2 v2 tl2 =>
    intro acc k v h1 h2
    simp only [bindingsBelow, Bool.and_eq_true] at h1
    simp only [bindingsAllGt, Bool.and_eq_true] at h2
    simp only [bindingsBelow, Bool.and_eq_true, bindingsAllLt_app]
    exact ⟨by simp [h1.1, bindingsAllLt, h2.1],
      bindingsBelow_app_single tl2 acc k v h1.2 h2.2⟩

theorem headIs_slash_segsRender (segs : List Str) :
    headIs '/' (segsRender segs) = true := by
  cases segs with
  | nil => rfl
  | cons s rest => rfl

theorem headIs_of_validId (k : Str) (h : validId k = true) :
    headIs '/' k = false ∧ headIs '$' k = false := by
  cases k with
  | nil => simp [validId] at h
  | cons c cs =>
    simp only [validId, List.all_cons, Bool.and_eq_true, validIdChar,
      decide_eq_true_eq] at h
    simp only [headIs, decide_eq_false_iff_not]
    exact ⟨h.2.1.1, h.2.1.2⟩

theorem headIs_dollar_of_slash (key : Str) (h : headIs '/' key = true) :
    headIs '$' key = false := by
  cases key with
  | nil => simp [headIs] at h
  | cons c cs =>
    simp only [headIs, decide_eq_true_eq] at h
    subst h
    rfl

theorem subjectRender_ref_heads (id : Str) (suffix : List Str) :
    headIs '/' (Subject.render (.ref id suffix)) = false ∧
      headIs '$' (Subject.render (.ref id suffix)) = true := by
  cases suffix with
  | nil => exact ⟨rfl, rfl⟩
  | cons t more => exact ⟨rfl, rfl⟩

theorem wfSubject_basic (s : Subject) (h : wfSubject s = true) :
    wfSubjectBasic s = true := by
  cases s with
  | link l =>
    simp only [wfSubject, Bool.and_eq_true] at h
    simp only [wfSubjectBasic, h.1]
  | ref id suffix => exact h

theorem linkSafe_spec (p : List Str) (h : linkSafe p = true) :
    valueTypeFromPath p = none ∧ opDefTypeFromPath p = none ∧
      p ≠ tcrefIfLabel ∧ p ≠ tcrefCondLabel ∧ p ≠ tcrefWhileLabel ∧
      p ≠ tcrefForEachLabel ∧ p ≠ oprefGetLabel ∧ p ≠ oprefPutLabel ∧
      p ≠ oprefPostLabel ∧ p ≠ oprefDeleteLabel := by
  simp only [linkSafe, Bool.and_eq_true, Bool.not_eq_eq_eq_not, Bool.not_true,
    decide_eq_false_iff_not, Option.isNone_iff_eq_none] at h
  exact ⟨h.1.1.1.1.1.1.1.1.1, h.1.1.1.1.1.1.1.1.2, h.1.1.1.1.1.1.1.2,
    h.1.1.1.1.1.1.2, h.1.1.1.1.1.2, h.1.1.1.1.2, h.1.1.1.2, h.1.1.2, h.1.2, h.2⟩

theorem decodeScalar_slash_bridge (key : Str) (p : List Str) (v : Json) (rest : JsonObj)
    (h0 : headIs '/' key = true) (hp : pathParse key = some p) :
    decodeScalar (.obj (.cons key v rest)) = decodeSlashKeyed key (some p) v := by
  cases v with
  | obj entries =>
    rw [decodeScalar.eq_7, if_pos h0, hp]
    rfl
  | arr items =>
    rw [decodeScalar.eq_8, if_pos h0, hp]
    rfl
  | null =>
    rw [decodeScalar.eq_9 _ _ _ (by intro _ h; cases h) (by intro _ h; cases h),
      if_pos h0, hp]
    rfl
  | bool b =>
    rw [decodeScalar.eq_9 _ _ _ (by intro _ h; cases h) (by intro _ h; cases h),
      if_pos h0, hp]
    rfl
  | num n =>
    rw [decodeScalar.eq_9 _ _ _ (by intro _ h; cases h) (by intro _ h; cases h),
      if_pos h0, hp]
    rfl
  | str s =>
    rw [decodeScalar.eq_9 _ _ _ (by intro _ h; cases h) (by intro _ h; cases h),
      if_pos h0, hp]
    rfl

theorem decodeScalar_dollar_bridge (key : Str) (v : Json) (rest : JsonObj)
    (h0 : headIs '/' key = false) (h1 : headIs '$' key = true) :
    decodeScalar (.obj (.cons key v rest)) =
      (match decodeDollarPayload key v with
       | .error e => .error e
       | .ok r => .ok (.ref r)) := by
  cases v with
  | obj entries => rw [decodeScalar.eq_7, if_neg (by simp [h0]), if_pos h1]
  | arr items => rw [decodeScalar.eq_8, if_neg (by simp [h0]), if_pos h1]
  | null =>
    rw [decodeScalar.eq_9 _ _ _ (by intro _ h; cases h) (by intro _ h; cases h),
      if_neg (by simp [h0]), if_pos h1]
  | bool b =>
    rw [decodeScalar.eq_9 _ _ _ (by intro _ h; cases h) (by intro _ h; cases h),
      if_neg (by simp [h0]), if_pos h1]
  | num n =>
    rw [decodeScalar.eq_9 _ _ _ (by intro _ h; cases h) (by intro _ h; cases h),
      if_neg (by simp [h0]), if_pos h1]
  | str s =>
    rw [decodeScalar.eq_9 _ _ _ (by intro _ h; cases h) (by intro _ h; cases h),
      if_neg (by simp [h0]), if_pos h1]

theorem decodeScalar_plain_bridge (key : Str) (v : Json) (rest : JsonObj)
    (h0 : headIs '/' key = false) (h1 : headIs '$' key = false) :
    decodeScalar (.obj (.cons key v rest)) =
      (match decodeScalar v with
       | .error e => .error e
       | .ok sv =>
         if validId key then
           match decodeMapRest rest (bindingsInsert key sv .nil) with
           | .error e => .error e
           | .ok m => .ok (.map m)
         else .error "invalid map key id") := by
  cases v with
  | obj entries =>
    rw [decodeScalar.eq_7, if_neg (by simp [h0]), if_neg (by simp [h1])]
  | arr items =>
    rw [decodeScalar.eq_8, if_neg (by simp [h0]), if_neg (by simp [h1])]
  | null =>
    rw [decodeScalar.eq_9 _ _ _ (by intro _ h; cases h) (by intro _ h; cases h),
      if_neg (by simp [h0]), if_neg (by simp [h1])]
  | bool b =>
    rw [decodeScalar.eq_9 _ _ _ (by intro _ h; cases h) (by intro _ h; cases h),
      if_neg (by simp [h0]), if_neg (by simp [h1])]
  | num n =>
    rw [decodeScalar.eq_9 _ _ _ (by intro _ h; cases h) (by intro _ h; cases h),
      if_neg (by simp [h0]), if_neg (by simp [h1])]
  | str s =>
    rw [decodeScalar.eq_9 _ _ _ (by intro _ h; cases h) (by intro _ h; cases h),
      if_neg (by simp [h0]), if_neg (by simp [h1])]

theorem slashKeyed_value (key : Str) (p : List Str) (v : Json) (vt : ValueType)
    (hvt : valueTypeFromPath p = some vt) :
    decodeSlashKeyed key (some p) v =
      (match decodeTypedValue vt v with
       | .error e => .error e
       | .ok value => .ok (.value value)) := by
  simp only [decodeSlashKeyed]
  rw [hvt]

theorem slashKeyed_opdef (key : Str) (p : List Str) (v : Json) (t : OpDefType)
    (hvt : valueTypeFromPath p = none) (hod : opDefTypeFromPath p = some t) :
    decodeSlashKeyed key (some p) v =
      (match decodeOpDefBody t v with
       | .error e => .error e
       | .ok d => .ok (.op d)) := by
  simp only [decodeSlashKeyed]
  rw [hvt]
  dsimp only
  rw [hod]

theorem slashKeyed_if (key : Str) (v : Json) :
    decodeSlashKeyed key (some tcrefIfLabel) v =
      (match decodeIfPayload v with
       | .error e => .error e
       | .ok r => .ok (.ref r)) := by
  simp only [decodeSlashKeyed]
  rw [show valueTypeFromPath tcrefIfLabel = none from rfl]
  dsimp only
  rw [show opDefTypeFromPath tcrefIfLabel = none from rfl]
  dsimp only
  rw [if_true]

theorem slashKeyed_cond (key : Str) (v : Json) :
    decodeSlashKeyed key (some tcrefCondLabel) v =
      (match decodeCondPayload v with
       | .error e => .error e
       | .ok r => .ok (.ref r)) := by
  simp only [decodeSlashKeyed]
  rw [show valueTypeFromPath tcrefCondLabel = none from rfl]
  dsimp only
  rw [show opDefTypeFromPath tcrefCondLabel = none from rfl]
  dsimp only
  rw [if_neg (by decide), if_true]

theorem slashKeyed_while (key : Str) (v : Json) :
    decodeSlashKeyed key (some tcrefWhileLabel) v =
      (match decodeWhilePayload v with
       | .error e => .error e
       | .ok r => .ok (.ref r)) := by
  simp only [decodeSlashKeyed]
  rw [show valueTypeFromPath tcrefWhileLabel = none from rfl]
  dsimp only
  rw [show opDefTypeFromPath tcrefWhileLabel = none from rfl]
  dsimp only
  rw [if_neg (by decide), if_neg (by decide), if_true]

theorem slashKeyed_forEach (key : Str) (v : Json) :
    decodeSlashKeyed key (some tcrefForEachLabel) v =
      (match decodeForEachPayload v with
       | .error e => .error e
       | .ok r => .ok (.ref r)) := by
  simp only [decodeSlashKeyed]
  rw [show valueTypeFromPath tcrefForEachLabel = none from rfl]
  dsimp only
  rw [show opDefTypeFromPath tcrefForEachLabel = none from rfl]
  dsimp only
  rw [if_neg (by decide), if_neg (by decide), if_neg (by decide), if_true]

theorem slashKeyed_delete (key : Str) (v : Json) :
    decodeSlashKeyed key (some oprefDeleteLabel) v =
      (match decodeOpRefEntry key v with
       | .error e => .error e
       | .ok o => .ok (.ref (.op o))) := by
  simp only [decodeSlashKeyed]
  rw [show valueTypeFromPath oprefDeleteLabel = none from rfl]
  dsimp only
  rw [show opDefTypeFromPath oprefDeleteLabel = none from rfl]
  dsimp only
  rw [if_neg (by decide), if_neg (by decide), if_neg (by decide), if_neg (by decide),
    if_true]

theorem slashKeyed_safe_arr (key : Str) (p : List Str) (items : JsonList)
    (hsafe : linkSafe p = true) :
    decodeSlashKeyed key (some p) (.arr items) =
      (match decodeScalarItems items with
       | .error e => .error e
       | .ok l => scalarFromSubjectArgs key (.seq l)) := by
  obtain ⟨hvt, hod, h1, h2, h3, h4, _, _, _, h5⟩ := linkSafe_spec p hsafe
  simp only [decodeSlashKeyed]
  rw [hvt]
  dsimp only
  rw [hod]
  dsimp only
  rw [if_neg h1, if_neg h2, if_neg h3, if_neg h4, if_neg h5]

theorem slashKeyed_safe_obj (key : Str) (p : List Str) (entries : JsonObj)
    (hsafe : linkSafe p = true) :
    decodeSlashKeyed key (some p) (.obj entries) =
      (match decodeParams entries .nil with
       | .error e => .error e
       | .ok params => scalarFromSubjectArgs key (.map params)) := by
  obtain ⟨hvt, hod, h1, h2, h3, h4, _, _, _, h5⟩ := linkSafe_spec p hsafe
  simp only [decodeSlashKeyed]
  rw [hvt]
  dsimp only
  rw [hod]
  dsimp only
  rw [if_neg h1, if_neg h2, if_neg h3, if_neg h4, if_neg h5]

theorem sfsa_empty (key : Str) (l : Link) (hlp : Link.parse key = some l) :
    scalarFromSubjectArgs key (.seq .nil) = .ok (.value (.link l)) := by
  simp only [scalarFromSubjectArgs, hlp]

theorem sfsa_one (key : Str) (s : Subject) (x : Scalar)
    (hsub : subjectFromStr key = .ok s) :
    scalarFromSubjectArgs key (.seq (.cons x .nil)) = .ok (.ref (.op (.get s x))) := by
  show (match subjectFromStr key with
    | .error e => .error e
    | .ok subject =>
      match opRefFromSubjectArgs subject (.seq (.cons x .nil)) with
      | .error e => .error e
      | .ok o => Except.ok (Scalar.ref (TCRef.op o))) = Except.ok (Scalar.ref (TCRef.op (OpRef.get s x)))
  rw [hsub]
  rfl

theorem sfsa_two (key : Str) (s : Subject) (x y : Scalar)
    (hsub : subjectFromStr key = .ok s) :
    scalarFromSubjectArgs key (.seq (.cons x (.cons y .nil))) =
      .ok (.ref (.op (.put s x y))) := by
  show (match subjectFromStr key with
    | .error e => .error e
    | .ok subject =>
      match opRefFromSubjectArgs subject (.seq (.cons x (.cons y .nil))) with
      | .error e => .error e
      | .ok o => Except.ok (Scalar.ref (TCRef.op o))) =
    Except.ok (Scalar.ref (TCRef.op (OpRef.put s x y)))
  rw [hsub]
  rfl

theorem sfsa_map (key : Str) (s : Subject) (params : Bindings)
    (hsub : subjectFromStr key = .ok s) :
    scalarFromSubjectArgs key (.map params) = .ok (.ref (.op (.post s params))) := by
  show (match subjectFromStr key with
    | .error e => .error e
    | .ok subject =>
      match opRefFromSubjectArgs subject (.map params) with
      | .error e => .error e
      | .ok o => Except.ok (Scalar.ref (TCRef.op o))) =
    Except.ok (Scalar.ref (TCRef.op (OpRef.post s params)))
  rw [hsub]
  rfl

theorem ifPayload_build (items : JsonList) (c : TCRef) (t e : Scalar)
    (hitems : decodeScalarItems items = .ok (.cons (.ref c) (.cons t (.cons e .nil)))) :
    decodeIfPayload (.arr items) = .ok (.ifRef c t e) := by
  simp only [decodeIfPayload, hitems]

set_option maxHeartbeats 1000000 in
theorem condPayload_build (j0 j1 j2 : Json) (c : TCRef) (t e : OpDef)
    (h0 : decodeScalar j0 = .ok (.ref c)) (h1 : decodeOpDefTop j1 = .ok t)
    (h2 : decodeOpDefTop j2 = .ok e) :
    decodeCondPayload (.arr (.cons j0 (.cons j1 (.cons j2 .nil)))) =
      .ok (.cond c t e) := by
  show (match decodeScalar j0 with
    | .error e => .error e
    | .ok c =>
      match decodeOpDefTop j1 with
      | .error e => .error e
      | .ok t =>
        match decodeOpDefTop j2 with
        | .error e => .error e
        | .ok el =>
          match c with
          | .ref r => Except.ok (TCRef.cond r t el)
          | _ => Except.error "invalid CondOp condition (expected ref)") =
      Except.ok (TCRef.cond c t e)
  rw [h0]
  dsimp only
  rw [h1]
  dsimp only
  rw [h2]

theorem whilePayload_build (items : JsonList) (c cl st : Scalar)
    (hitems : decodeScalarItems items = .ok (.cons c (.cons cl (.cons st .nil)))) :
    decodeWhilePayload (.arr items) = .ok (.whileRef c cl st) := by
  simp only [decodeWhilePayload, hitems]

theorem forEachPayload_build (items : JsonList) (its opv : Scalar) (nm : Str)
    (hitems : decodeScalarItems items =
      .ok (.cons its (.cons opv (.cons (.value (.string nm)) .nil))))
    (hnm : validId nm = true) :
    decodeForEachPayload (.arr items) = .ok (.forEach its opv nm) := by
  simp only [decodeForEachPayload, hitems, hnm, if_true]

theorem dollar_id_build (key : Str) (i : Str) (hid : idRefFromStr key = .ok i) :
    decodeDollarPayload key (.arr .nil) = .ok (.id i) := by
  show (match idRefFromStr key with
    | .error e => .error e
    | .ok id => Except.ok (TCRef.id id)) = Except.ok (TCRef.id i)
  rw [hid]

set_option maxHeartbeats 1000000 in
theorem dollar_seq_build (key : Str) (j0 : Json) (jrest : JsonList) (l : ScalarList)
    (s : Subject) (o : OpRef)
    (hl : decodeScalarItems (.cons j0 jrest) = .ok l)
    (hs : subjectFromStr key = .ok s)
    (ho : opRefFromSubjectArgs s (.seq l) = .ok o) :
    decodeDollarPayload key (.arr (.cons j0 jrest)) = .ok (.op o) := by
  show (match decodeScalarItems (.cons j0 jrest) with
    | .error e => .error e
    | .ok l =>
      match subjectFromStr key with
      | .error e => .error e
      | .ok subject =>
        match opRefFromSubjectArgs subject (.seq l) with
        | .error e => .error e
        | .ok o => Except.ok (TCRef.op o)) = Except.ok (TCRef.op o)
  rw [hl]
  dsimp only
  rw [hs]
  dsimp only
  rw [ho]

set_option maxHeartbeats 1000000 in
theorem dollar_map_build (key : Str) (entries : JsonObj) (params : Bindings)
    (s : Subject) (o : OpRef)
    (hparams : decodeParams entries .nil = .ok params)
    (hs : subjectFromStr key = .ok s)
    (ho : opRefFromSubjectArgs s (.map params) = .ok o) :
    decodeDollarPayload key (.obj entries) = .ok (.op o) := by
  show (match decodeParams entries .nil with
    | .error e => .error e
    | .ok params =>
      match subjectFromStr key with
      | .error e => .error e
      | .ok subject =>
        match opRefFromSubjectArgs subject (.map params) with
        | .error e => .error e
        | .ok o => Except.ok (TCRef.op o)) = Except.ok (TCRef.op o)
  rw [hparams]
  dsimp only
  rw [hs]
  dsimp only
  rw [ho]

theorem decodeIdJson_str (k : Str) (h : validId k = true) :
    decodeIdJson (.str k) = .ok k := by
  simp [decodeIdJson, h]

set_option maxHeartbeats 1000000 in
theorem opdefBody_get_build (j0 j1 : Json) (name : Str) (form : Bindings)
    (hn : decodeIdJson j0 = .ok name) (hf : decodeForm j1 = .ok form) :
    decodeOpDefBody .get (.arr (.cons j0 (.cons j1 .nil))) = .ok (.get name form) := by
  show (match decodeIdJson j0 with
    | .error e => .error e
    | .ok name =>
      match decodeForm j1 with
      | .error e => .error e
      | .ok form => Except.ok (OpDef.get name form)) = Except.ok (OpDef.get name form)
  rw [hn]
  dsimp only
  rw [hf]

set_option maxHeartbeats 1000000 in
theorem opdefBody_put_build (j0 j1 j2 : Json) (k vn : Str) (form : Bindings)
    (hk : decodeIdJson j0 = .ok k) (hv : decodeIdJson j1 = .ok vn)
    (hf : decodeForm j2 = .ok form) :
    decodeOpDefBody .put (.arr (.cons j0 (.cons j1 (.cons j2 .nil)))) =
      .ok (.put k vn form) := by
  show (match decodeIdJson j0 with
    | .error e => .error e
    | .ok k =>
      match decodeIdJson j1 with
      | .error e => .error e
      | .ok vn =>
        match decodeForm j2 with
        | .error e => .error e
        | .ok form => Except.ok (OpDef.put k vn form)) = Except.ok (OpDef.put k vn form)
  rw [hk]
  dsimp only
  rw [hv]
  dsimp only
  rw [hf]

set_option maxHeartbeats 1000000 in
theorem opdefBody_post_build (items : JsonList) (form : Bindings)
    (hf : decodeFormItems items = .ok form) :
    decodeOpDefBody .post (.arr items) = .ok (.post form) := by
  show (match decodeFormItems items with
    | .error e => .error e
    | .ok form => Except.ok (OpDef.post form)) = Except.ok (OpDef.post form)
  rw [hf]

set_option maxHeartbeats 1000000 in
theorem opdefBody_delete_build (j0 j1 : Json) (name : Str) (form : Bindings)
    (hn : decodeIdJson j0 = .ok name) (hf : decodeForm j1 = .ok form) :
    decodeOpDefBody .delete (.arr (.cons j0 (.cons j1 .nil))) = .ok (.delete name form) := by
  show (match decodeIdJson j0 with
    | .error e => .error e
    | .ok name =>
      match decodeForm j1 with
      | .error e => .error e
      | .ok form => Except.ok (OpDef.delete name form)) = Except.ok (OpDef.delete name form)
  rw [hn]
  dsimp only
  rw [hf]

set_option maxHeartbeats 1000000 in
theorem opDefTop_get_red (payload : Json) (rest : JsonObj) :
    decodeOpDefTop (.obj (.cons (segsRender opdefGetLabel) payload rest)) =
      decodeOpDefBody .get payload := rfl

set_option maxHeartbeats 1000000 in
theorem opDefTop_put_red (payload : Json) (rest : JsonObj) :
    decodeOpDefTop (.obj (.cons (segsRender opdefPutLabel) payload rest)) =
      decodeOpDefBody .put payload := rfl

set_option maxHeartbeats 1000000 in
theorem opDefTop_post_red (payload : Json) (rest : JsonObj) :
    decodeOpDefTop (.obj (.cons (segsRender opdefPostLabel) payload rest)) =
      decodeOpDefBody .post payload := rfl

set_option maxHeartbeats 1000000 in
theorem opDefTop_delete_red (payload : Json) (rest : JsonObj) :
    decodeOpDefTop (.obj (.cons (segsRender opdefDeleteLabel) payload rest)) =
      decodeOpDefBody .delete payload := rfl

set_option maxHeartbeats 1600000 in
theorem opRefEntry_sub_one (key : Str) (p : List Str) (j0 : Json) (s : Subject)
    (h0 : headIs '/' key = true) (hp : pathParse key = some p)
    (hg : p ≠ oprefGetLabel) (hpu : p ≠ oprefPutLabel) (hpo : p ≠ oprefPostLabel)
    (hd : p ≠ oprefDeleteLabel) (hsub : subjectFromStr key = .ok s) :
    decodeOpRefEntry key (.arr (.cons j0 .nil)) =
      (match decodeScalarItems (.cons j0 .nil) with
       | .error e => .error e
       | .ok l => opRefFromSubjectArgs s (.seq l)) := by
  show (if headIs '/' key then
      if pathParse key = some oprefGetLabel then (.error "expected a 2-tuple" : Except String OpRef)
      else if pathParse key = some oprefPutLabel then .error "expected a 3-tuple"
      else if pathParse key = some oprefPostLabel then .error "expected a 2-tuple"
      else if pathParse key = some oprefDeleteLabel then .error "expected a 2-tuple"
      else
        match subjectFromStr key with
        | .error e => .error e
        | .ok subject =>
          match decodeScalarItems (.cons j0 .nil) with
          | .error e => .error e
          | .ok l => opRefFromSubjectArgs subject (.seq l)
    else
      match subjectFromStr key with
      | .error e => .error e
      | .ok subject =>
        match decodeScalarItems (.cons j0 .nil) with
        | .error e => .error e
        | .ok l => opRefFromSubjectArgs subject (.seq l)) =
    (match decodeScalarItems (.cons j0 .nil) with
     | .error e => .error e
     | .ok l => opRefFromSubjectArgs s (.seq l))
  rw [h0, if_pos rfl, hp]
  rw [if_neg (fun hh => hg (Option.some.inj hh)), if_neg (fun hh => hpu (Option.some.inj hh)),
    if_neg (fun hh => hpo (Option.some.inj hh)), if_neg (fun hh => hd (Option.some.inj hh))]
  rw [hsub]

set_option maxHeartbeats 1600000 in
theorem opRefEntry_sub_two (key : Str) (p : List Str) (j0 j1 : Json) (s : Subject)
    (h0 : headIs '/' key = true) (hp : pathParse key = some p)
    (hg : p ≠ oprefGetLabel) (hpu : p ≠ oprefPutLabel) (hpo : p ≠ oprefPostLabel)
    (hd : p ≠ oprefDeleteLabel) (hsub : subjectFromStr key = .ok s) :
    decodeOpRefEntry key (.arr (.cons j0 (.cons j1 .nil))) =
      (match decodeScalarItems (.cons j0 (.cons j1 .nil)) with
       | .error e => .error e
       | .ok l => opRefFromSubjectArgs s (.seq l)) := by
  cases j1 with
  | null =>
    show (if headIs '/' key then
        if pathParse key = some oprefGetLabel then
          (match decodeSubjectJson j0 with
          | Except.error e => Except.error e
          | Except.ok subject =>
            match decodeScalar Json.null with
            | Except.error e => Except.error e
            | Except.ok k => Except.ok (OpRef.get subject k) : Except String OpRef)
        else if pathParse key = some oprefPutLabel then Except.error "expected a 3-tuple"
        else if pathParse key = some oprefPostLabel then
          match decodeSubjectJson j0 with
          | Except.error e => Except.error e
          | Except.ok subject =>
            Except.error "expected a map"
        else if pathParse key = some oprefDeleteLabel then
          match decodeSubjectJson j0 with
          | Except.error e => Except.error e
          | Except.ok subject =>
            match decodeScalar Json.null with
            | Except.error e => Except.error e
            | Except.ok k => Except.ok (OpRef.delete subject k)
        else
          match subjectFromStr key with
          | Except.error e => Except.error e
          | Except.ok subject =>
            match decodeScalarItems (JsonList.cons j0 (JsonList.cons (Json.null) JsonList.nil)) with
            | Except.error e => Except.error e
            | Except.ok l => opRefFromSubjectArgs subject (OpArgs.seq l)
      else
        match subjectFromStr key with
        | Except.error e => Except.error e
        | Except.ok subject =>
          match decodeScalarItems (JsonList.cons j0 (JsonList.cons (Json.null) JsonList.nil)) with
          | Except.error e => Except.error e
          | Except.ok l => opRefFromSubjectArgs subject (OpArgs.seq l)) =
      (match decodeScalarItems (JsonList.cons j0 (JsonList.cons (Json.null) JsonList.nil)) with
       | Except.error e => Except.error e
       | Except.ok l => opRefFromSubjectArgs s (OpArgs.seq l))
    rw [h0, if_pos rfl, hp]
    rw [if_neg (fun hh => hg (Option.some.inj hh)), if_neg (fun hh => hpu (Option.some.inj hh)),
      if_neg (fun hh => hpo (Option.some.inj hh)), if_neg (fun hh => hd (Option.some.inj hh))]
    rw [hsub]
  | bool b =>
    show (if headIs '/' key then
        if pathParse key = some oprefGetLabel then
          (match decodeSubjectJson j0 with
          | Except.error e => Except.error e
          | Except.ok subject =>
            match decodeScalar (Json.bool b) with
            | Except.error e => Except.error e
            | Except.ok k => Except.ok (OpRef.get subject k) : Except String OpRef)
        else if pathParse key = some oprefPutLabel then Except.error "expected a 3-tuple"
        else if pathParse key = some oprefPostLabel then
          match decodeSubjectJson j0 with
          | Except.error e => Except.error e
          | Except.ok subject =>
            Except.error "expected a map"
        else if pathParse key = some oprefDeleteLabel then
          match decodeSubjectJson j0 with
          | Except.error e => Except.error e
          | Except.ok subject =>
            match decodeScalar (Json.bool b) with
            | Except.error e => Except.error e
            | Except.ok k => Except.ok (OpRef.delete subject k)
        else
          match subjectFromStr key with
          | Except.error e => Except.error e
          | Except.ok subject =>
            match decodeScalarItems (JsonList.cons j0 (JsonList.cons (Json.bool b) JsonList.nil)) with
            | Except.error e => Except.error e
            | Except.ok l => opRefFromSubjectArgs subject (OpArgs.seq l)
      else
        match subjectFromStr key with
        | Except.error e => Except.error e
        | Except.ok subject =>
          match decodeScalarItems (JsonList.cons j0 (JsonList.cons (Json.bool b) JsonList.nil)) with
          | Except.error e => Except.error e
          | Except.ok l => opRefFromSubjectArgs subject (OpArgs.seq l)) =
      (match decodeScalarItems (JsonList.cons j0 (JsonList.cons (Json.bool b) JsonList.nil)) with
       | Except.error e => Except.error e
       | Except.ok l => opRefFromSubjectArgs s (OpArgs.seq l))
    rw [h0, if_pos rfl, hp]
    rw [if_neg (fun hh => hg (Option.some.inj hh)), if_neg (fun hh => hpu (Option.some.inj hh)),
      if_neg (fun hh => hpo (Option.some.inj hh)), if_neg (fun hh => hd (Option.some.inj hh))]
    rw [hsub]
  | num n =>
    show (if headIs '/' key then
        if pathParse key = some oprefGetLabel then
          (match decodeSubjectJson j0 with
          | Except.error e => Except.error e
          | Except.ok subject =>
            match decodeScalar (Json.num n) with
            | Except.error e => Except.error e
            | Except.ok k => Except.ok (OpRef.get subject k) : Except String OpRef)
        else if pathParse key = some oprefPutLabel then Except.error "expected a 3-tuple"
        else if pathParse key = some oprefPostLabel then
          match decodeSubjectJson j0 with
          | Except.error e => Except.error e
          | Except.ok subject =>
            Except.error "expected a map"
        else if pathParse key = some oprefDeleteLabel then
          match decodeSubjectJson j0 with
          | Except.error e => Except.error e
          | Except.ok subject =>
            match decodeScalar (Json.num n) with
            | Except.error e => Except.error e
            | Except.ok k => Except.ok (OpRef.delete subject k)
        else
          match subjectFromStr key with
          | Except.error e => Except.error e
          | Except.ok subject =>
            match decodeScalarItems (JsonList.cons j0 (JsonList.cons (Json.num n) JsonList.nil)) with
            | Except.error e => Except.error e
            | Except.ok l => opRefFromSubjectArgs subject (OpArgs.seq l)
      else
        match subjectFromStr key with
        | Except.error e => Except.error e
        | Except.ok subject =>
          match decodeScalarItems (JsonList.cons j0 (JsonList.cons (Json.num n) JsonList.nil)) with
          | Except.error e => Except.error e
          | Except.ok l => opRefFromSubjectArgs subject (OpArgs.seq l)) =
      (match decodeScalarItems (JsonList.cons j0 (JsonList.cons (Json.num n) JsonList.nil)) with
       | Except.error e => Except.error e
       | Except.ok l => opRefFromSubjectArgs s (OpArgs.seq l))
    rw [h0, if_pos rfl, hp]
    rw [if_neg (fun hh => hg (Option.some.inj hh)), if_neg (fun hh => hpu (Option.some.inj hh)),
      if_neg (fun hh => hpo (Option.some.inj hh)), if_neg (fun hh => hd (Option.some.inj hh))]
    rw [hsub]
  | str st =>
    show (if headIs '/' key then
        if pathParse key = some oprefGetLabel then
          (match decodeSubjectJson j0 with
          | Except.error e => Except.error e
          | Except.ok subject =>
            match decodeScalar (Json.str st) with
            | Except.error e => Except.error e
            | Except.ok k => Except.ok (OpRef.get subject k) : Except String OpRef)
        else if pathParse key = some oprefPutLabel then Except.error "expected a 3-tuple"
        else if pathParse key = some oprefPostLabel then
          match decodeSubjectJson j0 with
          | Except.error e => Except.error e
          | Except.ok subject =>
            Except.error "expected a map"
        else if pathParse key = some oprefDeleteLabel then
          match decodeSubjectJson j0 with
          | Except.error e => Except.error e
          | Except.ok subject =>
            match decodeScalar (Json.str st) with
            | Except.error e => Except.error e
            | Except.ok k => Except.ok (OpRef.delete subject k)
        else
          match subjectFromStr key with
          | Except.error e => Except.error e
          | Except.ok subject =>
            match decodeScalarItems (JsonList.cons j0 (JsonList.cons (Json.str st) JsonList.nil)) with
            | Except.error e => Except.error e
            | Except.ok l => opRefFromSubjectArgs subject (OpArgs.seq l)
      else
        match subjectFromStr key with
        | Except.error e => Except.error e
        | Except.ok subject =>
          match decodeScalarItems (JsonList.cons j0 (JsonList.cons (Json.str st) JsonList.nil)) with
          | Except.error e => Except.error e
          | Except.ok l => opRefFromSubjectArgs subject (OpArgs.seq l)) =
      (match decodeScalarItems (JsonList.cons j0 (JsonList.cons (Json.str st) JsonList.nil)) with
       | Except.error e => Except.error e
       | Except.ok l => opRefFromSubjectArgs s (OpArgs.seq l))
    rw [h0, if_pos rfl, hp]
    rw [if_neg (fun hh => hg (Option.some.inj hh)), if_neg (fun hh => hpu (Option.some.inj hh)),
      if_neg (fun hh => hpo (Option.some.inj hh)), if_neg (fun hh => hd (Option.some.inj hh))]
    rw [hsub]
  | arr w =>
    show (if headIs '/' key then
        if pathParse key = some oprefGetLabel then
          (match decodeSubjectJson j0 with
          | Except.error e => Except.error e
          | Except.ok subject =>
            match decodeScalar (Json.arr w) with
            | Except.error e => Except.error e
            | Except.ok k => Except.ok (OpRef.get subject k) : Except String OpRef)
        else if pathParse key = some oprefPutLabel then Except.error "expected a 3-tuple"
        else if pathParse key = some oprefPostLabel then
          match decodeSubjectJson j0 with
          | Except.error e => Except.error e
          | Except.ok subject =>
            Except.error "expected a map"
        else if pathParse key = some oprefDeleteLabel then
          match decodeSubjectJson j0 with
          | Except.error e => Except.error e
          | Except.ok subject =>
            match decodeScalar (Json.arr w) with
            | Except.error e => Except.error e
            | Except.ok k => Except.ok (OpRef.delete subject k)
        else
          match subjectFromStr key with
          | Except.error e => Except.error e
          | Except.ok subject =>
            match decodeScalarItems (JsonList.cons j0 (JsonList.cons (Json.arr w) JsonList.nil)) with
            | Except.error e => Except.error e
            | Except.ok l => opRefFromSubjectArgs subject (OpArgs.seq l)
      else
        match subjectFromStr key with
        | Except.error e => Except.error e
        | Except.ok subject =>
          match decodeScalarItems (JsonList.cons j0 (JsonList.cons (Json.arr w) JsonList.nil)) with
          | Except.error e => Except.error e
          | Except.ok l => opRefFromSubjectArgs subject (OpArgs.seq l)) =
      (match decodeScalarItems (JsonList.cons j0 (JsonList.cons (Json.arr w) JsonList.nil)) with
       | Except.error e => Except.error e
       | Except.ok l => opRefFromSubjectArgs s (OpArgs.seq l))
    rw [h0, if_pos rfl, hp]
    rw [if_neg (fun hh => hg (Option.some.inj hh)), if_neg (fun hh => hpu (Option.some.inj hh)),
      if_neg (fun hh => hpo (Option.some.inj hh)), if_neg (fun hh => hd (Option.some.inj hh))]
    rw [hsub]
  | obj w =>
    show (if headIs '/' key then
        if pathParse key = some oprefGetLabel then
          (match decodeSubjectJson j0 with
          | Except.error e => Except.error e
          | Except.ok subject =>
            match decodeScalar (Json.obj w) with
            | Except.error e => Except.error e
            | Except.ok k => Except.ok (OpRef.get subject k) : Except String OpRef)
        else if pathParse key = some oprefPutLabel then Except.error "expected a 3-tuple"
        else if pathParse key = some oprefPostLabel then
          match decodeSubjectJson j0 with
          | Except.error e => Except.error e
          | Except.ok subject =>
            match (Json.obj w) with
            | Json.obj entries =>
              match decodeParams entries .nil with
              | .error e => .error e
              | .ok params => Except.ok (OpRef.post subject params)
            | _ => Except.error "expected a map"
        else if pathParse key = some oprefDeleteLabel then
          match decodeSubjectJson j0 with
          | Except.error e => Except.error e
          | Except.ok subject =>
            match decodeScalar (Json.obj w) with
            | Except.error e => Except.error e
            | Except.ok k => Except.ok (OpRef.delete subject k)
        else
          match subjectFromStr key with
          | Except.error e => Except.error e
          | Except.ok subject =>
            match decodeScalarItems (JsonList.cons j0 (JsonList.cons (Json.obj w) JsonList.nil)) with
            | Except.error e => Except.error e
            | Except.ok l => opRefFromSubjectArgs subject (OpArgs.seq l)
      else
        match subjectFromStr key with
        | Except.error e => Except.error e
        | Except.ok subject =>
          match decodeScalarItems (JsonList.cons j0 (JsonList.cons (Json.obj w) JsonList.nil)) with
          | Except.error e => Except.error e
          | Except.ok l => opRefFromSubjectArgs subject (OpArgs.seq l)) =
      (match decodeScalarItems (JsonList.cons j0 (JsonList.cons (Json.obj w) JsonList.nil)) with
       | Except.error e => Except.error e
       | Except.ok l => opRefFromSubjectArgs s (OpArgs.seq l))
    rw [h0, if_pos rfl, hp]
    rw [if_neg (fun hh => hg (Option.some.inj hh)), if_neg (fun hh => hpu (Option.some.inj hh)),
      if_neg (fun hh => hpo (Option.some.inj hh)), if_neg (fun hh => hd (Option.some.inj hh))]
    rw [hsub]

set_option maxHeartbeats 1600000 in
theorem opRefEntry_sub_map (key : Str) (p : List Str) (entries : JsonObj) (s : Subject)
    (h0 : headIs '/' key = true) (hp : pathParse key = some p)
    (hg : p ≠ oprefGetLabel) (hpu : p ≠ oprefPutLabel) (hpo : p ≠ oprefPostLabel)
    (hd : p ≠ oprefDeleteLabel) (hsub : subjectFromStr key = .ok s) :
    decodeOpRefEntry key (.obj entries) =
      (match decodeParams entries .nil with
       | .error e => .error e
       | .ok params => opRefFromSubjectArgs s (.map params)) := by
  show (if headIs '/' key then
      if pathParse key = some oprefGetLabel then (.error "expected a 2-tuple" : Except String OpRef)
      else if pathParse key = some oprefPutLabel then .error "expected a 3-tuple"
      else if pathParse key = some oprefPostLabel then .error "expected a 2-tuple"
      else if pathParse key = some oprefDeleteLabel then .error "expected a 2-tuple"
      else
        match subjectFromStr key with
        | .error e => .error e
        | .ok subject =>
          match decodeParams entries .nil with
          | .error e => .error e
          | .ok params => opRefFromSubjectArgs subject (.map params)
    else
      match subjectFromStr key with
      | .error e => .error e
      | .ok subject =>
        match decodeParams entries .nil with
        | .error e => .error e
        | .ok params => opRefFromSubjectArgs subject (.map params)) =
    (match decodeParams entries .nil with
     | .error e => .error e
     | .ok params => opRefFromSubjectArgs s (.map params))
  rw [h0, if_pos rfl, hp]
  rw [if_neg (fun hh => hg (Option.some.inj hh)), if_neg (fun hh => hpu (Option.some.inj hh)),
    if_neg (fun hh => hpo (Option.some.inj hh)), if_neg (fun hh => hd (Option.some.inj hh))]
  rw [hsub]

set_option maxHeartbeats 1600000 in
theorem opRefEntry_delete_red (S : Str) (j1 : Json) :
    decodeOpRefEntry (segsRender oprefDeleteLabel) (.arr (.cons (.str S) (.cons j1 .nil))) =
      (match subjectFromStr S with
       | .error e => .error e
       | .ok subject =>
         match decodeScalar j1 with
         | .error e => .error e
         | .ok k => Except.ok (OpRef.delete subject k)) := rfl

set_option maxHeartbeats 1000000 in
theorem tcrefEntry_if_red (v : Json) :
    decodeTCRefEntry (segsRender tcrefIfLabel) v = decodeIfPayload v := rfl

set_option maxHeartbeats 1000000 in
theorem tcrefEntry_cond_red (v : Json) :
    decodeTCRefEntry (segsRender tcrefCondLabel) v = decodeCondPayload v := rfl

set_option maxHeartbeats 1000000 in
theorem tcrefEntry_while_red (v : Json) :
    decodeTCRefEntry (segsRender tcrefWhileLabel) v = decodeWhilePayload v := rfl

set_option maxHeartbeats 1000000 in
theorem tcrefEntry_forEach_red (v : Json) :
    decodeTCRefEntry (segsRender tcrefForEachLabel) v = decodeForEachPayload v := rfl

set_option maxHeartbeats 1000000 in
theorem tcrefEntry_delete_red (v : Json) :
    decodeTCRefEntry (segsRender oprefDeleteLabel) v =
      (match decodeOpRefEntry (segsRender oprefDeleteLabel) v with
       | .error e => .error e
       | .ok o => .ok (.op o)) := rfl

theorem tcrefEntry_dollar (key : Str) (v : Json) (h0 : headIs '/' key = false)
    (h1 : headIs '$' key = true) :
    decodeTCRefEntry key v = decodeDollarPayload key v := by
  simp only [decodeTCRefEntry, h0, h1, Bool.false_eq_true, if_false, if_true]
  rfl

theorem tcrefEntry_subject (key : Str) (p : List Str) (v : Json)
    (h0 : headIs '/' key = true) (hp : pathParse key = some p)
    (h1 : p ≠ tcrefIfLabel) (h2 : p ≠ tcrefCondLabel) (h3 : p ≠ tcrefWhileLabel)
    (h4 : p ≠ tcrefForEachLabel) :
    decodeTCRefEntry key v =
      (match decodeOpRefEntry key v with
       | .error e => .error e
       | .ok o => .ok (.op o)) := by
  have hds : headIs '$' key = false := headIs_dollar_of_slash key h0
  simp only [decodeTCRefEntry, h0, hds, hp, if_true, Bool.false_eq_true, if_false]
  rw [if_neg (fun hh => h1 (Option.some.inj hh)), if_neg (fun hh => h2 (Option.some.inj hh)),
    if_neg (fun hh => h3 (Option.some.inj hh)), if_neg (fun hh => h4 (Option.some.inj hh))]

theorem decodeScalar_null : decodeScalar .null = .ok (.value .none) := rfl

theorem decodeScalar_bool (b : Bool) :
    decodeScalar (.bool b) = .ok (.value (.number (.bool b))) := rfl

theorem decodeScalar_num (n : Int) :
    decodeScalar (.num n) = .ok (.value (.number (.int n))) := rfl

theorem decodeScalar_str (s : Str) :
    decodeScalar (.str s) = .ok (.value (.string s)) := rfl

theorem decodeScalar_objnil : decodeScalar (.obj .nil) = .ok (.map .nil) := rfl

theorem decodeScalar_arr_red (items : JsonList) :
    decodeScalar (.arr items) =
      (match decodeScalarItems items with
       | .error e => .error e
       | .ok l => .ok (.tuple l)) := rfl

theorem decodeScalarItems_nil : decodeScalarItems .nil = .ok .nil := rfl

theorem decodeScalarItems_cons (j : Json) (tl : JsonList) (s : Scalar) (l : ScalarList)
    (hj : decodeScalar j = .ok s) (htl : decodeScalarItems tl = .ok l) :
    decodeScalarItems (.cons j tl) = .ok (.cons s l) := by
  show (match decodeScalar j with
    | .error e => .error e
    | .ok s =>
      match decodeScalarItems tl with
      | .error e => .error e
      | .ok l => Except.ok (ScalarList.cons s l)) = Except.ok (ScalarList.cons s l)
  rw [hj]
  dsimp only
  rw [htl]

theorem decodeForm_arr (items : JsonList) :
    decodeForm (.arr items) = decodeFormItems items := rfl

theorem decodeFormItems_nil : decodeFormItems .nil = .ok .nil := rfl

theorem decodeFormItems_cons (k : Str) (jv : Json) (tl : JsonList) (sv : Scalar)
    (rest : Bindings) (hk : validId k = true) (hv : decodeScalar jv = .ok sv)
    (htl : decodeFormItems tl = .ok rest) :
    decodeFormItems (.cons (.arr (.cons (.str k) (.cons jv .nil))) tl) =
      .ok (.cons k sv rest) := by
  show (match decodeIdJson (.str k) with
    | .error e => .error e
    | .ok id =>
      match decodeScalar jv with
      | .error e => .error e
      | .ok sv =>
        match decodeFormItems tl with
        | .error e => .error e
        | .ok rest => Except.ok (Bindings.cons id sv rest)) = Except.ok (Bindings.cons k sv rest)
  rw [decodeIdJson_str k hk]
  dsimp only
  rw [hv]
  dsimp only
  rw [htl]

theorem decodeParams_cons (k : Str) (jv : Json) (tl : JsonObj) (acc : Bindings)
    (sv : Scalar) (hk : validId k = true) (hv : decodeScalar jv = .ok sv) :
    decodeParams (.cons k jv tl) acc = decodeParams tl (bindingsInsert k sv acc) := by
  show (if validId k = true then
      match decodeScalar jv with
      | .error e => .error e
      | .ok sv => decodeParams tl (bindingsInsert k sv acc)
    else .error "invalid Id key") = decodeParams tl (bindingsInsert k sv acc)
  rw [hk, if_pos rfl, hv]

theorem decodeMapRest_nil (acc : Bindings) : decodeMapRest .nil acc = .ok acc := rfl

theorem decodeMapRest_cons (k : Str) (jv : Json) (tl : JsonObj) (acc : Bindings)
    (sv : Scalar) (hk : validId k = true) (hv : decodeScalar jv = .ok sv) :
    decodeMapRest (.cons k jv tl) acc = decodeMapRest tl (bindingsInsert k sv acc) := by
  show (match decodeScalar jv with
    | .error e => .error e
    | .ok sv =>
      if validId k = true then decodeMapRest tl (bindingsInsert k sv acc)
      else .error "invalid map key id") = decodeMapRest tl (bindingsInsert k sv acc)
  rw [hv]
  dsimp only
  rw [hk, if_pos rfl]

theorem rt_value (v : Value) (h : wfValue v = true) :
    decodeScalar (encodeScalar (.value v)) = .ok (.value v) := by
  cases v with
  | none => exact decodeScalar_null
  | number n => cases n with
    | bool b => exact decodeScalar_bool b
    | int n => exact decodeScalar_num n
  | string s => exact decodeScalar_str s
  | link l =>
    simp only [wfValue, Bool.and_eq_true] at h
    have hkey : encodeScalar (.value (.link l)) =
        Json.obj (.cons (segsRender l.segs) (.arr .nil) .nil) := rfl
    rw [hkey,
      decodeScalar_slash_bridge (segsRender l.segs) l.segs (.arr .nil) .nil
        (headIs_slash_segsRender l.segs) (pathParse_segsRender l.segs h.1),
      slashKeyed_safe_arr (segsRender l.segs) l.segs .nil h.2, decodeScalarItems_nil]
    exact sfsa_empty (segsRender l.segs) l (Link.parse_render l h.1)

theorem rt_linkList (ls : List Link)
    (h : ls.all (fun l => l.segs.all validId) = true) :
    decodeLinkListJ (encodeLinkList ls) = .ok ls := by
  induction ls with
  | nil => rfl
  | cons l rest ih =>
    simp only [List.all_cons, Bool.and_eq_true] at h
    simp only [encodeLinkList, decodeLinkListJ, Link.parse_render l h.1, ih h.2]

theorem rt_librarySchema (s : LibrarySchema) (h : wfLibrarySchema s = true) :
    decodeLibrarySchema (encodeLibrarySchema s) = .ok s := by
  simp only [wfLibrarySchema, Bool.and_eq_true] at h
  show decodeLibrarySchemaLoop
      (.cons (seg "id") (.str s.id.render)
        (.cons (seg "version") (.str s.version)
          (.cons (seg "dependencies") (.arr (encodeLinkList s.dependencies)) .nil)))
      none none none = .ok s
  rw [show decodeLibrarySchemaLoop
      (.cons (seg "id") (.str s.id.render)
        (.cons (seg "version") (.str s.version)
          (.cons (seg "dependencies") (.arr (encodeLinkList s.dependencies)) .nil)))
      none none none =
    (match Link.parse s.id.render with
     | some l => decodeLibrarySchemaLoop
        (.cons (seg "version") (.str s.version)
          (.cons (seg "dependencies") (.arr (encodeLinkList s.dependencies)) .nil))
        (some l) none none
     | none => .error "invalid link") from rfl]
  rw [Link.parse_render s.id h.1]
  show decodeLibrarySchemaLoop
      (.cons (seg "dependencies") (.arr (encodeLinkList s.dependencies)) .nil)
      (some s.id) (some s.version) none = .ok s
  rw [show decodeLibrarySchemaLoop
      (.cons (seg "dependencies") (.arr (encodeLinkList s.dependencies)) .nil)
      (some s.id) (some s.version) none =
    (match decodeLinkListJ (encodeLinkList s.dependencies) with
     | .ok ls => decodeLibrarySchemaLoop .nil (some s.id) (some s.version) (some ls)
     | .error e => .error e) from rfl]
  rw [rt_linkList s.dependencies h.2]
  rfl

theorem rt_txnHeader (h : TxnHeader) (hwf : wfTxnHeader h = true) :
    decodeTxnHeader (encodeTxnHeader h) = .ok h := by
  simp only [wfTxnHeader, Bool.and_eq_true, decide_eq_true_eq] at hwf
  obtain ⟨⟨⟨⟨⟨hts, hnonce⟩, htrace⟩, htime⟩, hmask⟩, hlink⟩ := hwf
  have hid : txnIdFromStr (txnIdRender h.id) = .ok h.id := by
    rw [txnIdFromStr_render h.id hts hnonce]
    unfold TxnId.fromParts
    rw [← htrace]
  have hclaim : decodeClaimTupleU32
      (.arr (.cons (.str h.claim.link.render) (.cons (.num (h.claim.mask : Int)) .nil))) =
      .ok h.claim := by
    have hrange : (0 : Int) ≤ (h.claim.mask : Int) ∧ (h.claim.mask : Int) < 2 ^ 32 := by
      constructor
      · exact Int.ofNat_nonneg _
      · exact_mod_cast hmask
    simp only [decodeClaimTupleU32, hrange, and_self, if_true,
      Link.parse_render h.claim.link hlink, Int.toNat_natCast]
  have htsr : ((0 : Int) ≤ (h.timestamp : Int) ∧ (h.timestamp : Int) < 2 ^ 64) := by
    constructor
    · exact Int.ofNat_nonneg _
    · exact_mod_cast htime
  show decodeTxnHeaderLoop
      (.cons (seg "id") (.str (txnIdRender h.id))
        (.cons (seg "timestamp") (.num (h.timestamp : Int))
          (.cons (seg "claim")
            (.arr (.cons (.str h.claim.link.render) (.cons (.num (h.claim.mask : Int)) .nil)))
            .nil))) none none none = .ok h
  rw [dloop_id_step, hid]
  show decodeTxnHeaderLoop
      (.cons (seg "timestamp") (.num (h.timestamp : Int))
        (.cons (seg "claim")
          (.arr (.cons (.str h.claim.link.render) (.cons (.num (h.claim.mask : Int)) .nil)))
          .nil)) (some h.id) none none = .ok h
  rw [dloop_ts_step, if_pos htsr]
  rw [dloop_claim_step, hclaim]
  show Except.ok ⟨h.id, ((h.timestamp : Int)).toNat, h.claim⟩ = .ok h
  rw [Int.toNat_natCast]

theorem bindingsApp_nil_right (acc : Bindings) : bindingsApp acc .nil = acc := by
  cases acc with
  | nil => rfl
  | cons k v tl => simp [bindingsApp, bindingsApp_nil_right tl]

mutual

theorem rt_scalar (s : Scalar) : wfScalar s = true →
    decodeScalar (encodeScalar s) = .ok s := by
  cases s with
  | value v => exact fun h => rt_value v h
  | ref r => exact fun h => rt_tcref r h
  | op d =>
    intro h
    cases d with
    | get name form =>
      have hd := rt_opdef (.get name form) h
      rw [show encodeOpDef (OpDef.get name form) =
        Json.obj (.cons (segsRender opdefGetLabel)
          (.arr (.cons (.str name) (.cons (.arr (encodeFormItems form)) .nil))) .nil) from rfl,
        opDefTop_get_red] at hd
      rw [show encodeScalar (.op (.get name form)) =
        Json.obj (.cons (segsRender opdefGetLabel)
          (.arr (.cons (.str name) (.cons (.arr (encodeFormItems form)) .nil))) .nil) from rfl,
        decodeScalar_slash_bridge _ opdefGetLabel _ _ (headIs_slash_segsRender _) (by decide),
        slashKeyed_opdef _ _ _ .get (by decide) (by decide)]
      rw [hd]
    | put k vn form =>
      have hd := rt_opdef (.put k vn form) h
      rw [show encodeOpDef (OpDef.put k vn form) =
        Json.obj (.cons (segsRender opdefPutLabel)
          (.arr (.cons (.str k) (.cons (.str vn) (.cons (.arr (encodeFormItems form)) .nil)))) .nil) from rfl,
        opDefTop_put_red] at hd
      rw [show encodeScalar (.op (.put k vn form)) =
        Json.obj (.cons (segsRender opdefPutLabel)
          (.arr (.cons (.str k) (.cons (.str vn) (.cons (.arr (encodeFormItems form)) .nil)))) .nil) from rfl,
        decodeScalar_slash_bridge _ opdefPutLabel _ _ (headIs_slash_segsRender _) (by decide),
        slashKeyed_opdef _ _ _ .put (by decide) (by decide)]
      rw [hd]
    | post form =>
      have hd := rt_opdef (.post form) h
      rw [show encodeOpDef (OpDef.post form) =
        Json.obj (.cons (segsRender opdefPostLabel) (.arr (encodeFormItems form)) .nil) from rfl,
        opDefTop_post_red] at hd
      rw [show encodeScalar (.op (.post form)) =
        Json.obj (.cons (segsRender opdefPostLabel) (.arr (encodeFormItems form)) .nil) from rfl,
        decodeScalar_slash_bridge _ opdefPostLabel _ _ (headIs_slash_segsRender _) (by decide),
        slashKeyed_opdef _ _ _ .post (by decide) (by decide)]
      rw [hd]
    | delete name form =>
      have hd := rt_opdef (.delete name form) h
      rw [show encodeOpDef (OpDef.delete name form) =
        Json.obj (.cons (segsRender opdefDeleteLabel)
          (.arr (.cons (.str name) (.cons (.arr (encodeFormItems form)) .nil))) .nil) from rfl,
        opDefTop_delete_red] at hd
      rw [show encodeScalar (.op (.delete name form)) =
        Json.obj (.cons (segsRender opdefDeleteLabel)
          (.arr (.cons (.str name) (.cons (.arr (encodeFormItems form)) .nil))) .nil) from rfl,
        decodeScalar_slash_bridge _ opdefDeleteLabel _ _ (headIs_slash_segsRender _) (by decide),
        slashKeyed_opdef _ _ _ .delete (by decide) (by decide)]
      rw [hd]
  | map m =>
    intro h
    cases m with
    | nil => exact decodeScalar_objnil
    | cons k v tl =>
      simp only [wfScalar, wfBindingsMap, Bool.and_eq_true] at h
      obtain ⟨⟨⟨hk, hgt⟩, hv⟩, htl⟩ := h
      have hheads := headIs_of_validId k hk
      rw [show encodeScalar (.map (.cons k v tl)) =
        Json.obj (.cons k (encodeScalar v) (encodeBindingsObj tl)) from rfl,
        decodeScalar_plain_bridge k _ _ hheads.1 hheads.2, rt_scalar v hv]
      dsimp only
      rw [hk, if_pos rfl]
      have hrest := rt_mapRest tl (.cons k v .nil) htl
        (bindingsBelow_app_single tl .nil k v (bindingsBelow_nil tl) hgt)
      rw [show bindingsInsert k v Bindings.nil = Bindings.cons k v Bindings.nil from rfl,
        hrest]
      rfl
  | tuple t =>
    intro h
    rw [show encodeScalar (.tuple t) = Json.arr (encodeScalarItems t) from rfl,
      decodeScalar_arr_red, rt_items t h]

theorem rt_items (t : ScalarList) : wfScalarList t = true →
    decodeScalarItems (encodeScalarItems t) = .ok t := by
  cases t with
  | nil => intro _; rfl
  | cons hd tl =>
    intro h
    simp only [wfScalarList, Bool.and_eq_true] at h
    rw [show encodeScalarItems (.cons hd tl) =
      JsonList.cons (encodeScalar hd) (encodeScalarItems tl) from rfl]
    exact decodeScalarItems_cons _ _ _ _ (rt_scalar hd h.1) (rt_items tl h.2)

theorem rt_mapRest (m : Bindings) : ∀ acc : Bindings, wfBindingsMap m = true →
    bindingsBelow acc m = true →
    decodeMapRest (encodeBindingsObj m) acc = .ok (bindingsApp acc m) := by
  cases m with
  | nil =>
    intro acc _ _
    rw [show encodeBindingsObj .nil = JsonObj.nil from rfl, decodeMapRest_nil,
      bindingsApp_nil_right]
  | cons k v tl =>
    intro acc hwf hbel
    simp only [wfBindingsMap, Bool.and_eq_true] at hwf
    obtain ⟨⟨⟨hk, hgt⟩, hv⟩, htl⟩ := hwf
    simp only [bindingsBelow, Bool.and_eq_true] at hbel
    rw [show encodeBindingsObj (.cons k v tl) =
      JsonObj.cons k (encodeScalar v) (encodeBindingsObj tl) from rfl,
      decodeMapRest_cons k _ _ acc v hk (rt_scalar v hv),
      bindingsInsert_append acc k v hbel.1,
      rt_mapRest tl (bindingsApp acc (.cons k v .nil)) htl
        (bindingsBelow_app_single tl acc k v hbel.2 hgt),
      bindingsApp_assoc acc (.cons k v .nil) tl]
    rfl

theorem rt_params (m : Bindings) : ∀ acc : Bindings, wfBindingsMap m = true →
    bindingsBelow acc m = true →
    decodeParams (encodeBindingsObj m) acc = .ok (bindingsApp acc m) := by
  cases m with
  | nil =>
    intro acc _ _
    rw [show encodeBindingsObj .nil = JsonObj.nil from rfl,
      show decodeParams JsonObj.nil acc = .ok acc from rfl, bindingsApp_nil_right]
  | cons k v tl =>
    intro acc hwf hbel
    simp only [wfBindingsMap, Bool.and_eq_true] at hwf
    obtain ⟨⟨⟨hk, hgt⟩, hv⟩, htl⟩ := hwf
    simp only [bindingsBelow, Bool.and_eq_true] at hbel
    rw [show encodeBindingsObj (.cons k v tl) =
      JsonObj.cons k (encodeScalar v) (encodeBindingsObj tl) from rfl,
      decodeParams_cons k _ _ acc v hk (rt_scalar v hv),
      bindingsInsert_append acc k v hbel.1,
      rt_params tl (bindingsApp acc (.cons k v .nil)) htl
        (bindingsBelow_app_single tl acc k v hbel.2 hgt),
      bindingsApp_assoc acc (.cons k v .nil) tl]
    rfl

theorem rt_formItems (m : Bindings) : wfForm m = true →
    decodeFormItems (encodeFormItems m) = .ok m := by
  cases m with
  | nil => intro _; rfl
  | cons k v tl =>
    intro h
    simp only [wfForm, Bool.and_eq_true] at h
    obtain ⟨⟨hk, hv⟩, htl⟩ := h
    rw [show encodeFormItems (.cons k v tl) =
      JsonList.cons (.arr (.cons (.str k) (.cons (encodeScalar v) .nil)))
        (encodeFormItems tl) from rfl]
    exact decodeFormItems_cons k _ _ v tl hk (rt_scalar v hv) (rt_formItems tl htl)

theorem rt_opdef (d : OpDef) : wfOpDef d = true →
    decodeOpDefTop (encodeOpDef d) = .ok d := by
  cases d with
  | get name form =>
    intro h
    simp only [wfOpDef, Bool.and_eq_true] at h
    rw [show encodeOpDef (.get name form) =
      Json.obj (.cons (segsRender opdefGetLabel)
        (.arr (.cons (.str name) (.cons (.arr (encodeFormItems form)) .nil))) .nil) from rfl,
      opDefTop_get_red]
    exact opdefBody_get_build _ _ name form (decodeIdJson_str name h.1)
      (by rw [decodeForm_arr]; exact rt_formItems form h.2)
  | put k vn form =>
    intro h
    simp only [wfOpDef, Bool.and_eq_true] at h
    obtain ⟨⟨hk, hvn⟩, hform⟩ := h
    rw [show encodeOpDef (.put k vn form) =
      Json.obj (.cons (segsRender opdefPutLabel)
        (.arr (.cons (.str k) (.cons (.str vn) (.cons (.arr (encodeFormItems form)) .nil)))) .nil) from rfl,
      opDefTop_put_red]
    exact opdefBody_put_build _ _ _ k vn form (decodeIdJson_str k hk)
      (decodeIdJson_str vn hvn) (by rw [decodeForm_arr]; exact rt_formItems form hform)
  | post form =>
    intro h
    rw [show encodeOpDef (.post form) =
      Json.obj (.cons (segsRender opdefPostLabel) (.arr (encodeFormItems form)) .nil) from rfl,
      opDefTop_post_red]
    exact opdefBody_post_build _ form (rt_formItems form h)
  | delete name form =>
    intro h
    simp only [wfOpDef, Bool.and_eq_true] at h
    rw [show encodeOpDef (.delete name form) =
      Json.obj (.cons (segsRender opdefDeleteLabel)
        (.arr (.cons (.str name) (.cons (.arr (encodeFormItems form)) .nil))) .nil) from rfl,
      opDefTop_delete_red]
    exact opdefBody_delete_build _ _ name form (decodeIdJson_str name h.1)
      (by rw [decodeForm_arr]; exact rt_formItems form h.2)

theorem rt_opref (o : OpRef) : wfOpRef o = true →
    decodeScalar (encodeOpRef o) = .ok (.ref (.op o)) := by
  cases o with
  | get s k =>
    intro h
    simp only [wfOpRef, Bool.and_eq_true] at h
    obtain ⟨hs, hk⟩ := h
    have hone : decodeScalarItems (.cons (encodeScalar k) .nil) = .ok (.cons k .nil) :=
      decodeScalarItems_cons _ _ _ _ (rt_scalar k hk) decodeScalarItems_nil
    have hsub : subjectFromStr (Subject.render s) = .ok s :=
      subjectFromStr_render s (wfSubject_basic s hs)
    cases s with
    | link l =>
      simp only [wfSubject, Bool.and_eq_true] at hs
      rw [show encodeOpRef (.get (.link l) k) =
        Json.obj (.cons (segsRender l.segs) (.arr (.cons (encodeScalar k) .nil)) .nil) from rfl,
        decodeScalar_slash_bridge _ l.segs _ _ (headIs_slash_segsRender _)
          (pathParse_segsRender l.segs hs.1),
        slashKeyed_safe_arr _ l.segs _ hs.2, hone]
      dsimp only
      exact sfsa_one _ (.link l) k hsub
    | ref id suffix =>
      have hh := subjectRender_ref_heads id suffix
      rw [show encodeOpRef (.get (.ref id suffix) k) =
        Json.obj (.cons (Subject.render (.ref id suffix))
          (.arr (.cons (encodeScalar k) .nil)) .nil) from rfl,
        decodeScalar_dollar_bridge _ _ _ hh.1 hh.2,
        dollar_seq_build _ _ _ (.cons k .nil) (.ref id suffix) (.get (.ref id suffix) k)
          hone hsub rfl]
  | put s k vl =>
    intro h
    simp only [wfOpRef, Bool.and_eq_true] at h
    obtain ⟨⟨hs, hk⟩, hvl⟩ := h
    have htwo : decodeScalarItems (.cons (encodeScalar k) (.cons (encodeScalar vl) .nil)) =
        .ok (.cons k (.cons vl .nil)) :=
      decodeScalarItems_cons _ _ _ _ (rt_scalar k hk)
        (decodeScalarItems_cons _ _ _ _ (rt_scalar vl hvl) decodeScalarItems_nil)
    have hsub : subjectFromStr (Subject.render s) = .ok s :=
      subjectFromStr_render s (wfSubject_basic s hs)
    cases s with
    | link l =>
      simp only [wfSubject, Bool.and_eq_true] at hs
      rw [show encodeOpRef (.put (.link l) k vl) =
        Json.obj (.cons (segsRender l.segs)
          (.arr (.cons (encodeScalar k) (.cons (encodeScalar vl) .nil))) .nil) from rfl,
        decodeScalar_slash_bridge _ l.segs _ _ (headIs_slash_segsRender _)
          (pathParse_segsRender l.segs hs.1),
        slashKeyed_safe_arr _ l.segs _ hs.2, htwo]
      dsimp only
      exact sfsa_two _ (.link l) k vl hsub
    | ref id suffix =>
      have hh := subjectRender_ref_heads id suffix
      rw [show encodeOpRef (.put (.ref id suffix) k vl) =
        Json.obj (.cons (Subject.render (.ref id suffix))
          (.arr (.cons (encodeScalar k) (.cons (encodeScalar vl) .nil))) .nil) from rfl,
        decodeScalar_dollar_bridge _ _ _ hh.1 hh.2,
        dollar_seq_build _ _ _ (.cons k (.cons vl .nil)) (.ref id suffix)
          (.put (.ref id suffix) k vl) htwo hsub rfl]
  | post s params =>
    intro h
    simp only [wfOpRef, Bool.and_eq_true] at h
    obtain ⟨hs, hparams⟩ := h
    have hp2 : decodeParams (encodeBindingsObj params) .nil = .ok params := by
      rw [rt_params params .nil hparams (bindingsBelow_nil params)]
      rfl
    have hsub : subjectFromStr (Subject.render s) = .ok s :=
      subjectFromStr_render s (wfSubject_basic s hs)
    cases s with
    | link l =>
      simp only [wfSubject, Bool.and_eq_true] at hs
      rw [show encodeOpRef (.post (.link l) params) =
        Json.obj (.cons (segsRender l.segs) (.obj (encodeBindingsObj params)) .nil) from rfl,
        decodeScalar_slash_bridge _ l.segs _ _ (headIs_slash_segsRender _)
          (pathParse_segsRender l.segs hs.1),
        slashKeyed_safe_obj _ l.segs _ hs.2, hp2]
      dsimp only
      exact sfsa_map _ (.link l) params hsub
    | ref id suffix =>
      have hh := subjectRender_ref_heads id suffix
      rw [show encodeOpRef (.post (.ref id suffix) params) =
        Json.obj (.cons (Subject.render (.ref id suffix))
          (.obj (encodeBindingsObj params)) .nil) from rfl,
        decodeScalar_dollar_bridge _ _ _ hh.1 hh.2,
        dollar_map_build _ _ params (.ref id suffix) (.post (.ref id suffix) params)
          hp2 hsub rfl]
  | delete s k =>
    intro h
    simp only [wfOpRef, Bool.and_eq_true] at h
    obtain ⟨hs, hk⟩ := h
    have hsub : subjectFromStr (Subject.render s) = .ok s :=
      subjectFromStr_render s (wfSubject_basic s hs)
    rw [show encodeOpRef (.delete s k) =
      Json.obj (.cons (segsRender oprefDeleteLabel)
        (.arr (.cons (.str (Subject.render s)) (.cons (encodeScalar k) .nil))) .nil) from rfl,
      decodeScalar_slash_bridge _ oprefDeleteLabel _ _ (headIs_slash_segsRender _) (by decide),
      slashKeyed_delete, opRefEntry_delete_red, hsub]
    dsimp only
    rw [rt_scalar k hk]

theorem rt_oprefEntry (o : OpRef) : wfOpRef o = true →
    decodeTCRefTop (encodeOpRef o) = .ok (.op o) := by
  cases o with
  | get s k =>
    intro h
    simp only [wfOpRef, Bool.and_eq_true] at h
    obtain ⟨hs, hk⟩ := h
    have hone : decodeScalarItems (.cons (encodeScalar k) .nil) = .ok (.cons k .nil) :=
      decodeScalarItems_cons _ _ _ _ (rt_scalar k hk) decodeScalarItems_nil
    have hsub : subjectFromStr (Subject.render s) = .ok s :=
      subjectFromStr_render s (wfSubject_basic s hs)
    cases s with
    | link l =>
      simp only [wfSubject, Bool.and_eq_true] at hs
      obtain ⟨hvt, hod, hc1, hc2, hc3, hc4, hg, hpu, hpo, hdel⟩ := linkSafe_spec _ hs.2
      rw [show decodeTCRefTop (encodeOpRef (.get (.link l) k)) =
        decodeTCRefEntry (segsRender l.segs) (.arr (.cons (encodeScalar k) .nil)) from rfl,
        tcrefEntry_subject _ l.segs _ (headIs_slash_segsRender _)
          (pathParse_segsRender l.segs hs.1) hc1 hc2 hc3 hc4,
        opRefEntry_sub_one _ l.segs _ (.link l) (headIs_slash_segsRender _)
          (pathParse_segsRender l.segs hs.1) hg hpu hpo hdel hsub, hone]
      rfl
    | ref id suffix =>
      have hh := subjectRender_ref_heads id suffix
      rw [show decodeTCRefTop (encodeOpRef (.get (.ref id suffix) k)) =
        decodeTCRefEntry (Subject.render (.ref id suffix))
          (.arr (.cons (encodeScalar k) .nil)) from rfl,
        tcrefEntry_dollar _ _ hh.1 hh.2,
        dollar_seq_build _ _ _ (.cons k .nil) (.ref id suffix) (.get (.ref id suffix) k)
          hone hsub rfl]
  | put s k vl =>
    intro h
    simp only [wfOpRef, Bool.and_eq_true] at h
    obtain ⟨⟨hs, hk⟩, hvl⟩ := h
    have htwo : decodeScalarItems (.cons (encodeScalar k) (.cons (encodeScalar vl) .nil)) =
        .ok (.cons k (.cons vl .nil)) :=
      decodeScalarItems_cons _ _ _ _ (rt_scalar k hk)
        (decodeScalarItems_cons _ _ _ _ (rt_scalar vl hvl) decodeScalarItems_nil)
    have hsub : subjectFromStr (Subject.render s) = .ok s :=
      subjectFromStr_render s (wfSubject_basic s hs)
    cases s with
    | link l =>
      simp only [wfSubject, Bool.and_eq_true] at hs
      obtain ⟨hvt, hod, hc1, hc2, hc3, hc4, hg, hpu, hpo, hdel⟩ := linkSafe_spec _ hs.2
      rw [show decodeTCRefTop (encodeOpRef (.put (.link l) k vl)) =
        decodeTCRefEntry (segsRender l.segs)
          (.arr (.cons (encodeScalar k) (.cons (encodeScalar vl) .nil))) from rfl,
        tcrefEntry_subject _ l.segs _ (headIs_slash_segsRender _)
          (pathParse_segsRender l.segs hs.1) hc1 hc2 hc3 hc4,
        opRefEntry_sub_two _ l.segs _ _ (.link l) (headIs_slash_segsRender _)
          (pathParse_segsRender l.segs hs.1) hg hpu hpo hdel hsub, htwo]
      rfl
    | ref id suffix =>
      have hh := subjectRender_ref_heads id suffix
      rw [show decodeTCRefTop (encodeOpRef (.put (.ref id suffix) k vl)) =
        decodeTCRefEntry (Subject.render (.ref id suffix))
          (.arr (.cons (encodeScalar k) (.cons (encodeScalar vl) .nil))) from rfl,
        tcrefEntry_dollar _ _ hh.1 hh.2,
        dollar_seq_build _ _ _ (.cons k (.cons vl .nil)) (.ref id suffix)
          (.put (.ref id suffix) k vl) htwo hsub rfl]
  | post s params =>
    intro h
    simp only [wfOpRef, Bool.and_eq_true] at h
    obtain ⟨hs, hparams⟩ := h
    have hp2 : decodeParams (encodeBindingsObj params) .nil = .ok params := by
      rw [rt_params params .nil hparams (bindingsBelow_nil params)]
      rfl
    have hsub : subjectFromStr (Subject.render s) = .ok s :=
      subjectFromStr_render s (wfSubject_basic s hs)
    cases s with
    | link l =>
      simp only [wfSubject, Bool.and_eq_true] at hs
      obtain ⟨hvt, hod, hc1, hc2, hc3, hc4, hg, hpu, hpo, hdel⟩ := linkSafe_spec _ hs.2
      rw [show decodeTCRefTop (encodeOpRef (.post (.link l) params)) =
        decodeTCRefEntry (segsRender l.segs) (.obj (encodeBindingsObj params)) from rfl,
        tcrefEntry_subject _ l.segs _ (headIs_slash_segsRender _)
          (pathParse_segsRender l.segs hs.1) hc1 hc2 hc3 hc4,
        opRefEntry_sub_map _ l.segs _ (.link l) (headIs_slash_segsRender _)
          (pathParse_segsRender l.segs hs.1) hg hpu hpo hdel hsub, hp2]
      rfl
    | ref id suffix =>
      have hh := subjectRender_ref_heads id suffix
      rw [show decodeTCRefTop (encodeOpRef (.post (.ref id suffix) params)) =
        decodeTCRefEntry (Subject.render (.ref id suffix))
          (.obj (encodeBindingsObj params)) from rfl,
        tcrefEntry_dollar _ _ hh.1 hh.2,
        dollar_map_build _ _ params (.ref id suffix) (.post (.ref id suffix) params)
          hp2 hsub rfl]
  | delete s k =>
    intro h
    simp only [wfOpRef, Bool.and_eq_true] at h
    obtain ⟨hs, hk⟩ := h
    have hsub : subjectFromStr (Subject.render s) = .ok s :=
      subjectFromStr_render s (wfSubject_basic s hs)
    rw [show decodeTCRefTop (encodeOpRef (.delete s k)) =
      decodeTCRefEntry (segsRender oprefDeleteLabel)
        (.arr (.cons (.str (Subject.render s)) (.cons (encodeScalar k) .nil))) from rfl,
      tcrefEntry_delete_red, opRefEntry_delete_red, hsub]
    dsimp only
    rw [rt_scalar k hk]

theorem rt_tcref (r : TCRef) : wfTCRef r = true →
    decodeScalar (encodeTCRef r) = .ok (.ref r) := by
  cases r with
  | op o => exact fun h => rt_opref o h
  | id i =>
    intro h
    rw [show encodeTCRef (.id i) = Json.obj (.cons ('$' :: i) (.arr .nil) .nil) from rfl,
      decodeScalar_dollar_bridge ('$' :: i) (.arr .nil) .nil rfl rfl,
      dollar_id_build _ i (idRefFromStr_render i h)]
  | ifRef c t e =>
    intro h
    simp only [wfTCRef, Bool.and_eq_true] at h
    obtain ⟨⟨hc, ht⟩, he⟩ := h
    have hitems : decodeScalarItems
        (.cons (encodeTCRef c) (.cons (encodeScalar t) (.cons (encodeScalar e) .nil))) =
        .ok (.cons (.ref c) (.cons t (.cons e .nil))) :=
      decodeScalarItems_cons _ _ _ _ (rt_tcref c hc)
        (decodeScalarItems_cons _ _ _ _ (rt_scalar t ht)
          (decodeScalarItems_cons _ _ _ _ (rt_scalar e he) decodeScalarItems_nil))
    rw [show encodeTCRef (.ifRef c t e) =
      Json.obj (.cons (segsRender tcrefIfLabel)
        (.arr (.cons (encodeTCRef c) (.cons (encodeScalar t) (.cons (encodeScalar e) .nil)))) .nil) from rfl,
      decodeScalar_slash_bridge _ tcrefIfLabel _ _ (headIs_slash_segsRender _) (by decide),
      slashKeyed_if, ifPayload_build _ c t e hitems]
  | cond c t e =>
    intro h
    simp only [wfTCRef, Bool.and_eq_true] at h
    obtain ⟨⟨hc, ht⟩, he⟩ := h
    rw [show encodeTCRef (.cond c t e) =
      Json.obj (.cons (segsRender tcrefCondLabel)
        (.arr (.cons (encodeTCRef c) (.cons (encodeOpDef t) (.cons (encodeOpDef e) .nil)))) .nil) from rfl,
      decodeScalar_slash_bridge _ tcrefCondLabel _ _ (headIs_slash_segsRender _) (by decide),
      slashKeyed_cond,
      condPayload_build _ _ _ c t e (rt_tcref c hc) (rt_opdef t ht) (rt_opdef e he)]
  | whileRef c cl st =>
    intro h
    simp only [wfTCRef, Bool.and_eq_true] at h
    obtain ⟨⟨hc, hcl⟩, hst⟩ := h
    have hitems : decodeScalarItems
        (.cons (encodeScalar c) (.cons (encodeScalar cl) (.cons (encodeScalar st) .nil))) =
        .ok (.cons c (.cons cl (.cons st .nil))) :=
      decodeScalarItems_cons _ _ _ _ (rt_scalar c hc)
        (decodeScalarItems_cons _ _ _ _ (rt_scalar cl hcl)
          (decodeScalarItems_cons _ _ _ _ (rt_scalar st hst) decodeScalarItems_nil))
    rw [show encodeTCRef (.whileRef c cl st) =
      Json.obj (.cons (segsRender tcrefWhileLabel)
        (.arr (.cons (encodeScalar c) (.cons (encodeScalar cl) (.cons (encodeScalar st) .nil)))) .nil) from rfl,
      decodeScalar_slash_bridge _ tcrefWhileLabel _ _ (headIs_slash_segsRender _) (by decide),
      slashKeyed_while, whilePayload_build _ c cl st hitems]
  | forEach its opv nm =>
    intro h
    simp only [wfTCRef, Bool.and_eq_true] at h
    obtain ⟨⟨hits, hopv⟩, hnm⟩ := h
    have hitems : decodeScalarItems
        (.cons (encodeScalar its) (.cons (encodeScalar opv) (.cons (.str nm) .nil))) =
        .ok (.cons its (.cons opv (.cons (.value (.string nm)) .nil))) :=
      decodeScalarItems_cons _ _ _ _ (rt_scalar its hits)
        (decodeScalarItems_cons _ _ _ _ (rt_scalar opv hopv)
          (decodeScalarItems_cons _ _ _ _ (decodeScalar_str nm) decodeScalarItems_nil))
    rw [show encodeTCRef (.forEach its opv nm) =
      Json.obj (.cons (segsRender tcrefForEachLabel)
        (.arr (.cons (encodeScalar its) (.cons (encodeScalar opv) (.cons (.str nm) .nil)))) .nil) from rfl,
      decodeScalar_slash_bridge _ tcrefForEachLabel _ _ (headIs_slash_segsRender _) (by decide),
      slashKeyed_forEach, forEachPayload_build _ its opv nm hitems hnm]

theorem rt_tcrefTop (r : TCRef) : wfTCRef r = true →
    decodeTCRefTop (encodeTCRef r) = .ok r := by
  cases r with
  | op o => exact fun h => rt_oprefEntry o h
  | id i =>
    intro h
    rw [show decodeTCRefTop (encodeTCRef (.id i)) =
      decodeTCRefEntry ('$' :: i) (.arr .nil) from rfl,
      tcrefEntry_dollar ('$' :: i) (.arr .nil) rfl rfl,
      dollar_id_build _ i (idRefFromStr_render i h)]
  | ifRef c t e =>
    intro h
    simp only [wfTCRef, Bool.and_eq_true] at h
    obtain ⟨⟨hc, ht⟩, he⟩ := h
    have hitems : decodeScalarItems
        (.cons (encodeTCRef c) (.cons (encodeScalar t) (.cons (encodeScalar e) .nil))) =
        .ok (.cons (.ref c) (.cons t (.cons e .nil))) :=
      decodeScalarItems_cons _ _ _ _ (rt_tcref c hc)
        (decodeScalarItems_cons _ _ _ _ (rt_scalar t ht)
          (decodeScalarItems_cons _ _ _ _ (rt_scalar e he) decodeScalarItems_nil))
    rw [show decodeTCRefTop (encodeTCRef (.ifRef c t e)) =
      decodeTCRefEntry (segsRender tcrefIfLabel)
        (.arr (.cons (encodeTCRef c) (.cons (encodeScalar t) (.cons (encodeScalar e) .nil)))) from rfl,
      tcrefEntry_if_red, ifPayload_build _ c t e hitems]
  | cond c t e =>
    intro h
    simp only [wfTCRef, Bool.and_eq_true] at h
    obtain ⟨⟨hc, ht⟩, he⟩ := h
    rw [show decodeTCRefTop (encodeTCRef (.cond c t e)) =
      decodeTCRefEntry (segsRender tcrefCondLabel)
        (.arr (.cons (encodeTCRef c) (.cons (encodeOpDef t) (.cons (encodeOpDef e) .nil)))) from rfl,
      tcrefEntry_cond_red,
      condPayload_build _ _ _ c t e (rt_tcref c hc) (rt_opdef t ht) (rt_opdef e he)]
  | whileRef c cl st =>
    intro h
    simp only [wfTCRef, Bool.and_eq_true] at h
    obtain ⟨⟨hc, hcl⟩, hst⟩ := h
    have hitems : decodeScalarItems
        (.cons (encodeScalar c) (.cons (encodeScalar cl) (.cons (encodeScalar st) .nil))) =
        .ok (.cons c (.cons cl (.cons st .nil))) :=
      decodeScalarItems_cons _ _ _ _ (rt_scalar c hc)
        (decodeScalarItems_cons _ _ _ _ (rt_scalar cl hcl)
          (decodeScalarItems_cons _ _ _ _ (rt_scalar st hst) decodeScalarItems_nil))
    rw [show decodeTCRefTop (encodeTCRef (.whileRef c cl st)) =
      decodeTCRefEntry (segsRender tcrefWhileLabel)
        (.arr (.cons (encodeScalar c) (.cons (encodeScalar cl) (.cons (encodeScalar st) .nil)))) from rfl,
      tcrefEntry_while_red, whilePayload_build _ c cl st hitems]
  | forEach its opv nm =>
    intro h
    simp only [wfTCRef, Bool.and_eq_true] at h
    obtain ⟨⟨hits, hopv⟩, hnm⟩ := h
    have hitems : decodeScalarItems
        (.cons (encodeScalar its) (.cons (encodeScalar opv) (.cons (.str nm) .nil))) =
        .ok (.cons its (.cons opv (.cons (.value (.string nm)) .nil))) :=
      decodeScalarItems_cons _ _ _ _ (rt_scalar its hits)
        (decodeScalarItems_cons _ _ _ _ (rt_scalar opv hopv)
          (decodeScalarItems_cons _ _ _ _ (decodeScalar_str nm) decodeScalarItems_nil))
    rw [show decodeTCRefTop (encodeTCRef (.forEach its opv nm)) =
      decodeTCRefEntry (segsRender tcrefForEachLabel)
        (.arr (.cons (encodeScalar its) (.cons (encodeScalar opv) (.cons (.str nm) .nil)))) from rfl,
      tcrefEntry_forEach_red, forEachPayload_build _ its opv nm hitems hnm]

end

/-- A Scalar whose OpRef subject is the link /state/scalar/ref/if: its
encoding is a single-entry map keyed by a control-flow label. -/
def c1Cex : Scalar := .ref (.op (.get (.link ⟨tcrefIfLabel⟩) (.value .none)))

/-- C1 counterexample: the encoding of a GET op ref whose subject link is
the reserved If label decodes as an If envelope and fails, so
decode(encode s) = s does not hold for every Scalar. -/
theorem scalar_roundtrip_cex :
    decodeScalar (encodeScalar c1Cex) =
      .error "invalid If ref params (expected 3 elements)" ∧
    decodeScalar (encodeScalar c1Cex) ≠ .ok c1Cex := by
  refine ⟨rfl, ?_⟩
  intro h
  rw [show decodeScalar (encodeScalar c1Cex) =
    .error "invalid If ref params (expected 3 elements)" from rfl] at h
  exact Except.noConfusion h

/-- C1 (amended): the round-trip decode(encode x) = x holds for every
wellformed value of each codec family - Scalars whose identifiers are valid,
whose maps are sorted, and whose subject links avoid the reserved decoder
labels; OpDefs; TCRefs (through the TCRef codec); LibrarySchemas with valid
links; and TxnHeaders with wire-range fields and a zero TxnId trace. -/
theorem roundtrip_wellformed :
    (∀ s : Scalar, wfScalar s = true → decodeScalar (encodeScalar s) = .ok s) ∧
    (∀ d : OpDef, wfOpDef d = true → decodeOpDefTop (encodeOpDef d) = .ok d) ∧
    (∀ r : TCRef, wfTCRef r = true → decodeTCRefTop (encodeTCRef r) = .ok r) ∧
    (∀ ls : LibrarySchema, wfLibrarySchema ls = true →
      decodeLibrarySchema (encodeLibrarySchema ls) = .ok ls) ∧
    (∀ h : TxnHeader, wfTxnHeader h = true → decodeTxnHeader (encodeTxnHeader h) = .ok h) :=
  ⟨rt_scalar, rt_opdef, rt_tcrefTop, rt_librarySchema, rt_txnHeader⟩

theorem roundtrip_wellformed_witness :
    (wfScalar (.ref (.ifRef (.id (seg "x")) (.value .none) (.value (.number (.int 2))))) = true ∧
      decodeScalar (encodeScalar
          (.ref (.ifRef (.id (seg "x")) (.value .none) (.value (.number (.int 2)))))) =
        .ok (.ref (.ifRef (.id (seg "x")) (.value .none) (.value (.number (.int 2)))))) ∧
    (wfTxnHeader ⟨TxnId.fromParts 7 1, 7, ⟨⟨[seg "lib"]⟩, 5⟩⟩ = true ∧
      decodeTxnHeader (encodeTxnHeader ⟨TxnId.fromParts 7 1, 7, ⟨⟨[seg "lib"]⟩, 5⟩⟩) =
        .ok ⟨TxnId.fromParts 7 1, 7, ⟨⟨[seg "lib"]⟩, 5⟩⟩) :=
  ⟨⟨by decide, roundtrip_wellformed.1 _ (by decide)⟩,
    ⟨by decide, roundtrip_wellformed.2.2.2.2 _ (by decide)⟩⟩
